import Mathlib

/-!
Verification development for the TEMdb fake-data generator
(`scripts/generate_fake_data.py`).

The generator walks the hierarchy specimen → block → cutting session →
section → ROI → imaging session → acquisition → tile, issuing one client
call per created record.  We embed it shallowly:

* Randomness: the source draws from Python's global `random`.  We model
  the random source as two ambient streams, `rQ : Nat → ℚ` for
  `random.uniform` / `random.gauss` draws and `rI : Nat → ℤ` for
  `random.randint` / `random.choices` draws, consumed in source order.
  Each sampler returns the next raw stream value (the sampled value);
  theorems quantifying over all streams therefore cover every value the
  samplers may return, and concrete counterexamples instantiate the
  streams with values inside the samplers' actual ranges.
* The TEMdb client is external to the repository.  Each `create` call is
  modelled as appending one event to a trace and echoing the record back
  with a fresh server-assigned `_id` (the spec: the client returns "the
  stored record (including server-assigned fields)").  A failure oracle
  `Nat → Option ErrKind` decides, per client-call index, whether the call
  raises, modelling the client's error taxonomy (generic client error,
  not-found error, any other exception).
* Wall-clock timestamps (`datetime.now()`) appear only inside id strings
  and record fields no claim depends on; they are omitted from the
  embedding.
* Python floats are modelled as exact rationals; `int(...)` truncation
  toward zero is `pyInt`.
-/

/-- Error taxonomy of the client: `TEMdbClientError`, `NotFoundError`,
or any other exception type. -/
inductive ErrKind where
  | temdbClientError
  | notFoundError
  | otherError
deriving DecidableEq, Repr

/-- Python `int(x)` on a float: truncation toward zero. -/
def pyInt (q : ℚ) : ℤ := if 0 ≤ q then ⌊q⌋ else ⌈q⌉

/-- Python `f"{n:03d}"` for a nonnegative integer. -/
def pad3 (n : ℕ) : String :=
  if n < 10 then "00" ++ toString n
  else if n < 100 then "0" ++ toString n
  else toString n

/-- Python `f"{n:05d}"` for a nonnegative integer. -/
def pad5 (n : ℕ) : String :=
  if n < 10 then "0000" ++ toString n
  else if n < 100 then "000" ++ toString n
  else if n < 1000 then "00" ++ toString n
  else if n < 10000 then "0" ++ toString n
  else toString n

/-- `int(f"{a}{b:03d}")`: decimal concatenation of `a` with `b` padded
to width 3 (source line 329, the caller-assigned ROI id). -/
def roiIdNum (a b : ℕ) : ℤ :=
  if b < 1000 then (a * 1000 + b : ℕ)
  else (a * 10 ^ (Nat.toDigits 10 b).length + b : ℕ)

/-- Record echoed by `client.specimen.create` (source lines 117-125).
`sid` is the server-assigned `_id`. -/
structure Specimen where
  specimen_id : String
  description : String
  sid : ℕ
deriving DecidableEq, Repr

/-- Record echoed by `client.block.create` (source lines 128-139). -/
structure Block where
  block_id : String
  specimen_id : String
  microCT_resolution : ℚ
  sid : ℕ
deriving DecidableEq, Repr

/-- Record echoed by `client.cutting_session.create` (source lines
142-155). -/
structure CuttingSession where
  cutting_session_id : String
  block_id : String
  operator : String
  media_type : String
  media_id : String
  sid : ℕ
deriving DecidableEq, Repr

/-- Record echoed by `client.section.create` (source lines 158-171). -/
structure SectionRec where
  section_id : String
  section_number : ℕ
  cutting_session_id : String
  media_type : String
  media_id : String
  relative_position : ℕ
  sid : ℕ
deriving DecidableEq, Repr

/-- Record echoed by `client.roi.create` (source lines 174-187).  The
`specimen_id` and `block_id` fields hold the parents' server-assigned
`_id`s (source lines 182-183), unlike the string ids elsewhere. -/
structure ROI where
  roi_id : ℤ
  section_number : ℕ
  aperture_width_height : ℚ × ℚ
  aperture_centroid : ℚ × ℚ
  specimen_id : ℕ
  block_id : ℕ
  sid : ℕ
deriving DecidableEq, Repr

/-- Record echoed by `client.imaging_session.create` (source lines
190-212). -/
structure ImagingSession where
  session_id : String
  specimen_id : String
  block_id : String
  media_type : String
  media_id : String
  sid : ℕ
deriving DecidableEq, Repr

/-- Record echoed by `client.acquisition.create` (source lines 215-248).
Constant hardware/calibration settings that no claim touches are kept as
the scalar acquisition settings actually varied by the arguments. -/
structure Acquisition where
  acquisition_id : String
  roi_id : ℤ
  imaging_session_id : String
  montage_id : String
  tile_size : ℤ × ℤ
  tile_overlap : ℚ
  status : String
  sid : ℕ
deriving DecidableEq, Repr

/-- One matcher record (source lines 98-114, `generate_matcher_data`). -/
structure Matcher where
  row : ℤ
  col : ℤ
  dX : ℚ
  dY : ℚ
  dXsd : ℚ
  dYsd : ℚ
  distance : ℚ
  rotation : ℚ
  match_quality : ℚ
  position : ℤ
  pX : List ℚ
  pY : List ℚ
  qX : List ℚ
  qY : List ℚ
deriving DecidableEq, Repr

/-- Tile record passed to `client.acquisition.add_tile` (source lines
264-282). -/
structure Tile where
  tile_id : String
  acquisition_id : String
  stage_position : ℚ × ℚ
  raster_row : ℤ
  raster_col : ℤ
  focus_score : ℚ
  min_value : ℤ
  max_value : ℤ
  mean_value : ℤ
  std_value : ℚ
  image_path : String
  matcher : List Matcher
  raster_index : ℕ
deriving DecidableEq, Repr

/-- One client call.  Every call the generator makes appends exactly one
event: seven `create` calls, `imaging_session.add_rois`, and
`acquisition.add_tile`. -/
inductive Event where
  | createSpecimen (r : Specimen)
  | createBlock (r : Block)
  | createCuttingSession (r : CuttingSession)
  | createSection (r : SectionRec)
  | createROI (r : ROI)
  | createImagingSession (r : ImagingSession)
  | addRois (session_id : String) (roi_id : ℤ)
  | createAcquisition (r : Acquisition)
  | addTile (acquisition_id : String) (r : Tile)
deriving DecidableEq, Repr

/-- Generator state: positions in the two random streams, the next
server-assigned `_id`, and the trace of client calls made so far. -/
structure GState where
  iQ : ℕ
  iI : ℕ
  nextId : ℕ
  events : List Event
deriving DecidableEq, Repr

/-- Ambient environment: the two random streams and the failure oracle
(per client-call index, `none` = call succeeds). -/
structure Env where
  rQ : ℕ → ℚ
  rI : ℕ → ℤ
  oracle : ℕ → Option ErrKind

/-- The generator's effect monad: random draws, client calls (which may
raise), and the accumulated trace. -/
def M (α : Type) : Type := Env → GState → Except ErrKind α × GState

/-- Return for `M`. -/
def Mpure (a : α) : M α := fun _ s => (Except.ok a, s)

/-- Sequencing for `M`: an exception short-circuits, keeping the state
(and hence the trace) at the point it was raised. -/
def Mbind (m : M α) (f : α → M β) : M β := fun env s =>
  match m env s with
  | (Except.ok a, s') => f a env s'
  | (Except.error e, s') => (Except.error e, s')

instance : Monad M where
  pure := Mpure
  bind := Mbind

/-- `random.uniform(a, b)`: consume one rational draw.  The bounds are
kept for source fidelity; the model returns the raw stream value. -/
def uniform (_a _b : ℚ) : M ℚ :=
  fun env s => (Except.ok (env.rQ s.iQ), { s with iQ := s.iQ + 1 })

/-- `random.gauss(mu, sigma)`: consume one rational draw. -/
def gauss (_mu _sigma : ℚ) : M ℚ :=
  fun env s => (Except.ok (env.rQ s.iQ), { s with iQ := s.iQ + 1 })

/-- `random.randint(a, b)`: consume one integer draw. -/
def randint (_a _b : ℤ) : M ℤ :=
  fun env s => (Except.ok (env.rI s.iI), { s with iI := s.iI + 1 })

/-- `[random.uniform(a, b) for _ in range(n)]`. -/
def uniformList (n : ℕ) (a b : ℚ) : M (List ℚ) :=
  match n with
  | 0 => pure []
  | n + 1 => do
    let x ← uniform a b
    let xs ← uniformList n a b
    pure (x :: xs)

/-- A client call that creates a record: consults the failure oracle at
the current call index (= number of events so far); on success it
assigns the next server `_id`, appends the event and echoes the record
back; on failure it raises and creates nothing. -/
def clientCreate (mkR : ℕ → α) (mkE : α → Event) : M α :=
  fun env s =>
    match env.oracle s.events.length with
    | none =>
      let r := mkR s.nextId
      (Except.ok r,
        { s with nextId := s.nextId + 1, events := s.events ++ [mkE r] })
    | some e => (Except.error e, s)

/-- A client call that attaches to an existing record (`add_rois`,
`add_tile`): same failure model, no new server `_id`. -/
def clientCall (e : Event) : M Unit :=
  fun env s =>
    match env.oracle s.events.length with
    | none => (Except.ok (), { s with events := s.events ++ [e] })
    | some k => (Except.error k, s)

/-- The command-line arguments of the generator (source lines 18-69).
Sizes are Python ints, `overlap` a float (here an exact rational); the
count parameters are used only as `range` bounds, so naturals. -/
structure Args where
  tile_size : ℤ
  overlap : ℚ
  stage_size : ℤ
  num_blocks : ℕ
  cutting_sessions_per_block : ℕ
  sections_per_session : ℕ
  rois_per_imaging_session : ℕ
deriving DecidableEq, Repr

/-- The parser's default arguments (source lines 27-67). -/
def defaultArgs : Args :=
  { tile_size := 21512
    overlap := 6 / 100
    stage_size := 100000
    num_blocks := 2
    cutting_sessions_per_block := 1
    sections_per_session := 10
    rois_per_imaging_session := 5 }

/-- Result of `generate_jittered_roi` (source lines 72-82): the dict
with `aperture_centroid` and `aperture_width_height`. -/
structure JitteredROI where
  aperture_centroid : ℚ × ℚ
  aperture_width_height : ℚ × ℚ
deriving DecidableEq, Repr

/-- `generate_jittered_roi` (source lines 72-82): each of centroid x,
centroid y, width, height is the base value plus an independent
`uniform(-jitter, jitter)` draw, in that order. -/
def generate_jittered_roi (base_x base_y base_width base_height : ℚ)
    (jitter : ℚ := 5) : M JitteredROI := do
  let cx ← uniform (-jitter) jitter
  let cy ← uniform (-jitter) jitter
  let w ← uniform (-jitter) jitter
  let h ← uniform (-jitter) jitter
  pure { aperture_centroid := (base_x + cx, base_y + cy)
         aperture_width_height := (base_width + w, base_height + h) }

/-- `calculate_stage_position` (source lines 85-91). -/
def calculate_stage_position (row col : ℤ) (tile_size : ℤ) (overlap : ℚ) :
    M (ℚ × ℚ) := do
  let effective_tile_size : ℚ := (tile_size : ℚ) * (1 - overlap)
  let x : ℚ := (col : ℚ) * effective_tile_size
  let y : ℚ := (row : ℚ) * effective_tile_size
  let jitter_x ← uniform (-(tile_size : ℚ) * (1 / 100)) ((tile_size : ℚ) * (1 / 100))
  let jitter_y ← uniform (-(tile_size : ℚ) * (1 / 100)) ((tile_size : ℚ) * (1 / 100))
  pure (x + jitter_x, y + jitter_y)

/-- `generate_focus_score` (source lines 94-95): one Gaussian sample
clamped by `max(0, min(24, ·))`. -/
def generate_focus_score (base_score : ℚ := 21) (variation : ℚ := 1 / 2) :
    M ℚ := do
  let g ← gauss base_score variation
  pure (max 0 (min 24 g))

/-- `generate_matcher_data` (source lines 98-114); the dict entries are
evaluated in source order, consuming 7 scalar and 16 list draws. -/
def generate_matcher_data (row col : ℤ) : M Matcher := do
  let dX ← uniform (-5) 5
  let dY ← uniform (-5) 5
  let dXsd ← uniform 0 2
  let dYsd ← uniform 0 2
  let distance ← uniform 0 10
  let rotation ← uniform (-(1 / 10)) (1 / 10)
  let match_quality ← uniform (1 / 2) 1
  let pX ← uniformList 4 0 100
  let pY ← uniformList 4 0 100
  let qX ← uniformList 4 0 100
  let qY ← uniformList 4 0 100
  pure { row := row, col := col, dX := dX, dY := dY, dXsd := dXsd
         dYsd := dYsd, distance := distance, rotation := rotation
         match_quality := match_quality, position := row * 10 + col
         pX := pX, pY := pY, qX := qX, qY := qY }

/-- `create_specimen` (source lines 117-125). -/
def create_specimen : M Specimen := do
  let d1 ← randint 1000 9999
  let d2 ← randint 1 100
  clientCreate
    (fun i => { specimen_id := "SPEC" ++ toString d1
                description := "Test specimen " ++ toString d2
                sid := i })
    Event.createSpecimen

/-- The body of `create_blocks`' loop over `range(num_blocks)` (source
lines 130-138), written as structural recursion over the index list. -/
def blocksLoop (specimen : Specimen) : List ℕ → M (List Block)
  | [] => pure []
  | i :: rest => do
    let res ← uniform (1 / 2) 2
    let block ← clientCreate
      (fun n => { block_id := "BLK_" ++ specimen.specimen_id ++ "_" ++ pad3 (i + 1)
                  specimen_id := specimen.specimen_id
                  microCT_resolution := res
                  sid := n })
      Event.createBlock
    let blocks ← blocksLoop specimen rest
    pure (block :: blocks)

/-- `create_blocks` (source lines 128-139). -/
def create_blocks (specimen : Specimen) (num_blocks : ℕ) : M (List Block) :=
  blocksLoop specimen (List.range num_blocks)

/-- `create_cutting_session` (source lines 142-155); returns the echoed
record together with the derived `media_id`. -/
def create_cutting_session (block : Block) (session_number : ℕ) :
    M (CuttingSession × String) := do
  let media_id := "TAPE" ++ block.block_id ++ toString session_number
  let op ← randint 1 5
  let cutting_session ← clientCreate
    (fun n => { cutting_session_id := "CUT" ++ block.block_id ++ toString session_number
                block_id := block.block_id
                operator := "Operator " ++ toString op
                media_type := "tape"
                media_id := media_id
                sid := n })
    Event.createCuttingSession
  pure (cutting_session, media_id)

/-- `create_section` (source lines 158-171). -/
def create_section (cutting_session : CuttingSession) (section_number : ℕ)
    (media_id : String) : M SectionRec :=
  clientCreate
    (fun n => { section_id := "SEC" ++ cutting_session.cutting_session_id ++ pad3 section_number
                section_number := section_number
                cutting_session_id := cutting_session.cutting_session_id
                media_type := "tape"
                media_id := media_id
                relative_position := section_number
                sid := n })
    Event.createSection

/-- `create_roi` (source lines 174-187): the `specimen_id` and
`block_id` fields are filled from the parents' server-assigned `_id`s. -/
def create_roi (sectionRec : SectionRec) (roi_id : ℤ)
    (jittered_roi : JitteredROI) (block : Block) (specimen : Specimen) :
    M ROI :=
  clientCreate
    (fun n => { roi_id := roi_id
                section_number := sectionRec.section_number
                aperture_width_height := jittered_roi.aperture_width_height
                aperture_centroid := jittered_roi.aperture_centroid
                specimen_id := specimen.sid
                block_id := block.sid
                sid := n })
    Event.createROI

/-- `"".join(random.choices("0123456789", k=6))` (source line 194):
six integer draws rendered as decimal digits. -/
def randomDigits : M String := do
  let d1 ← randint 0 9
  let d2 ← randint 0 9
  let d3 ← randint 0 9
  let d4 ← randint 0 9
  let d5 ← randint 0 9
  let d6 ← randint 0 9
  pure (toString (d1.emod 10) ++ toString (d2.emod 10) ++ toString (d3.emod 10)
    ++ toString (d4.emod 10) ++ toString (d5.emod 10) ++ toString (d6.emod 10))

/-- `create_imaging_session` (source lines 190-212).  The wall-clock
timestamp component of the session id is omitted (see the header). -/
def create_imaging_session (specimen : Specimen) (block : Block)
    (media_id : String) (session_number : ℕ) : M ImagingSession := do
  let random_id ← randomDigits
  let session_id :=
    "IMS_" ++ specimen.specimen_id ++ "_" ++ pad3 session_number ++ "_" ++ random_id
  clientCreate
    (fun n => { session_id := session_id
                specimen_id := specimen.specimen_id
                block_id := block.block_id
                media_type := "tape"
                media_id := media_id
                sid := n })
    Event.createImagingSession

/-- `create_acquisition` (source lines 215-248). -/
def create_acquisition (imaging_session : ImagingSession) (roi : ROI)
    (args : Args) : M Acquisition :=
  clientCreate
    (fun n => { acquisition_id := "ACQ" ++ imaging_session.session_id ++ toString roi.roi_id
                roi_id := roi.roi_id
                imaging_session_id := imaging_session.session_id
                montage_id := "MONTAGE" ++ imaging_session.session_id ++ toString roi.roi_id
                tile_size := (args.tile_size, args.tile_size)
                tile_overlap := args.overlap
                status := "planned"
                sid := n })
    Event.createAcquisition

/-- The local `tiles_per_side` of `create_tiles` (source line 254):
`int(stage_size / (tile_size * (1 - overlap)))` in exact arithmetic. -/
def tilesPerSide (args : Args) : ℤ :=
  pyInt ((args.stage_size : ℚ) / ((args.tile_size : ℚ) * (1 - args.overlap)))

/-- The body of `create_tiles`' loop over `range(total_tiles)` (source
lines 257-288): Python `k // tps` and `k % tps` are floor division and
modulus (`Int.fdiv` / `Int.fmod`); the draws happen in the order the
dict literal evaluates them. -/
def tilesLoop (acquisition : Acquisition) (media_id : String) (args : Args)
    (base_focus_score : ℚ) (tiles_per_side : ℤ) : List ℕ → M (List Tile)
  | [] => pure []
  | k :: rest => do
    let row : ℤ := Int.fdiv (k : ℤ) tiles_per_side
    let col : ℤ := Int.fmod (k : ℤ) tiles_per_side
    let focus_score ← generate_focus_score base_focus_score
    let stage_position ← calculate_stage_position row col args.tile_size args.overlap
    let min_value ← randint 0 20
    let max_value ← randint 200 255
    let mean_value ← randint 100 200
    let std_value ← uniform 10 40
    let m1 ← generate_matcher_data row col
    let m2 ← generate_matcher_data row (col + 1)
    let m3 ← generate_matcher_data (row + 1) col
    let m4 ← generate_matcher_data (row + 1) (col + 1)
    let tile_data : Tile :=
      { tile_id := "TILE" ++ acquisition.acquisition_id ++ pad5 (k + 1)
        acquisition_id := acquisition.acquisition_id
        stage_position := stage_position
        raster_row := row
        raster_col := col
        focus_score := focus_score
        min_value := min_value
        max_value := max_value
        mean_value := mean_value
        std_value := std_value
        image_path := "/path/to/images/" ++ media_id ++ "/"
          ++ acquisition.acquisition_id ++ "/" ++ pad5 (k + 1) ++ ".tif"
        matcher := [m1, m2, m3, m4]
        raster_index := k + 1 }
    clientCall (Event.addTile acquisition.acquisition_id tile_data)
    let tiles ← tilesLoop acquisition media_id args base_focus_score tiles_per_side rest
    pure (tile_data :: tiles)

/-- `create_tiles` (source lines 251-290). -/
def create_tiles (acquisition : Acquisition) (media_id : String)
    (args : Args) : M (List Tile) := do
  let base_focus_score ← uniform (41 / 2) (43 / 2)
  let tiles_per_side : ℤ := tilesPerSide args
  let total_tiles : ℤ := tiles_per_side * tiles_per_side
  tilesLoop acquisition media_id args base_focus_score tiles_per_side
    (List.range total_tiles.toNat)

/-- Lookup in the `session_counters` dict (missing key reads never occur
in the source after the guarded init; we default to 0). -/
def countersGet (l : List (String × ℕ)) (k : String) : ℕ :=
  match l with
  | [] => 0
  | (k', v) :: rest => if k' = k then v else countersGet rest k

/-- `key in dict` for `session_counters`. -/
def countersHas (l : List (String × ℕ)) (k : String) : Bool :=
  match l with
  | [] => false
  | (k', _) :: rest => k' = k || countersHas rest k

/-- `dict[key] = v` for `session_counters` (insertion-ordered). -/
def countersSet (l : List (String × ℕ)) (k : String) (v : ℕ) :
    List (String × ℕ) :=
  match l with
  | [] => [(k, v)]
  | (k', v') :: rest =>
    if k' = k then (k', v) :: rest else (k', v') :: countersSet rest k v

/-- `if media_id not in session_counters: session_counters[media_id] = 0`
(source lines 311-312). -/
def countersInit (l : List (String × ℕ)) (k : String) : List (String × ℕ) :=
  if countersHas l k then l else countersSet l k 0

/-- The body of the section loop `for k in range(sections_per_session)`
(source lines 319-334): create the section, draw one jittered ROI from
the session's shared base, create the ROI, and append
`(roi, media_id)` to `block_rois`. -/
def sectionLoop (specimen : Specimen) (block : Block)
    (cutting_session : CuttingSession) (media_id : String) (j : ℕ)
    (base_x base_y base_width base_height : ℚ) :
    List ℕ → M (List (ROI × String))
  | [] => pure []
  | k :: rest => do
    let sectionRec ← create_section cutting_session (k + 1) media_id
    let jittered_roi ← generate_jittered_roi base_x base_y base_width base_height
    let roi ← create_roi sectionRec (roiIdNum (j + 1) (k + 1)) jittered_roi
      block specimen
    let more ← sectionLoop specimen block cutting_session media_id j
      base_x base_y base_width base_height rest
    pure ((roi, media_id) :: more)

/-- The body of the cutting-session loop
`for j in range(cutting_sessions_per_block)` (source lines 306-334):
create the cutting session, init its counter, draw the four base values
(once per cutting session, source lines 314-317), then run the section
loop. -/
def cuttingLoop (specimen : Specimen) (block : Block) (args : Args) :
    List ℕ → List (String × ℕ) → M (List (String × ℕ) × List (ROI × String))
  | [], counters => pure (counters, [])
  | j :: rest, counters => do
    let (cutting_session, media_id) ← create_cutting_session block (j + 1)
    let counters1 := countersInit counters media_id
    let base_x ← randint 50 150
    let base_y ← randint 50 150
    let base_width ← randint 100 200
    let base_height ← randint 100 200
    let rois ← sectionLoop specimen block cutting_session media_id j
      (base_x : ℚ) (base_y : ℚ) (base_width : ℚ) (base_height : ℚ)
      (List.range args.sections_per_session)
    let (counters2, more) ← cuttingLoop specimen block args rest counters1
    pure (counters2, rois ++ more)

/-- One step of the `rois_by_media` grouping (source lines 336-339):
append the ROI to its media's list, creating the entry at the end on
first sight (insertion-ordered dict). -/
def groupInsert (acc : List (String × List ROI)) (media_id : String)
    (roi : ROI) : List (String × List ROI) :=
  match acc with
  | [] => [(media_id, [roi])]
  | (k, rs) :: rest =>
    if k = media_id then (k, rs ++ [roi]) :: rest
    else (k, rs) :: groupInsert rest media_id roi

/-- `rois_by_media` (source lines 335-339). -/
def groupByMedia (l : List (ROI × String)) : List (String × List ROI) :=
  l.foldl (fun acc p => groupInsert acc p.2 p.1) []

/-- The body of the ROI loop `for roi in session_rois` (source lines
358-369): attach the ROI to the imaging session, create its acquisition,
then create all of that acquisition's tiles. -/
def roiLoop (imaging_session : ImagingSession) (media_id : String)
    (args : Args) : List ROI → M (List (Acquisition × List Tile))
  | [] => pure []
  | roi :: rest => do
    clientCall (Event.addRois imaging_session.session_id roi.roi_id)
    let acquisition ← create_acquisition imaging_session roi args
    let tiles ← create_tiles acquisition media_id args
    let more ← roiLoop imaging_session media_id args rest
    pure ((acquisition, tiles) :: more)

/-- The body of the imaging-session loop `for i in range(num_sessions)`
(source lines 347-371): bump the media's counter, create the imaging
session, slice out this batch's ROIs
(`media_rois[i*B : i*B + B]`), and process each. -/
def imagingLoop (specimen : Specimen) (block : Block) (media_id : String)
    (media_rois : List ROI) (args : Args) :
    List ℕ → List (String × ℕ) →
    M (List (String × ℕ) ×
       List (ImagingSession × List ROI × List (Acquisition × List Tile)))
  | [], counters => pure (counters, [])
  | i :: rest, counters => do
    let counters1 := countersSet counters media_id (countersGet counters media_id + 1)
    let imaging_session ← create_imaging_session specimen block media_id
      (countersGet counters1 media_id)
    let start_idx := i * args.rois_per_imaging_session
    let session_rois := (media_rois.drop start_idx).take args.rois_per_imaging_session
    let acqs ← roiLoop imaging_session media_id args session_rois
    let (counters2, more) ← imagingLoop specimen block media_id media_rois args
      rest counters1
    pure (counters2, (imaging_session, session_rois, acqs) :: more)

/-- One iteration of `for media_id, media_rois in rois_by_media.items()`
(source lines 341-371): `num_sessions = len(media_rois) //
rois_per_imaging_session`, then the imaging-session loop.  (With
`rois_per_imaging_session = 0` the source raises `ZeroDivisionError`;
the claims all assume a positive batch size.) -/
def processMediaGroup (specimen : Specimen) (block : Block) (args : Args)
    (media_id : String) (media_rois : List ROI)
    (counters : List (String × ℕ)) :
    M (List (String × ℕ) ×
       List (ImagingSession × List ROI × List (Acquisition × List Tile))) := do
  let num_sessions := media_rois.length / args.rois_per_imaging_session
  imagingLoop specimen block media_id media_rois args
    (List.range num_sessions) counters

/-- The loop over the media groups of one block, threading
`session_counters` and accumulating `total_imaging_sessions` (source
lines 341-371). -/
def mediaLoop (specimen : Specimen) (block : Block) (args : Args) :
    List (String × List ROI) → List (String × ℕ) →
    M (List (String × ℕ) × ℕ)
  | [], counters => pure (counters, 0)
  | (media_id, media_rois) :: rest, counters => do
    let (counters1, sessions) ← processMediaGroup specimen block args
      media_id media_rois counters
    let (counters2, n) ← mediaLoop specimen block args rest counters1
    pure (counters2, sessions.length + n)

/-- The loop `for block in blocks` (source lines 301-373), returning
`(total_imaging_sessions, total_rois)`. -/
def blockLoop (specimen : Specimen) (args : Args) :
    List Block → M (ℕ × ℕ)
  | [] => pure (0, 0)
  | block :: rest => do
    let (counters1, block_rois) ← cuttingLoop specimen block args
      (List.range args.cutting_sessions_per_block) []
    let rois_by_media := groupByMedia block_rois
    let (_counters2, nsess) ← mediaLoop specimen block args rois_by_media counters1
    let (ns, nr) ← blockLoop specimen args rest
    pure (nsess + ns, block_rois.length + nr)

/-- The figures of the final summary print (source lines 375-389). -/
structure Summary where
  num_blocks : ℕ
  total_rois : ℕ
  total_imaging_sessions : ℕ
  tiles_per_acquisition : ℤ
  total_tiles : ℤ
deriving DecidableEq, Repr

/-- The printed `tiles_per_acquisition` (source lines 379-381):
`int((stage_size / (tile_size * (1 - overlap))) ** 2)`. -/
def printedTilesPerAcquisition (args : Args) : ℤ :=
  pyInt (((args.stage_size : ℚ) / ((args.tile_size : ℚ) * (1 - args.overlap))) ^ 2)

/-- The `try:` body of `generate_data` (source lines 295-389). -/
def generate_data_body (args : Args) : M Summary := do
  let specimen ← create_specimen
  let blocks ← create_blocks specimen args.num_blocks
  let (total_imaging_sessions, total_rois) ← blockLoop specimen args blocks
  let tiles_per_acquisition := printedTilesPerAcquisition args
  pure { num_blocks := blocks.length
         total_rois := total_rois
         total_imaging_sessions := total_imaging_sessions
         tiles_per_acquisition := tiles_per_acquisition
         total_tiles := (total_imaging_sessions : ℤ)
           * (args.rois_per_imaging_session : ℤ) * tiles_per_acquisition }

/-- `generate_data` (source lines 293-394): the walk wrapped in
`try/except`.  `TEMdbClientError` and `NotFoundError` are caught and
logged (modelled as returning `none`); any other exception propagates. -/
def generate_data (args : Args) : M (Option Summary) :=
  fun env s =>
    match generate_data_body args env s with
    | (Except.ok summary, s') => (Except.ok (some summary), s')
    | (Except.error ErrKind.temdbClientError, s') => (Except.ok none, s')
    | (Except.error ErrKind.notFoundError, s') => (Except.ok none, s')
    | (Except.error ErrKind.otherError, s') => (Except.error ErrKind.otherError, s')

/-- Initial generator state. -/
def s0 : GState := { iQ := 0, iI := 0, nextId := 0, events := [] }

/-- An environment with no client failures. -/
def pureEnv (rQ : ℕ → ℚ) (rI : ℕ → ℤ) : Env :=
  { rQ := rQ, rI := rI, oracle := fun _ => none }

/-- Specimen records created in a trace. -/
def specimensOf (tr : List Event) : List Specimen :=
  tr.filterMap fun e => match e with | Event.createSpecimen r => some r | _ => none

/-- Block records created in a trace. -/
def blocksOf (tr : List Event) : List Block :=
  tr.filterMap fun e => match e with | Event.createBlock r => some r | _ => none

/-- Cutting-session records created in a trace. -/
def cuttingSessionsOf (tr : List Event) : List CuttingSession :=
  tr.filterMap fun e => match e with | Event.createCuttingSession r => some r | _ => none

/-- Section records created in a trace. -/
def sectionsOf (tr : List Event) : List SectionRec :=
  tr.filterMap fun e => match e with | Event.createSection r => some r | _ => none

/-- ROI records created in a trace. -/
def roisOf (tr : List Event) : List ROI :=
  tr.filterMap fun e => match e with | Event.createROI r => some r | _ => none

/-- Imaging-session records created in a trace. -/
def imagingSessionsOf (tr : List Event) : List ImagingSession :=
  tr.filterMap fun e => match e with | Event.createImagingSession r => some r | _ => none

/-- The `(session_id, roi_id)` pairs of the `add_rois` calls of a trace. -/
def addRoisOf (tr : List Event) : List (String × ℤ) :=
  tr.filterMap fun e => match e with | Event.addRois sid rid => some (sid, rid) | _ => none

/-- Acquisition records created in a trace. -/
def acquisitionsOf (tr : List Event) : List Acquisition :=
  tr.filterMap fun e => match e with | Event.createAcquisition r => some r | _ => none

/-- The `(acquisition_id, tile)` pairs of the `add_tile` calls of a trace. -/
def addTilesOf (tr : List Event) : List (String × Tile) :=
  tr.filterMap fun e => match e with | Event.addTile aid t => some (aid, t) | _ => none

theorem specimensOf_append (a b : List Event) :
    specimensOf (a ++ b) = specimensOf a ++ specimensOf b :=
  List.filterMap_append a b _

theorem blocksOf_append (a b : List Event) :
    blocksOf (a ++ b) = blocksOf a ++ blocksOf b :=
  List.filterMap_append a b _

theorem cuttingSessionsOf_append (a b : List Event) :
    cuttingSessionsOf (a ++ b) = cuttingSessionsOf a ++ cuttingSessionsOf b :=
  List.filterMap_append a b _

theorem sectionsOf_append (a b : List Event) :
    sectionsOf (a ++ b) = sectionsOf a ++ sectionsOf b :=
  List.filterMap_append a b _

theorem roisOf_append (a b : List Event) :
    roisOf (a ++ b) = roisOf a ++ roisOf b :=
  List.filterMap_append a b _

theorem imagingSessionsOf_append (a b : List Event) :
    imagingSessionsOf (a ++ b) = imagingSessionsOf a ++ imagingSessionsOf b :=
  List.filterMap_append a b _

theorem addRoisOf_append (a b : List Event) :
    addRoisOf (a ++ b) = addRoisOf a ++ addRoisOf b :=
  List.filterMap_append a b _

theorem acquisitionsOf_append (a b : List Event) :
    acquisitionsOf (a ++ b) = acquisitionsOf a ++ acquisitionsOf b :=
  List.filterMap_append a b _

theorem addTilesOf_append (a b : List Event) :
    addTilesOf (a ++ b) = addTilesOf a ++ addTilesOf b :=
  List.filterMap_append a b _

@[simp] theorem specimensOf_nil : specimensOf [] = [] := rfl

@[simp] theorem specimensOf_cons_createSpecimen (a : _) (tr : List Event) :
    specimensOf (Event.createSpecimen a :: tr) = a :: specimensOf tr := rfl

@[simp] theorem specimensOf_cons_createBlock (a : _) (tr : List Event) :
    specimensOf (Event.createBlock a :: tr) = specimensOf tr := rfl

@[simp] theorem specimensOf_cons_createCuttingSession (a : _) (tr : List Event) :
    specimensOf (Event.createCuttingSession a :: tr) = specimensOf tr := rfl

@[simp] theorem specimensOf_cons_createSection (a : _) (tr : List Event) :
    specimensOf (Event.createSection a :: tr) = specimensOf tr := rfl

@[simp] theorem specimensOf_cons_createROI (a : _) (tr : List Event) :
    specimensOf (Event.createROI a :: tr) = specimensOf tr := rfl

@[simp] theorem specimensOf_cons_createImagingSession (a : _) (tr : List Event) :
    specimensOf (Event.createImagingSession a :: tr) = specimensOf tr := rfl

@[simp] theorem specimensOf_cons_addRois (a : _) (b : _) (tr : List Event) :
    specimensOf (Event.addRois a b :: tr) = specimensOf tr := rfl

@[simp] theorem specimensOf_cons_createAcquisition (a : _) (tr : List Event) :
    specimensOf (Event.createAcquisition a :: tr) = specimensOf tr := rfl

@[simp] theorem specimensOf_cons_addTile (a : _) (b : _) (tr : List Event) :
    specimensOf (Event.addTile a b :: tr) = specimensOf tr := rfl

@[simp] theorem blocksOf_nil : blocksOf [] = [] := rfl

@[simp] theorem blocksOf_cons_createSpecimen (a : _) (tr : List Event) :
    blocksOf (Event.createSpecimen a :: tr) = blocksOf tr := rfl

@[simp] theorem blocksOf_cons_createBlock (a : _) (tr : List Event) :
    blocksOf (Event.createBlock a :: tr) = a :: blocksOf tr := rfl

@[simp] theorem blocksOf_cons_createCuttingSession (a : _) (tr : List Event) :
    blocksOf (Event.createCuttingSession a :: tr) = blocksOf tr := rfl

@[simp] theorem blocksOf_cons_createSection (a : _) (tr : List Event) :
    blocksOf (Event.createSection a :: tr) = blocksOf tr := rfl

@[simp] theorem blocksOf_cons_createROI (a : _) (tr : List Event) :
    blocksOf (Event.createROI a :: tr) = blocksOf tr := rfl

@[simp] theorem blocksOf_cons_createImagingSession (a : _) (tr : List Event) :
    blocksOf (Event.createImagingSession a :: tr) = blocksOf tr := rfl

@[simp] theorem blocksOf_cons_addRois (a : _) (b : _) (tr : List Event) :
    blocksOf (Event.addRois a b :: tr) = blocksOf tr := rfl

@[simp] theorem blocksOf_cons_createAcquisition (a : _) (tr : List Event) :
    blocksOf (Event.createAcquisition a :: tr) = blocksOf tr := rfl

@[simp] theorem blocksOf_cons_addTile (a : _) (b : _) (tr : List Event) :
    blocksOf (Event.addTile a b :: tr) = blocksOf tr := rfl

@[simp] theorem cuttingSessionsOf_nil : cuttingSessionsOf [] = [] := rfl

@[simp] theorem cuttingSessionsOf_cons_createSpecimen (a : _) (tr : List Event) :
    cuttingSessionsOf (Event.createSpecimen a :: tr) = cuttingSessionsOf tr := rfl

@[simp] theorem cuttingSessionsOf_cons_createBlock (a : _) (tr : List Event) :
    cuttingSessionsOf (Event.createBlock a :: tr) = cuttingSessionsOf tr := rfl

@[simp] theorem cuttingSessionsOf_cons_createCuttingSession (a : _) (tr : List Event) :
    cuttingSessionsOf (Event.createCuttingSession a :: tr) = a :: cuttingSessionsOf tr := rfl

@[simp] theorem cuttingSessionsOf_cons_createSection (a : _) (tr : List Event) :
    cuttingSessionsOf (Event.createSection a :: tr) = cuttingSessionsOf tr := rfl

@[simp] theorem cuttingSessionsOf_cons_createROI (a : _) (tr : List Event) :
    cuttingSessionsOf (Event.createROI a :: tr) = cuttingSessionsOf tr := rfl

@[simp] theorem cuttingSessionsOf_cons_createImagingSession (a : _) (tr : List Event) :
    cuttingSessionsOf (Event.createImagingSession a :: tr) = cuttingSessionsOf tr := rfl

@[simp] theorem cuttingSessionsOf_cons_addRois (a : _) (b : _) (tr : List Event) :
    cuttingSessionsOf (Event.addRois a b :: tr) = cuttingSessionsOf tr := rfl

@[simp] theorem cuttingSessionsOf_cons_createAcquisition (a : _) (tr : List Event) :
    cuttingSessionsOf (Event.createAcquisition a :: tr) = cuttingSessionsOf tr := rfl

@[simp] theorem cuttingSessionsOf_cons_addTile (a : _) (b : _) (tr : List Event) :
    cuttingSessionsOf (Event.addTile a b :: tr) = cuttingSessionsOf tr := rfl

@[simp] theorem sectionsOf_nil : sectionsOf [] = [] := rfl

@[simp] theorem sectionsOf_cons_createSpecimen (a : _) (tr : List Event) :
    sectionsOf (Event.createSpecimen a :: tr) = sectionsOf tr := rfl

@[simp] theorem sectionsOf_cons_createBlock (a : _) (tr : List Event) :
    sectionsOf (Event.createBlock a :: tr) = sectionsOf tr := rfl

@[simp] theorem sectionsOf_cons_createCuttingSession (a : _) (tr : List Event) :
    sectionsOf (Event.createCuttingSession a :: tr) = sectionsOf tr := rfl

@[simp] theorem sectionsOf_cons_createSection (a : _) (tr : List Event) :
    sectionsOf (Event.createSection a :: tr) = a :: sectionsOf tr := rfl

@[simp] theorem sectionsOf_cons_createROI (a : _) (tr : List Event) :
    sectionsOf (Event.createROI a :: tr) = sectionsOf tr := rfl

@[simp] theorem sectionsOf_cons_createImagingSession (a : _) (tr : List Event) :
    sectionsOf (Event.createImagingSession a :: tr) = sectionsOf tr := rfl

@[simp] theorem sectionsOf_cons_addRois (a : _) (b : _) (tr : List Event) :
    sectionsOf (Event.addRois a b :: tr) = sectionsOf tr := rfl

@[simp] theorem sectionsOf_cons_createAcquisition (a : _) (tr : List Event) :
    sectionsOf (Event.createAcquisition a :: tr) = sectionsOf tr := rfl

@[simp] theorem sectionsOf_cons_addTile (a : _) (b : _) (tr : List Event) :
    sectionsOf (Event.addTile a b :: tr) = sectionsOf tr := rfl

@[simp] theorem roisOf_nil : roisOf [] = [] := rfl

@[simp] theorem roisOf_cons_createSpecimen (a : _) (tr : List Event) :
    roisOf (Event.createSpecimen a :: tr) = roisOf tr := rfl

@[simp] theorem roisOf_cons_createBlock (a : _) (tr : List Event) :
    roisOf (Event.createBlock a :: tr) = roisOf tr := rfl

@[simp] theorem roisOf_cons_createCuttingSession (a : _) (tr : List Event) :
    roisOf (Event.createCuttingSession a :: tr) = roisOf tr := rfl

@[simp] theorem roisOf_cons_createSection (a : _) (tr : List Event) :
    roisOf (Event.createSection a :: tr) = roisOf tr := rfl

@[simp] theorem roisOf_cons_createROI (a : _) (tr : List Event) :
    roisOf (Event.createROI a :: tr) = a :: roisOf tr := rfl

@[simp] theorem roisOf_cons_createImagingSession (a : _) (tr : List Event) :
    roisOf (Event.createImagingSession a :: tr) = roisOf tr := rfl

@[simp] theorem roisOf_cons_addRois (a : _) (b : _) (tr : List Event) :
    roisOf (Event.addRois a b :: tr) = roisOf tr := rfl

@[simp] theorem roisOf_cons_createAcquisition (a : _) (tr : List Event) :
    roisOf (Event.createAcquisition a :: tr) = roisOf tr := rfl

@[simp] theorem roisOf_cons_addTile (a : _) (b : _) (tr : List Event) :
    roisOf (Event.addTile a b :: tr) = roisOf tr := rfl

@[simp] theorem imagingSessionsOf_nil : imagingSessionsOf [] = [] := rfl

@[simp] theorem imagingSessionsOf_cons_createSpecimen (a : _) (tr : List Event) :
    imagingSessionsOf (Event.createSpecimen a :: tr) = imagingSessionsOf tr := rfl

@[simp] theorem imagingSessionsOf_cons_createBlock (a : _) (tr : List Event) :
    imagingSessionsOf (Event.createBlock a :: tr) = imagingSessionsOf tr := rfl

@[simp] theorem imagingSessionsOf_cons_createCuttingSession (a : _) (tr : List Event) :
    imagingSessionsOf (Event.createCuttingSession a :: tr) = imagingSessionsOf tr := rfl

@[simp] theorem imagingSessionsOf_cons_createSection (a : _) (tr : List Event) :
    imagingSessionsOf (Event.createSection a :: tr) = imagingSessionsOf tr := rfl

@[simp] theorem imagingSessionsOf_cons_createROI (a : _) (tr : List Event) :
    imagingSessionsOf (Event.createROI a :: tr) = imagingSessionsOf tr := rfl

@[simp] theorem imagingSessionsOf_cons_createImagingSession (a : _) (tr : List Event) :
    imagingSessionsOf (Event.createImagingSession a :: tr) = a :: imagingSessionsOf tr := rfl

@[simp] theorem imagingSessionsOf_cons_addRois (a : _) (b : _) (tr : List Event) :
    imagingSessionsOf (Event.addRois a b :: tr) = imagingSessionsOf tr := rfl

@[simp] theorem imagingSessionsOf_cons_createAcquisition (a : _) (tr : List Event) :
    imagingSessionsOf (Event.createAcquisition a :: tr) = imagingSessionsOf tr := rfl

@[simp] theorem imagingSessionsOf_cons_addTile (a : _) (b : _) (tr : List Event) :
    imagingSessionsOf (Event.addTile a b :: tr) = imagingSessionsOf tr := rfl

@[simp] theorem addRoisOf_nil : addRoisOf [] = [] := rfl

@[simp] theorem addRoisOf_cons_createSpecimen (a : _) (tr : List Event) :
    addRoisOf (Event.createSpecimen a :: tr) = addRoisOf tr := rfl

@[simp] theorem addRoisOf_cons_createBlock (a : _) (tr : List Event) :
    addRoisOf (Event.createBlock a :: tr) = addRoisOf tr := rfl

@[simp] theorem addRoisOf_cons_createCuttingSession (a : _) (tr : List Event) :
    addRoisOf (Event.createCuttingSession a :: tr) = addRoisOf tr := rfl

@[simp] theorem addRoisOf_cons_createSection (a : _) (tr : List Event) :
    addRoisOf (Event.createSection a :: tr) = addRoisOf tr := rfl

@[simp] theorem addRoisOf_cons_createROI (a : _) (tr : List Event) :
    addRoisOf (Event.createROI a :: tr) = addRoisOf tr := rfl

@[simp] theorem addRoisOf_cons_createImagingSession (a : _) (tr : List Event) :
    addRoisOf (Event.createImagingSession a :: tr) = addRoisOf tr := rfl

@[simp] theorem addRoisOf_cons_addRois (a : _) (b : _) (tr : List Event) :
    addRoisOf (Event.addRois a b :: tr) = (a, b) :: addRoisOf tr := rfl

@[simp] theorem addRoisOf_cons_createAcquisition (a : _) (tr : List Event) :
    addRoisOf (Event.createAcquisition a :: tr) = addRoisOf tr := rfl

@[simp] theorem addRoisOf_cons_addTile (a : _) (b : _) (tr : List Event) :
    addRoisOf (Event.addTile a b :: tr) = addRoisOf tr := rfl

@[simp] theorem acquisitionsOf_nil : acquisitionsOf [] = [] := rfl

@[simp] theorem acquisitionsOf_cons_createSpecimen (a : _) (tr : List Event) :
    acquisitionsOf (Event.createSpecimen a :: tr) = acquisitionsOf tr := rfl

@[simp] theorem acquisitionsOf_cons_createBlock (a : _) (tr : List Event) :
    acquisitionsOf (Event.createBlock a :: tr) = acquisitionsOf tr := rfl

@[simp] theorem acquisitionsOf_cons_createCuttingSession (a : _) (tr : List Event) :
    acquisitionsOf (Event.createCuttingSession a :: tr) = acquisitionsOf tr := rfl

@[simp] theorem acquisitionsOf_cons_createSection (a : _) (tr : List Event) :
    acquisitionsOf (Event.createSection a :: tr) = acquisitionsOf tr := rfl

@[simp] theorem acquisitionsOf_cons_createROI (a : _) (tr : List Event) :
    acquisitionsOf (Event.createROI a :: tr) = acquisitionsOf tr := rfl

@[simp] theorem acquisitionsOf_cons_createImagingSession (a : _) (tr : List Event) :
    acquisitionsOf (Event.createImagingSession a :: tr) = acquisitionsOf tr := rfl

@[simp] theorem acquisitionsOf_cons_addRois (a : _) (b : _) (tr : List Event) :
    acquisitionsOf (Event.addRois a b :: tr) = acquisitionsOf tr := rfl

@[simp] theorem acquisitionsOf_cons_createAcquisition (a : _) (tr : List Event) :
    acquisitionsOf (Event.createAcquisition a :: tr) = a :: acquisitionsOf tr := rfl

@[simp] theorem acquisitionsOf_cons_addTile (a : _) (b : _) (tr : List Event) :
    acquisitionsOf (Event.addTile a b :: tr) = acquisitionsOf tr := rfl

@[simp] theorem addTilesOf_nil : addTilesOf [] = [] := rfl

@[simp] theorem addTilesOf_cons_createSpecimen (a : _) (tr : List Event) :
    addTilesOf (Event.createSpecimen a :: tr) = addTilesOf tr := rfl

@[simp] theorem addTilesOf_cons_createBlock (a : _) (tr : List Event) :
    addTilesOf (Event.createBlock a :: tr) = addTilesOf tr := rfl

@[simp] theorem addTilesOf_cons_createCuttingSession (a : _) (tr : List Event) :
    addTilesOf (Event.createCuttingSession a :: tr) = addTilesOf tr := rfl

@[simp] theorem addTilesOf_cons_createSection (a : _) (tr : List Event) :
    addTilesOf (Event.createSection a :: tr) = addTilesOf tr := rfl

@[simp] theorem addTilesOf_cons_createROI (a : _) (tr : List Event) :
    addTilesOf (Event.createROI a :: tr) = addTilesOf tr := rfl

@[simp] theorem addTilesOf_cons_createImagingSession (a : _) (tr : List Event) :
    addTilesOf (Event.createImagingSession a :: tr) = addTilesOf tr := rfl

@[simp] theorem addTilesOf_cons_addRois (a : _) (b : _) (tr : List Event) :
    addTilesOf (Event.addRois a b :: tr) = addTilesOf tr := rfl

@[simp] theorem addTilesOf_cons_createAcquisition (a : _) (tr : List Event) :
    addTilesOf (Event.createAcquisition a :: tr) = addTilesOf tr := rfl

@[simp] theorem addTilesOf_cons_addTile (a : _) (b : _) (tr : List Event) :
    addTilesOf (Event.addTile a b :: tr) = (a, b) :: addTilesOf tr := rfl

theorem Mbind_run_ok {α β} {m : M α} {f : α → M β} {env : Env} {s : GState}
    {a : α} {s' : GState} (h : m env s = (Except.ok a, s')) :
    (m >>= f) env s = f a env s' := by
  show Mbind m f env s = f a env s'
  unfold Mbind
  rw [h]

theorem Mbind_run_err {α β} {m : M α} {f : α → M β} {env : Env} {s : GState}
    {e : ErrKind} {s' : GState} (h : m env s = (Except.error e, s')) :
    (m >>= f) env s = (Except.error e, s') := by
  show Mbind m f env s = (Except.error e, s')
  unfold Mbind
  rw [h]

theorem Mpure_run {α} (a : α) (env : Env) (s : GState) :
    (pure a : M α) env s = (Except.ok a, s) := rfl

theorem uniform_run (a b : ℚ) (env : Env) (s : GState) :
    uniform a b env s = (Except.ok (env.rQ s.iQ), { s with iQ := s.iQ + 1 }) := rfl

theorem gauss_run (mu sigma : ℚ) (env : Env) (s : GState) :
    gauss mu sigma env s = (Except.ok (env.rQ s.iQ), { s with iQ := s.iQ + 1 }) := rfl

theorem randint_run (a b : ℤ) (env : Env) (s : GState) :
    randint a b env s = (Except.ok (env.rI s.iI), { s with iI := s.iI + 1 }) := rfl

theorem clientCreate_run_ok {α} (mkR : ℕ → α) (mkE : α → Event) (env : Env)
    (s : GState) (h : env.oracle s.events.length = none) :
    clientCreate mkR mkE env s =
      (Except.ok (mkR s.nextId),
        { s with nextId := s.nextId + 1,
                 events := s.events ++ [mkE (mkR s.nextId)] }) := by
  unfold clientCreate
  rw [h]

theorem clientCreate_run_err {α} (mkR : ℕ → α) (mkE : α → Event) (env : Env)
    (s : GState) (e : ErrKind) (h : env.oracle s.events.length = some e) :
    clientCreate mkR mkE env s = (Except.error e, s) := by
  unfold clientCreate
  rw [h]

theorem clientCall_run_ok (e : Event) (env : Env) (s : GState)
    (h : env.oracle s.events.length = none) :
    clientCall e env s = (Except.ok (), { s with events := s.events ++ [e] }) := by
  unfold clientCall
  rw [h]

theorem clientCall_run_err (e : Event) (env : Env) (s : GState) (k : ErrKind)
    (h : env.oracle s.events.length = some k) :
    clientCall e env s = (Except.error k, s) := by
  unfold clientCall
  rw [h]

theorem pureEnv_oracle (rQ : ℕ → ℚ) (rI : ℕ → ℤ) (n : ℕ) :
    (pureEnv rQ rI).oracle n = none := rfl

theorem pureEnv_rQ (rQ : ℕ → ℚ) (rI : ℕ → ℤ) : (pureEnv rQ rI).rQ = rQ := rfl

theorem pureEnv_rI (rQ : ℕ → ℚ) (rI : ℕ → ℤ) : (pureEnv rQ rI).rI = rI := rfl

theorem generate_jittered_roi_run (base_x base_y base_width base_height j : ℚ)
    (rQ : ℕ → ℚ) (rI : ℕ → ℤ) (s : GState) :
    generate_jittered_roi base_x base_y base_width base_height j
      (pureEnv rQ rI) s =
      (Except.ok
        { aperture_centroid := (base_x + rQ s.iQ, base_y + rQ (s.iQ + 1))
          aperture_width_height :=
            (base_width + rQ (s.iQ + 2), base_height + rQ (s.iQ + 3)) },
       { s with iQ := s.iQ + 4 }) := rfl

theorem calculate_stage_position_run (row col : ℤ) (tile_size : ℤ)
    (overlap : ℚ) (rQ : ℕ → ℚ) (rI : ℕ → ℤ) (s : GState) :
    calculate_stage_position row col tile_size overlap (pureEnv rQ rI) s =
      (Except.ok
        ((col : ℚ) * ((tile_size : ℚ) * (1 - overlap)) + rQ s.iQ,
         (row : ℚ) * ((tile_size : ℚ) * (1 - overlap)) + rQ (s.iQ + 1)),
       { s with iQ := s.iQ + 2 }) := rfl

theorem generate_focus_score_run (base variation : ℚ) (rQ : ℕ → ℚ)
    (rI : ℕ → ℤ) (s : GState) :
    generate_focus_score base variation (pureEnv rQ rI) s =
      (Except.ok (max 0 (min 24 (rQ s.iQ))), { s with iQ := s.iQ + 1 }) := rfl

theorem generate_matcher_data_run (row col : ℤ) (rQ : ℕ → ℚ) (rI : ℕ → ℤ)
    (s : GState) :
    generate_matcher_data row col (pureEnv rQ rI) s =
      (Except.ok
        { row := row, col := col, dX := rQ s.iQ, dY := rQ (s.iQ + 1)
          dXsd := rQ (s.iQ + 2), dYsd := rQ (s.iQ + 3)
          distance := rQ (s.iQ + 4), rotation := rQ (s.iQ + 5)
          match_quality := rQ (s.iQ + 6), position := row * 10 + col
          pX := [rQ (s.iQ + 7), rQ (s.iQ + 8), rQ (s.iQ + 9), rQ (s.iQ + 10)]
          pY := [rQ (s.iQ + 11), rQ (s.iQ + 12), rQ (s.iQ + 13), rQ (s.iQ + 14)]
          qX := [rQ (s.iQ + 15), rQ (s.iQ + 16), rQ (s.iQ + 17), rQ (s.iQ + 18)]
          qY := [rQ (s.iQ + 19), rQ (s.iQ + 20), rQ (s.iQ + 21), rQ (s.iQ + 22)] },
       { s with iQ := s.iQ + 23 }) := by
  simp only [generate_matcher_data, uniformList, Bind.bind, Mbind, uniform,
    pureEnv, Pure.pure, Mpure]

/-- The specimen record `create_specimen` builds from the two draws of a
state. -/
def specimenAt (rI : ℕ → ℤ) (s : GState) : Specimen :=
  { specimen_id := "SPEC" ++ toString (rI s.iI)
    description := "Test specimen " ++ toString (rI (s.iI + 1))
    sid := s.nextId }

theorem create_specimen_run (rQ : ℕ → ℚ) (rI : ℕ → ℤ) (s : GState) :
    create_specimen (pureEnv rQ rI) s =
      (Except.ok (specimenAt rI s),
       { s with iI := s.iI + 2, nextId := s.nextId + 1,
                events := s.events ++ [Event.createSpecimen (specimenAt rI s)] }) := by
  simp only [create_specimen, specimenAt, Bind.bind, Mbind, randint, pureEnv,
    clientCreate, Pure.pure, Mpure]

/-- The cutting-session record `create_cutting_session` builds from a
block, a session number and a state. -/
def cuttingSessionAt (block : Block) (session_number : ℕ) (rI : ℕ → ℤ)
    (s : GState) : CuttingSession :=
  { cutting_session_id := "CUT" ++ block.block_id ++ toString session_number
    block_id := block.block_id
    operator := "Operator " ++ toString (rI s.iI)
    media_type := "tape"
    media_id := "TAPE" ++ block.block_id ++ toString session_number
    sid := s.nextId }

theorem create_cutting_session_run (block : Block) (session_number : ℕ)
    (rQ : ℕ → ℚ) (rI : ℕ → ℤ) (s : GState) :
    create_cutting_session block session_number (pureEnv rQ rI) s =
      (Except.ok (cuttingSessionAt block session_number rI s,
         "TAPE" ++ block.block_id ++ toString session_number),
       { s with iI := s.iI + 1, nextId := s.nextId + 1,
                events := s.events ++ [Event.createCuttingSession
                  (cuttingSessionAt block session_number rI s)] }) := by
  simp only [create_cutting_session, cuttingSessionAt, Bind.bind, Mbind,
    randint, pureEnv, clientCreate, Pure.pure, Mpure]

/-- The section record `create_section` builds. -/
def sectionAt (cutting_session : CuttingSession) (section_number : ℕ)
    (media_id : String) (s : GState) : SectionRec :=
  { section_id := "SEC" ++ cutting_session.cutting_session_id ++ pad3 section_number
    section_number := section_number
    cutting_session_id := cutting_session.cutting_session_id
    media_type := "tape"
    media_id := media_id
    relative_position := section_number
    sid := s.nextId }

theorem create_section_run (cutting_session : CuttingSession)
    (section_number : ℕ) (media_id : String) (rQ : ℕ → ℚ) (rI : ℕ → ℤ)
    (s : GState) :
    create_section cutting_session section_number media_id (pureEnv rQ rI) s =
      (Except.ok (sectionAt cutting_session section_number media_id s),
       { s with nextId := s.nextId + 1,
                events := s.events ++ [Event.createSection
                  (sectionAt cutting_session section_number media_id s)] }) := by
  simp only [create_section, sectionAt, pureEnv, clientCreate]

/-- The ROI record `create_roi` builds. -/
def roiAt (sectionRec : SectionRec) (roi_id : ℤ) (jittered_roi : JitteredROI)
    (block : Block) (specimen : Specimen) (s : GState) : ROI :=
  { roi_id := roi_id
    section_number := sectionRec.section_number
    aperture_width_height := jittered_roi.aperture_width_height
    aperture_centroid := jittered_roi.aperture_centroid
    specimen_id := specimen.sid
    block_id := block.sid
    sid := s.nextId }

theorem create_roi_run (sectionRec : SectionRec) (roi_id : ℤ)
    (jittered_roi : JitteredROI) (block : Block) (specimen : Specimen)
    (rQ : ℕ → ℚ) (rI : ℕ → ℤ) (s : GState) :
    create_roi sectionRec roi_id jittered_roi block specimen
      (pureEnv rQ rI) s =
      (Except.ok (roiAt sectionRec roi_id jittered_roi block specimen s),
       { s with nextId := s.nextId + 1,
                events := s.events ++ [Event.createROI
                  (roiAt sectionRec roi_id jittered_roi block specimen s)] }) := by
  simp only [create_roi, roiAt, pureEnv, clientCreate]

/-- The imaging-session record `create_imaging_session` builds. -/
def imagingSessionAt (specimen : Specimen) (block : Block) (media_id : String)
    (session_number : ℕ) (rI : ℕ → ℤ) (s : GState) : ImagingSession :=
  { session_id := "IMS_" ++ specimen.specimen_id ++ "_" ++ pad3 session_number
      ++ "_" ++ (toString ((rI s.iI).emod 10) ++ toString ((rI (s.iI + 1)).emod 10)
        ++ toString ((rI (s.iI + 2)).emod 10) ++ toString ((rI (s.iI + 3)).emod 10)
        ++ toString ((rI (s.iI + 4)).emod 10) ++ toString ((rI (s.iI + 5)).emod 10))
    specimen_id := specimen.specimen_id
    block_id := block.block_id
    media_type := "tape"
    media_id := media_id
    sid := s.nextId }

theorem create_imaging_session_run (specimen : Specimen) (block : Block)
    (media_id : String) (session_number : ℕ) (rQ : ℕ → ℚ) (rI : ℕ → ℤ)
    (s : GState) :
    create_imaging_session specimen block media_id session_number
      (pureEnv rQ rI) s =
      (Except.ok (imagingSessionAt specimen block media_id session_number rI s),
       { s with iI := s.iI + 6, nextId := s.nextId + 1,
                events := s.events ++ [Event.createImagingSession
                  (imagingSessionAt specimen block media_id session_number rI s)] }) := by
  simp only [create_imaging_session, randomDigits, imagingSessionAt,
    Bind.bind, Mbind, randint, pureEnv, clientCreate, Pure.pure, Mpure]

/-- The acquisition record `create_acquisition` builds. -/
def acquisitionAt (imaging_session : ImagingSession) (roi : ROI) (args : Args)
    (s : GState) : Acquisition :=
  { acquisition_id := "ACQ" ++ imaging_session.session_id ++ toString roi.roi_id
    roi_id := roi.roi_id
    imaging_session_id := imaging_session.session_id
    montage_id := "MONTAGE" ++ imaging_session.session_id ++ toString roi.roi_id
    tile_size := (args.tile_size, args.tile_size)
    tile_overlap := args.overlap
    status := "planned"
    sid := s.nextId }

theorem create_acquisition_run (imaging_session : ImagingSession) (roi : ROI)
    (args : Args) (rQ : ℕ → ℚ) (rI : ℕ → ℤ) (s : GState) :
    create_acquisition imaging_session roi args (pureEnv rQ rI) s =
      (Except.ok (acquisitionAt imaging_session roi args s),
       { s with nextId := s.nextId + 1,
                events := s.events ++ [Event.createAcquisition
                  (acquisitionAt imaging_session roi args s)] }) := by
  simp only [create_acquisition, acquisitionAt, pureEnv, clientCreate]

/-- The matcher record built from draws `i .. i+22` of the rational
stream. -/
def matcherAt (row col : ℤ) (rQ : ℕ → ℚ) (i : ℕ) : Matcher :=
  { row := row, col := col, dX := rQ i, dY := rQ (i + 1)
    dXsd := rQ (i + 2), dYsd := rQ (i + 3)
    distance := rQ (i + 4), rotation := rQ (i + 5)
    match_quality := rQ (i + 6), position := row * 10 + col
    pX := [rQ (i + 7), rQ (i + 8), rQ (i + 9), rQ (i + 10)]
    pY := [rQ (i + 11), rQ (i + 12), rQ (i + 13), rQ (i + 14)]
    qX := [rQ (i + 15), rQ (i + 16), rQ (i + 17), rQ (i + 18)]
    qY := [rQ (i + 19), rQ (i + 20), rQ (i + 21), rQ (i + 22)] }

theorem generate_matcher_data_run' (row col : ℤ) (rQ : ℕ → ℚ) (rI : ℕ → ℤ)
    (s : GState) :
    generate_matcher_data row col (pureEnv rQ rI) s =
      (Except.ok (matcherAt row col rQ s.iQ), { s with iQ := s.iQ + 23 }) := by
  simp only [generate_matcher_data, matcherAt, uniformList, Bind.bind, Mbind,
    uniform, pureEnv, Pure.pure, Mpure]

/-- The tile record the `k`-th iteration of `create_tiles`' loop builds
from a state (96 rational draws and 3 integer draws). -/
def tileAt (acq : Acquisition) (media_id : String) (args : Args) (tps : ℤ)
    (k : ℕ) (rQ : ℕ → ℚ) (rI : ℕ → ℤ) (s : GState) : Tile :=
  { tile_id := "TILE" ++ acq.acquisition_id ++ pad5 (k + 1)
    acquisition_id := acq.acquisition_id
    stage_position :=
      ((Int.fmod (k : ℤ) tps : ℚ) * ((args.tile_size : ℚ) * (1 - args.overlap))
         + rQ (s.iQ + 1),
       (Int.fdiv (k : ℤ) tps : ℚ) * ((args.tile_size : ℚ) * (1 - args.overlap))
         + rQ (s.iQ + 2))
    raster_row := Int.fdiv (k : ℤ) tps
    raster_col := Int.fmod (k : ℤ) tps
    focus_score := max 0 (min 24 (rQ s.iQ))
    min_value := rI s.iI
    max_value := rI (s.iI + 1)
    mean_value := rI (s.iI + 2)
    std_value := rQ (s.iQ + 3)
    image_path := "/path/to/images/" ++ media_id ++ "/" ++ acq.acquisition_id
      ++ "/" ++ pad5 (k + 1) ++ ".tif"
    matcher := [matcherAt (Int.fdiv (k : ℤ) tps) (Int.fmod (k : ℤ) tps) rQ (s.iQ + 4),
                matcherAt (Int.fdiv (k : ℤ) tps) (Int.fmod (k : ℤ) tps + 1) rQ (s.iQ + 27),
                matcherAt (Int.fdiv (k : ℤ) tps + 1) (Int.fmod (k : ℤ) tps) rQ (s.iQ + 50),
                matcherAt (Int.fdiv (k : ℤ) tps + 1) (Int.fmod (k : ℤ) tps + 1) rQ (s.iQ + 73)]
    raster_index := k + 1 }

theorem clientCall_runP (e : Event) (rQ : ℕ → ℚ) (rI : ℕ → ℤ) (s : GState) :
    clientCall e (pureEnv rQ rI) s =
      (Except.ok (), { s with events := s.events ++ [e] }) := rfl

theorem tilesLoop_cons_run (acq : Acquisition) (media_id : String)
    (args : Args) (bfs : ℚ) (tps : ℤ) (k : ℕ) (ks : List ℕ) (rQ : ℕ → ℚ)
    (rI : ℕ → ℤ) (s : GState) :
    tilesLoop acq media_id args bfs tps (k :: ks) (pureEnv rQ rI) s =
      Mbind (tilesLoop acq media_id args bfs tps ks)
        (fun tiles => Mpure (tileAt acq media_id args tps k rQ rI s :: tiles))
        (pureEnv rQ rI)
        { s with iQ := s.iQ + 96, iI := s.iI + 3,
                 events := s.events ++ [Event.addTile acq.acquisition_id
                   (tileAt acq media_id args tps k rQ rI s)] } := by
  simp only [tilesLoop, tileAt, matcherAt, Bind.bind, Mbind, Pure.pure, Mpure,
    generate_focus_score_run, calculate_stage_position_run,
    generate_matcher_data_run', uniform_run, randint_run, clientCall_runP]
  simp [pureEnv, Nat.add_assoc]

/-- What one created tile satisfies, as a function of its loop index
`k` and the grid width `tps`. -/
def TileSpec (acq : Acquisition) (tps : ℤ) (k : ℕ) (t : Tile) : Prop :=
  t.acquisition_id = acq.acquisition_id
  ∧ t.raster_row = Int.fdiv (k : ℤ) tps
  ∧ t.raster_col = Int.fmod (k : ℤ) tps
  ∧ t.raster_index = k + 1
  ∧ t.matcher.map (fun m => (m.row, m.col)) =
      [(t.raster_row, t.raster_col), (t.raster_row, t.raster_col + 1),
       (t.raster_row + 1, t.raster_col), (t.raster_row + 1, t.raster_col + 1)]
  ∧ 0 ≤ t.focus_score ∧ t.focus_score ≤ 24

theorem tileAt_spec (acq : Acquisition) (media_id : String) (args : Args)
    (tps : ℤ) (k : ℕ) (rQ : ℕ → ℚ) (rI : ℕ → ℤ) (s : GState) :
    TileSpec acq tps k (tileAt acq media_id args tps k rQ rI s) := by
  refine ⟨rfl, rfl, rfl, rfl, ?_, le_max_left _ _,
    max_le (by norm_num) (min_le_left _ _)⟩
  simp [tileAt, matcherAt]

theorem tilesLoop_ok (acq : Acquisition) (media_id : String) (args : Args)
    (bfs : ℚ) (tps : ℤ) (ks : List ℕ) (rQ : ℕ → ℚ) (rI : ℕ → ℤ) (s : GState) :
    ∃ tiles s', tilesLoop acq media_id args bfs tps ks (pureEnv rQ rI) s =
        (Except.ok tiles, s')
      ∧ s'.events = s.events ++ tiles.map (Event.addTile acq.acquisition_id)
      ∧ List.Forall₂ (TileSpec acq tps) ks tiles := by
  induction ks generalizing s with
  | nil => exact ⟨[], s, rfl, by simp, List.Forall₂.nil⟩
  | cons k ks ih =>
    obtain ⟨tiles, s', hrun, hev, hspec⟩ := ih
      { s with iQ := s.iQ + 96, iI := s.iI + 3,
               events := s.events ++ [Event.addTile acq.acquisition_id
                 (tileAt acq media_id args tps k rQ rI s)] }
    refine ⟨tileAt acq media_id args tps k rQ rI s :: tiles, s', ?_, ?_, ?_⟩
    · rw [tilesLoop_cons_run]
      unfold Mbind
      rw [hrun]
      rfl
    · simp only [hev]
      simp
    · exact List.Forall₂.cons (tileAt_spec acq media_id args tps k rQ rI s) hspec

theorem create_tiles_ok (acq : Acquisition) (media_id : String) (args : Args)
    (rQ : ℕ → ℚ) (rI : ℕ → ℤ) (s : GState) :
    ∃ tiles s', create_tiles acq media_id args (pureEnv rQ rI) s =
        (Except.ok tiles, s')
      ∧ s'.events = s.events ++ tiles.map (Event.addTile acq.acquisition_id)
      ∧ tiles.length = (tilesPerSide args * tilesPerSide args).toNat
      ∧ List.Forall₂ (TileSpec acq (tilesPerSide args))
          (List.range ((tilesPerSide args * tilesPerSide args).toNat)) tiles := by
  obtain ⟨tiles, s', hrun, hev, hspec⟩ := tilesLoop_ok acq media_id args
    (rQ s.iQ) (tilesPerSide args)
    (List.range ((tilesPerSide args * tilesPerSide args).toNat)) rQ rI
    { s with iQ := s.iQ + 1 }
  refine ⟨tiles, s', ?_, by simpa using hev, ?_, hspec⟩
  · have hstep : create_tiles acq media_id args (pureEnv rQ rI) s =
        tilesLoop acq media_id args (rQ s.iQ) (tilesPerSide args)
          (List.range ((tilesPerSide args * tilesPerSide args).toNat))
          (pureEnv rQ rI) { s with iQ := s.iQ + 1 } := by
      simp only [create_tiles, Bind.bind, Mbind, uniform_run, pureEnv_rQ]
    rw [hstep]
    exact hrun
  · have := hspec.length_eq
    simpa using this.symm

theorem pyInt_eq_floor (q : ℚ) (h : 0 ≤ q) : pyInt q = ⌊q⌋ := if_pos h

theorem toNat_mul_of_nonneg (a b : ℤ) (ha : 0 ≤ a) (hb : 0 ≤ b) :
    (a * b).toNat = a.toNat * b.toNat := by
  rcases Int.eq_ofNat_of_zero_le ha with ⟨m, rfl⟩
  rcases Int.eq_ofNat_of_zero_le hb with ⟨n, rfl⟩
  simp only [← Int.natCast_mul, Int.toNat_natCast]

/-- C2.  For positive sizes and `overlap ∈ (0,1)`, `create_tiles`
performs exactly `tiles_per_side²` `add_tile` calls per acquisition,
where `tiles_per_side = ⌊stage_size / (tile_size * (1 - overlap))⌋`; at
the parser defaults (`stage_size = 100000`, `tile_size = 21512`,
`overlap = 0.06`) this gives `tiles_per_side = 4`, i.e. 16 tiles per
acquisition. -/
theorem C2_tiles_per_acquisition :
    (∀ (args : Args) (acq : Acquisition) (media_id : String) (rQ : ℕ → ℚ)
       (rI : ℕ → ℤ) (s : GState),
      0 < args.tile_size → 0 < args.stage_size → 0 < args.overlap →
      args.overlap < 1 →
      tilesPerSide args =
        ⌊(args.stage_size : ℚ) / ((args.tile_size : ℚ) * (1 - args.overlap))⌋ ∧
      ∃ tiles s',
        create_tiles acq media_id args (pureEnv rQ rI) s = (Except.ok tiles, s') ∧
        s'.events = s.events ++ tiles.map (Event.addTile acq.acquisition_id) ∧
        tiles.length = (tilesPerSide args).toNat * (tilesPerSide args).toNat) ∧
    tilesPerSide defaultArgs = 4 ∧
    (tilesPerSide defaultArgs).toNat * (tilesPerSide defaultArgs).toNat = 16 := by
  have h4 : tilesPerSide defaultArgs = 4 := by
    show pyInt _ = 4
    rw [pyInt_eq_floor]
    · norm_num [defaultArgs, Int.floor_eq_iff]
    · norm_num [defaultArgs]
  refine ⟨?_, h4, by rw [h4]; decide⟩
  · intro args acq media_id rQ rI s hts hss hov hov1
    have hq : (0:ℚ) ≤ (args.stage_size : ℚ) / ((args.tile_size : ℚ) * (1 - args.overlap)) := by
      apply div_nonneg
      · exact_mod_cast le_of_lt hss
      · apply mul_nonneg
        · exact_mod_cast le_of_lt hts
        · linarith
    have hfloor : tilesPerSide args =
        ⌊(args.stage_size : ℚ) / ((args.tile_size : ℚ) * (1 - args.overlap))⌋ :=
      pyInt_eq_floor _ hq
    have htps : 0 ≤ tilesPerSide args := by
      rw [hfloor]
      exact Int.floor_nonneg.mpr hq
    refine ⟨hfloor, ?_⟩
    obtain ⟨tiles, s', hrun, hev, hlen, _⟩ := create_tiles_ok acq media_id args rQ rI s
    exact ⟨tiles, s', hrun, hev, by rw [hlen, toNat_mul_of_nonneg _ _ htps htps]⟩

/-- A concrete acquisition record used to instantiate per-acquisition
theorems. -/
def acq0 : Acquisition :=
  { acquisition_id := "A", roi_id := 0, imaging_session_id := "I"
    montage_id := "M", tile_size := (0, 0), tile_overlap := 0
    status := "planned", sid := 0 }

theorem C2_tiles_per_acquisition_witness :
    (0 < defaultArgs.tile_size ∧ 0 < defaultArgs.stage_size ∧
     0 < defaultArgs.overlap ∧ defaultArgs.overlap < 1) ∧
    (tilesPerSide defaultArgs =
        ⌊(defaultArgs.stage_size : ℚ) /
          ((defaultArgs.tile_size : ℚ) * (1 - defaultArgs.overlap))⌋ ∧
     ∃ tiles s',
       create_tiles acq0 "m" defaultArgs (pureEnv (fun _ => 0) (fun _ => 0)) s0 =
         (Except.ok tiles, s') ∧
       s'.events = s0.events ++ tiles.map (Event.addTile acq0.acquisition_id) ∧
       tiles.length = (tilesPerSide defaultArgs).toNat * (tilesPerSide defaultArgs).toNat) :=
  ⟨⟨by norm_num [defaultArgs], by norm_num [defaultArgs],
    by norm_num [defaultArgs], by norm_num [defaultArgs]⟩,
   C2_tiles_per_acquisition.1 defaultArgs acq0 "m" (fun _ => 0) (fun _ => 0) s0
     (by norm_num [defaultArgs]) (by norm_num [defaultArgs])
     (by norm_num [defaultArgs]) (by norm_num [defaultArgs])⟩

/-- C3.  Tiles are enumerated in row-major order over the square grid:
the `k`-th created tile has `raster_position (row, col) = (k div W, k
mod W)` for `W = tiles_per_side`, `raster_index = k + 1 = row * W + col
+ 1`, starting at 1 and strictly increasing with enumeration order. -/
theorem C3_raster_row_major (args : Args) (acq : Acquisition)
    (media_id : String) (rQ : ℕ → ℚ) (rI : ℕ → ℤ) (s : GState)
    (hpos : 0 < tilesPerSide args) :
    ∃ tiles s',
      create_tiles acq media_id args (pureEnv rQ rI) s = (Except.ok tiles, s')
      ∧ tiles.length = (tilesPerSide args * tilesPerSide args).toNat
      ∧ (∀ k (h : k < tiles.length),
          (tiles.get ⟨k, h⟩).raster_row = (k : ℤ) / tilesPerSide args
        ∧ (tiles.get ⟨k, h⟩).raster_col = (k : ℤ) % tilesPerSide args
        ∧ (tiles.get ⟨k, h⟩).raster_index = k + 1
        ∧ ((tiles.get ⟨k, h⟩).raster_index : ℤ)
            = (tiles.get ⟨k, h⟩).raster_row * tilesPerSide args
              + (tiles.get ⟨k, h⟩).raster_col + 1)
      ∧ (∀ k (h : k < tiles.length), 1 ≤ (tiles.get ⟨k, h⟩).raster_index)
      ∧ ∀ k k' (h : k < tiles.length) (h' : k' < tiles.length), k < k' →
          (tiles.get ⟨k, h⟩).raster_index < (tiles.get ⟨k', h'⟩).raster_index := by
  obtain ⟨tiles, s', hrun, hev, hlen, hspec⟩ := create_tiles_ok acq media_id args rQ rI s
  have hget := (List.forall₂_iff_get.mp hspec).2
  have hlr := (List.forall₂_iff_get.mp hspec).1
  have hW : (0:ℤ) ≤ tilesPerSide args := le_of_lt hpos
  have hidx : ∀ k (h : k < tiles.length),
      (tiles.get ⟨k, h⟩).raster_index = k + 1 := by
    intro k h
    have h1 : k < (List.range ((tilesPerSide args * tilesPerSide args).toNat)).length := by
      rw [hlr]; exact h
    have := hget k h1 h
    rw [List.get_range] at this
    exact this.2.2.2.1
  refine ⟨tiles, s', hrun, hlen, ?_, ?_, ?_⟩
  · intro k h
    have h1 : k < (List.range ((tilesPerSide args * tilesPerSide args).toNat)).length := by
      rw [hlr]; exact h
    obtain ⟨hacq, hrow, hcol, hone, hmat, hfs⟩ := hget k h1 h
    rw [List.get_range] at hrow hcol hone
    have hrow' : (tiles.get ⟨k, h⟩).raster_row = (k : ℤ) / tilesPerSide args := by
      rw [hrow]; exact Int.fdiv_eq_ediv _ hW
    have hcol' : (tiles.get ⟨k, h⟩).raster_col = (k : ℤ) % tilesPerSide args := by
      rw [hcol]; exact Int.fmod_eq_emod _ hW
    refine ⟨hrow', hcol', hone, ?_⟩
    rw [hone, hrow', hcol']
    push_cast
    have hdm := Int.ediv_add_emod (k : ℤ) (tilesPerSide args)
    rw [mul_comm ((k : ℤ) / tilesPerSide args) (tilesPerSide args)]
    linarith [hdm]
  · intro k h
    rw [hidx k h]
    omega
  · intro k k' h h' hlt
    rw [hidx k h, hidx k' h']
    omega

theorem C3_raster_row_major_witness :
    0 < tilesPerSide defaultArgs ∧
    ∃ tiles s',
      create_tiles acq0 "m" defaultArgs (pureEnv (fun _ => 0) (fun _ => 0)) s0 =
        (Except.ok tiles, s')
      ∧ tiles.length = (tilesPerSide defaultArgs * tilesPerSide defaultArgs).toNat
      ∧ (∀ k (h : k < tiles.length),
          (tiles.get ⟨k, h⟩).raster_row = (k : ℤ) / tilesPerSide defaultArgs
        ∧ (tiles.get ⟨k, h⟩).raster_col = (k : ℤ) % tilesPerSide defaultArgs
        ∧ (tiles.get ⟨k, h⟩).raster_index = k + 1
        ∧ ((tiles.get ⟨k, h⟩).raster_index : ℤ)
            = (tiles.get ⟨k, h⟩).raster_row * tilesPerSide defaultArgs
              + (tiles.get ⟨k, h⟩).raster_col + 1)
      ∧ (∀ k (h : k < tiles.length), 1 ≤ (tiles.get ⟨k, h⟩).raster_index)
      ∧ ∀ k k' (h : k < tiles.length) (h' : k' < tiles.length), k < k' →
          (tiles.get ⟨k, h⟩).raster_index < (tiles.get ⟨k', h'⟩).raster_index := by
  have hpos : 0 < tilesPerSide defaultArgs := by
    show 0 < pyInt _
    rw [pyInt_eq_floor]
    · norm_num [defaultArgs, Int.floor_eq_iff]
    · norm_num [defaultArgs]
  exact ⟨hpos, C3_raster_row_major defaultArgs acq0 "m" (fun _ => 0) (fun _ => 0) s0 hpos⟩

/-- C4.  For every base score, every variation and every value the
Gaussian sampler may return (any rational stream), the result of
`generate_focus_score` lies in `[0, 24]`. -/
theorem C4_focus_score_clamped (base variation : ℚ) (env : Env) (s : GState) :
    ∃ v, generate_focus_score base variation env s
        = (Except.ok v, { s with iQ := s.iQ + 1 })
      ∧ 0 ≤ v ∧ v ≤ 24 :=
  ⟨max 0 (min 24 (env.rQ s.iQ)), rfl, le_max_left _ _,
   max_le (by norm_num) (min_le_left _ _)⟩

/-- C10.  Every tile record carries exactly 4 matcher records, whose
`(row, col)` fields are the tile's own position and its right, below
and diagonal neighbors. -/
theorem C10_matcher_records (args : Args) (acq : Acquisition)
    (media_id : String) (rQ : ℕ → ℚ) (rI : ℕ → ℤ) (s : GState) :
    ∃ tiles s',
      create_tiles acq media_id args (pureEnv rQ rI) s = (Except.ok tiles, s')
      ∧ s'.events = s.events ++ tiles.map (Event.addTile acq.acquisition_id)
      ∧ ∀ t ∈ tiles, t.matcher.length = 4
        ∧ t.matcher.map (fun m => (m.row, m.col)) =
            [(t.raster_row, t.raster_col), (t.raster_row, t.raster_col + 1),
             (t.raster_row + 1, t.raster_col), (t.raster_row + 1, t.raster_col + 1)] := by
  obtain ⟨tiles, s', hrun, hev, hlen, hspec⟩ := create_tiles_ok acq media_id args rQ rI s
  refine ⟨tiles, s', hrun, hev, ?_⟩
  intro t ht
  obtain ⟨n, hn, rfl⟩ := List.mem_iff_get.mp ht
  have hget := (List.forall₂_iff_get.mp hspec).2
  have hlr := (List.forall₂_iff_get.mp hspec).1
  have h1 : (n : ℕ) < (List.range ((tilesPerSide args * tilesPerSide args).toNat)).length := by
    rw [hlr]; exact n.isLt
  obtain ⟨hacq, hrow, hcol, hone, hmat, hfs⟩ := hget n h1 n.isLt
  constructor
  · have := congrArg List.length hmat
    simpa using this
  · exact hmat

/-- The ROI record the `k`-th section iteration builds: centroid and
width/height are the session's base values plus the four fresh draws of
this iteration; `specimen_id` / `block_id` are the parents' server
`_id`s. -/
def roiAtIter (cs : CuttingSession) (media_id : String) (j k : ℕ)
    (base_x base_y base_width base_height : ℚ) (block : Block)
    (specimen : Specimen) (rQ : ℕ → ℚ) (s : GState) : ROI :=
  { roi_id := roiIdNum (j + 1) (k + 1)
    section_number := k + 1
    aperture_width_height := (base_width + rQ (s.iQ + 2), base_height + rQ (s.iQ + 3))
    aperture_centroid := (base_x + rQ s.iQ, base_y + rQ (s.iQ + 1))
    specimen_id := specimen.sid
    block_id := block.sid
    sid := s.nextId + 1 }

theorem sectionLoop_cons_run (specimen : Specimen) (block : Block)
    (cs : CuttingSession) (media_id : String) (j : ℕ)
    (base_x base_y base_width base_height : ℚ) (k : ℕ) (ks : List ℕ)
    (rQ : ℕ → ℚ) (rI : ℕ → ℤ) (s : GState) :
    sectionLoop specimen block cs media_id j base_x base_y base_width
        base_height (k :: ks) (pureEnv rQ rI) s =
      Mbind (sectionLoop specimen block cs media_id j base_x base_y
          base_width base_height ks)
        (fun more => Mpure
          ((roiAtIter cs media_id j k base_x base_y base_width base_height
              block specimen rQ s, media_id) :: more))
        (pureEnv rQ rI)
        { s with iQ := s.iQ + 4, nextId := s.nextId + 2,
                 events := s.events
                   ++ [Event.createSection (sectionAt cs (k + 1) media_id s),
                       Event.createROI (roiAtIter cs media_id j k base_x base_y
                         base_width base_height block specimen rQ s)] } := by
  simp only [sectionLoop, roiAtIter, sectionAt, roiAt, Bind.bind, Mbind,
    Pure.pure, Mpure, create_section_run, generate_jittered_roi_run,
    create_roi_run, pureEnv_rQ]
  simp [pureEnv, Nat.add_assoc]

theorem sectionLoop_ok (specimen : Specimen) (block : Block)
    (cs : CuttingSession) (media_id : String) (j : ℕ)
    (base_x base_y base_width base_height : ℚ) (ks : List ℕ)
    (rQ : ℕ → ℚ) (rI : ℕ → ℤ) (s : GState) :
    ∃ (pairs : List (ROI × String)) (s' : GState),
      sectionLoop specimen block cs media_id j base_x base_y base_width
          base_height ks (pureEnv rQ rI) s = (Except.ok pairs, s')
      ∧ (∃ δ, s'.events = s.events ++ δ
          ∧ specimensOf δ = [] ∧ blocksOf δ = [] ∧ cuttingSessionsOf δ = []
          ∧ (sectionsOf δ).length = ks.length
          ∧ roisOf δ = pairs.map Prod.fst
          ∧ imagingSessionsOf δ = [] ∧ addRoisOf δ = []
          ∧ acquisitionsOf δ = [] ∧ addTilesOf δ = [])
      ∧ s'.iQ = s.iQ + 4 * ks.length ∧ s'.iI = s.iI
      ∧ s'.nextId = s.nextId + 2 * ks.length
      ∧ pairs.length = ks.length
      ∧ ∀ idx (h : idx < pairs.length),
          (pairs.get ⟨idx, h⟩).2 = media_id
        ∧ (pairs.get ⟨idx, h⟩).1.aperture_centroid =
            (base_x + rQ (s.iQ + 4 * idx), base_y + rQ (s.iQ + 4 * idx + 1))
        ∧ (pairs.get ⟨idx, h⟩).1.aperture_width_height =
            (base_width + rQ (s.iQ + 4 * idx + 2),
             base_height + rQ (s.iQ + 4 * idx + 3))
        ∧ (pairs.get ⟨idx, h⟩).1.specimen_id = specimen.sid
        ∧ (pairs.get ⟨idx, h⟩).1.block_id = block.sid := by
  induction ks generalizing s with
  | nil =>
    refine ⟨[], s, rfl, ⟨[], by simp, ?_⟩, by simp, rfl, by simp, rfl, ?_⟩
    · simp
    · intro idx h
      simp at h
  | cons k ks ih =>
    obtain ⟨pairs, s', hrun, ⟨δ, hev, hδ⟩, hiQ, hiI, hnid, hlen, hfields⟩ := ih
      { s with iQ := s.iQ + 4, nextId := s.nextId + 2,
               events := s.events
                 ++ [Event.createSection (sectionAt cs (k + 1) media_id s),
                     Event.createROI (roiAtIter cs media_id j k base_x base_y
                       base_width base_height block specimen rQ s)] }
    dsimp only at hfields hev hiQ hiI hnid
    refine ⟨(roiAtIter cs media_id j k base_x base_y base_width base_height
        block specimen rQ s, media_id) :: pairs, s', ?_, ?_,
      by rw [hiQ]; simp; ring, by rw [hiI], by rw [hnid]; simp; ring,
      by simp [hlen], ?_⟩
    · rw [sectionLoop_cons_run]
      unfold Mbind
      rw [hrun]
      rfl
    · refine ⟨[Event.createSection (sectionAt cs (k + 1) media_id s),
        Event.createROI (roiAtIter cs media_id j k base_x base_y base_width
          base_height block specimen rQ s)] ++ δ, by simpa using hev, ?_⟩
      obtain ⟨h1, h2, h3, h4, h5, h6, h7, h8, h9⟩ := hδ
      refine ⟨?_, ?_, ?_, ?_, ?_, ?_, ?_, ?_, ?_⟩
      · simp [specimensOf_append, h1]
      · simp [blocksOf_append, h2]
      · simp [cuttingSessionsOf_append, h3]
      · simp [sectionsOf_append, h4]
      · simp [roisOf_append, h5]
      · simp [imagingSessionsOf_append, h6]
      · simp [addRoisOf_append, h7]
      · simp [acquisitionsOf_append, h8]
      · simp [addTilesOf_append, h9]
    · intro idx h
      match idx with
      | 0 => exact ⟨rfl, by simp [roiAtIter], by simp [roiAtIter], rfl, rfl⟩
      | idx + 1 =>
        have h' : idx < pairs.length := by
          simpa using Nat.lt_of_succ_lt_succ h
        obtain ⟨ha, hb, hc, hd, he⟩ := hfields idx h'
        have e1 : s.iQ + 4 + 4 * idx = s.iQ + 4 * (idx + 1) := by ring
        refine ⟨ha, ?_, ?_, hd, he⟩
        · rw [List.get_cons_succ, hb, e1]
        · rw [List.get_cons_succ, hc, e1]

theorem cuttingLoop_nil_run (specimen : Specimen) (block : Block) (args : Args)
    (counters : List (String × ℕ)) (env : Env) (s : GState) :
    cuttingLoop specimen block args [] counters env s =
      (Except.ok (counters, []), s) := rfl

theorem cuttingLoop_cons_run (specimen : Specimen) (block : Block)
    (args : Args) (j : ℕ) (rest : List ℕ) (counters : List (String × ℕ))
    (rQ : ℕ → ℚ) (rI : ℕ → ℤ) (s : GState) :
    cuttingLoop specimen block args (j :: rest) counters (pureEnv rQ rI) s =
      Mbind (sectionLoop specimen block (cuttingSessionAt block (j + 1) rI s)
          ("TAPE" ++ block.block_id ++ toString (j + 1)) j
          (rI (s.iI + 1) : ℚ) (rI (s.iI + 2) : ℚ)
          (rI (s.iI + 3) : ℚ) (rI (s.iI + 4) : ℚ)
          (List.range args.sections_per_session))
        (fun rois => Mbind (cuttingLoop specimen block args rest
            (countersInit counters ("TAPE" ++ block.block_id ++ toString (j + 1))))
          (fun cr => Mpure (cr.1, rois ++ cr.2)))
        (pureEnv rQ rI)
        { s with iI := s.iI + 5, nextId := s.nextId + 1,
                 events := s.events ++ [Event.createCuttingSession
                   (cuttingSessionAt block (j + 1) rI s)] } := by
  simp only [cuttingLoop, Bind.bind, Mbind, Mpure, Pure.pure,
    create_cutting_session_run, randint_run, pureEnv_rI, cuttingSessionAt]

/-- C5 (amended).  Within one cutting-session iteration of the block
loop, every section's ROI is jittered around the same base rectangle
`(base_x, base_y, base_width, base_height)` — the four integer draws
made right after the cutting-session create (draws `iI+1 .. iI+4`) —
and each section adds four fresh, per-section rational draws of its own
(draws `iQ + 4·idx .. iQ + 4·idx + 3`).  The base is drawn once per
cutting session (inside the cutting-session loop), not once per block
as the claim states. -/
theorem C5_jitter_base_per_cutting_session (specimen : Specimen)
    (block : Block) (args : Args) (j : ℕ) (counters : List (String × ℕ))
    (rQ : ℕ → ℚ) (rI : ℕ → ℤ) (s : GState) :
    ∃ (counters' : List (String × ℕ)) (pairs : List (ROI × String))
      (s' : GState),
      cuttingLoop specimen block args [j] counters (pureEnv rQ rI) s =
        (Except.ok (counters', pairs), s')
      ∧ pairs.length = args.sections_per_session
      ∧ ∀ idx (h : idx < pairs.length),
          (pairs.get ⟨idx, h⟩).1.aperture_centroid =
            ((rI (s.iI + 1) : ℚ) + rQ (s.iQ + 4 * idx),
             (rI (s.iI + 2) : ℚ) + rQ (s.iQ + 4 * idx + 1))
        ∧ (pairs.get ⟨idx, h⟩).1.aperture_width_height =
            ((rI (s.iI + 3) : ℚ) + rQ (s.iQ + 4 * idx + 2),
             (rI (s.iI + 4) : ℚ) + rQ (s.iQ + 4 * idx + 3)) := by
  obtain ⟨pairs, s', hrun, _hδ, _hiQ, _hiI, _hnid, hlen, hfields⟩ :=
    sectionLoop_ok specimen block
    (cuttingSessionAt block (j + 1) rI s)
    ("TAPE" ++ block.block_id ++ toString (j + 1)) j
    (rI (s.iI + 1) : ℚ) (rI (s.iI + 2) : ℚ)
    (rI (s.iI + 3) : ℚ) (rI (s.iI + 4) : ℚ)
    (List.range args.sections_per_session) rQ rI
    { s with iI := s.iI + 5, nextId := s.nextId + 1,
             events := s.events ++ [Event.createCuttingSession
               (cuttingSessionAt block (j + 1) rI s)] }
  dsimp only at hrun hfields
  refine ⟨countersInit counters ("TAPE" ++ block.block_id ++ toString (j + 1)),
    pairs, s', ?_, by simpa using hlen, ?_⟩
  · rw [cuttingLoop_cons_run]
    unfold Mbind
    rw [hrun]
    simp [cuttingLoop_nil_run, Mpure]
  · intro idx h
    obtain ⟨_, hb, hc, _, _⟩ := hfields idx h
    exact ⟨hb, hc⟩

/-- The block record the `i`-th iteration of `create_blocks` builds. -/
def blockAt (specimen : Specimen) (i : ℕ) (rQ : ℕ → ℚ) (s : GState) : Block :=
  { block_id := "BLK_" ++ specimen.specimen_id ++ "_" ++ pad3 (i + 1)
    specimen_id := specimen.specimen_id
    microCT_resolution := rQ s.iQ
    sid := s.nextId }

theorem blocksLoop_cons_run (specimen : Specimen) (i : ℕ) (ks : List ℕ)
    (rQ : ℕ → ℚ) (rI : ℕ → ℤ) (s : GState) :
    blocksLoop specimen (i :: ks) (pureEnv rQ rI) s =
      Mbind (blocksLoop specimen ks)
        (fun blocks => Mpure (blockAt specimen i rQ s :: blocks))
        (pureEnv rQ rI)
        { s with iQ := s.iQ + 1, nextId := s.nextId + 1,
                 events := s.events
                   ++ [Event.createBlock (blockAt specimen i rQ s)] } := by
  simp only [blocksLoop, blockAt, Bind.bind, Mbind, Mpure, Pure.pure,
    uniform_run, pureEnv_rQ, pureEnv, clientCreate]

theorem blocksLoop_ok (specimen : Specimen) (ks : List ℕ) (rQ : ℕ → ℚ)
    (rI : ℕ → ℤ) (s : GState) :
    ∃ blocks s', blocksLoop specimen ks (pureEnv rQ rI) s =
        (Except.ok blocks, s')
      ∧ s'.events = s.events ++ blocks.map Event.createBlock
      ∧ blocks.length = ks.length
      ∧ s'.iI = s.iI ∧ s'.iQ = s.iQ + ks.length
      ∧ ∀ b ∈ blocks, b.specimen_id = specimen.specimen_id := by
  induction ks generalizing s with
  | nil => exact ⟨[], s, rfl, by simp, rfl, rfl, by simp, by simp⟩
  | cons i ks ih =>
    obtain ⟨blocks, s', hrun, hev, hlen, hiI, hiQ, hfields⟩ := ih
      { s with iQ := s.iQ + 1, nextId := s.nextId + 1,
               events := s.events ++ [Event.createBlock (blockAt specimen i rQ s)] }
    dsimp only at hev hiI hiQ
    refine ⟨blockAt specimen i rQ s :: blocks, s', ?_, ?_, by simp [hlen],
      by rw [hiI], by rw [hiQ]; simp; ring, ?_⟩
    · rw [blocksLoop_cons_run]
      unfold Mbind
      rw [hrun]
      rfl
    · simp [hev]
    · intro b hb
      rcases List.mem_cons.mp hb with h | h
      · rw [h]; rfl
      · exact hfields b h

theorem cuttingLoop_ok (specimen : Specimen) (block : Block) (args : Args)
    (n j0 : ℕ) (counters : List (String × ℕ)) (rQ : ℕ → ℚ) (rI : ℕ → ℤ)
    (s : GState) :
    ∃ (counters' : List (String × ℕ)) (groups : List (List (ROI × String)))
      (s' : GState),
      cuttingLoop specimen block args (List.range' j0 n) counters
          (pureEnv rQ rI) s =
        (Except.ok (counters', groups.join), s')
      ∧ groups.length = n
      ∧ (∃ δ, s'.events = s.events ++ δ
          ∧ specimensOf δ = [] ∧ blocksOf δ = []
          ∧ (cuttingSessionsOf δ).length = n
          ∧ (∀ c ∈ cuttingSessionsOf δ, c.block_id = block.block_id)
          ∧ (sectionsOf δ).length = n * args.sections_per_session
          ∧ roisOf δ = groups.join.map Prod.fst
          ∧ imagingSessionsOf δ = [] ∧ addRoisOf δ = []
          ∧ acquisitionsOf δ = [] ∧ addTilesOf δ = [])
      ∧ s'.iQ = s.iQ + 4 * args.sections_per_session * n
      ∧ s'.iI = s.iI + 5 * n
      ∧ ∀ g (hg : g < groups.length),
          (groups.get ⟨g, hg⟩).length = args.sections_per_session
        ∧ ∀ idx (h : idx < (groups.get ⟨g, hg⟩).length),
            ((groups.get ⟨g, hg⟩).get ⟨idx, h⟩).2 =
              "TAPE" ++ block.block_id ++ toString (j0 + g + 1)
          ∧ ((groups.get ⟨g, hg⟩).get ⟨idx, h⟩).1.aperture_centroid =
              ((rI (s.iI + 5 * g + 1) : ℚ)
                 + rQ (s.iQ + 4 * args.sections_per_session * g + 4 * idx),
               (rI (s.iI + 5 * g + 2) : ℚ)
                 + rQ (s.iQ + 4 * args.sections_per_session * g + 4 * idx + 1))
          ∧ ((groups.get ⟨g, hg⟩).get ⟨idx, h⟩).1.aperture_width_height =
              ((rI (s.iI + 5 * g + 3) : ℚ)
                 + rQ (s.iQ + 4 * args.sections_per_session * g + 4 * idx + 2),
               (rI (s.iI + 5 * g + 4) : ℚ)
                 + rQ (s.iQ + 4 * args.sections_per_session * g + 4 * idx + 3))
          ∧ ((groups.get ⟨g, hg⟩).get ⟨idx, h⟩).1.specimen_id = specimen.sid
          ∧ ((groups.get ⟨g, hg⟩).get ⟨idx, h⟩).1.block_id = block.sid := by
  induction n generalizing j0 counters s with
  | zero =>
    refine ⟨counters, [], s, by simp [cuttingLoop_nil_run], rfl,
      ⟨[], by simp, by simp, by simp, rfl, by simp, by simp, by simp,
        by simp, by simp, by simp, by simp⟩, by simp, by simp, ?_⟩
    intro g hg
    simp at hg
  | succ n ih =>
    have hconsL : List.range' j0 (n + 1) = j0 :: List.range' (j0 + 1) n := rfl
    obtain ⟨pairs0, s1, hrun1, ⟨δ0, hev0, hδ0⟩, hiQ1, hiI1, _hnid1, hlen1,
      hfields1⟩ := sectionLoop_ok specimen block
        (cuttingSessionAt block (j0 + 1) rI s)
        ("TAPE" ++ block.block_id ++ toString (j0 + 1)) j0
        (rI (s.iI + 1) : ℚ) (rI (s.iI + 2) : ℚ)
        (rI (s.iI + 3) : ℚ) (rI (s.iI + 4) : ℚ)
        (List.range args.sections_per_session) rQ rI
        { s with iI := s.iI + 5, nextId := s.nextId + 1,
                 events := s.events ++ [Event.createCuttingSession
                   (cuttingSessionAt block (j0 + 1) rI s)] }
    dsimp only at hev0 hiQ1 hiI1 hfields1
    obtain ⟨counters2, groups', s2, hrun2, hglen', ⟨δ', hev', hδ'⟩, hiQ2, hiI2,
      hfields'⟩ := ih (j0 + 1)
        (countersInit counters ("TAPE" ++ block.block_id ++ toString (j0 + 1))) s1
    refine ⟨counters2, pairs0 :: groups', s2, ?_, by simp [hglen'], ?_, ?_, ?_, ?_⟩
    · rw [hconsL, cuttingLoop_cons_run]
      unfold Mbind
      rw [hrun1]
      show Mbind _ _ _ _ = _
      unfold Mbind
      rw [hrun2]
      rfl
    · refine ⟨Event.createCuttingSession (cuttingSessionAt block (j0 + 1) rI s)
        :: (δ0 ++ δ'), ?_, ?_, ?_, ?_, ?_, ?_, ?_, ?_, ?_, ?_, ?_⟩
      · rw [hev', hev0]
        simp
      · obtain ⟨g1, _⟩ := hδ0
        obtain ⟨g1', _⟩ := hδ'
        simp [specimensOf_append, g1, g1']
      · obtain ⟨_, g2, _⟩ := hδ0
        obtain ⟨_, g2', _⟩ := hδ'
        simp [blocksOf_append, g2, g2']
      · obtain ⟨_, _, g3, _⟩ := hδ0
        obtain ⟨_, _, g3', _⟩ := hδ'
        simp [cuttingSessionsOf_append, g3, g3']
      · intro c hc
        rw [cuttingSessionsOf_cons_createCuttingSession] at hc
        rcases List.mem_cons.mp hc with h | h
        · rw [h]; rfl
        · rw [cuttingSessionsOf_append] at h
          rcases List.mem_append.mp h with h2 | h2
          · obtain ⟨_, _, g3, _⟩ := hδ0
            rw [g3] at h2
            simp at h2
          · obtain ⟨_, _, _, g4', _⟩ := hδ'
            exact g4' c h2
      · obtain ⟨_, _, _, g4, _⟩ := hδ0
        obtain ⟨_, _, _, _, g5', _⟩ := hδ'
        simp [sectionsOf_append, g4, g5']
        ring
      · obtain ⟨_, _, _, _, g5, _⟩ := hδ0
        obtain ⟨_, _, _, _, _, g6', _⟩ := hδ'
        simp [roisOf_append, g5, g6']
      · obtain ⟨_, _, _, _, _, g6, _⟩ := hδ0
        obtain ⟨_, _, _, _, _, _, g7', _⟩ := hδ'
        simp [imagingSessionsOf_append, g6, g7']
      · obtain ⟨_, _, _, _, _, _, g7, _⟩ := hδ0
        obtain ⟨_, _, _, _, _, _, _, g8', _⟩ := hδ'
        simp [addRoisOf_append, g7, g8']
      · obtain ⟨_, _, _, _, _, _, _, g8, _⟩ := hδ0
        obtain ⟨_, _, _, _, _, _, _, _, g9', _⟩ := hδ'
        simp [acquisitionsOf_append, g8, g9']
      · obtain ⟨_, _, _, _, _, _, _, _, g9⟩ := hδ0
        obtain ⟨_, _, _, _, _, _, _, _, _, g10'⟩ := hδ'
        simp [addTilesOf_append, g9, g10']
    · rw [hiQ2, hiQ1]
      simp
      ring
    · rw [hiI2, hiI1]
      ring
    · intro g hg
      match g with
      | 0 =>
        refine ⟨by simpa using hlen1, ?_⟩
        intro idx h
        have h0 : idx < pairs0.length := by simpa using h
        obtain ⟨ha, hb, hc, hd, he⟩ := hfields1 idx h0
        refine ⟨?_, ?_, ?_, hd, he⟩
        · simpa using ha
        · show (pairs0.get ⟨idx, h0⟩).1.aperture_centroid = _
          rw [hb]
          norm_num
        · show (pairs0.get ⟨idx, h0⟩).1.aperture_width_height = _
          rw [hc]
          norm_num
      | g + 1 =>
        have hg' : g < groups'.length := by simpa using Nat.lt_of_succ_lt_succ hg
        obtain ⟨hlen'', hfld⟩ := hfields' g hg'
        refine ⟨by simpa using hlen'', ?_⟩
        intro idx h
        have h' : idx < (groups'.get ⟨g, hg'⟩).length := by simpa using h
        obtain ⟨ha, hb, hc, hd, he⟩ := hfld idx h'
        have hms : j0 + 1 + g + 1 = j0 + (g + 1) + 1 := by ring
        refine ⟨?_, ?_, ?_, ?_, ?_⟩
        · show ((groups'.get ⟨g, hg'⟩).get ⟨idx, h'⟩).2 = _
          rw [ha, hms]
        · show ((groups'.get ⟨g, hg'⟩).get ⟨idx, h'⟩).1.aperture_centroid = _
          rw [hb, hiQ1, hiI1]
          simp only [List.length_range]
          ring_nf
        · show ((groups'.get ⟨g, hg'⟩).get ⟨idx, h'⟩).1.aperture_width_height = _
          rw [hc, hiQ1, hiI1]
          simp only [List.length_range]
          ring_nf
        · exact hd
        · exact he

@[simp] theorem specimensOf_map_addTile (aid : String) (tiles : List Tile) :
    specimensOf (tiles.map (Event.addTile aid)) = [] := by
  induction tiles with
  | nil => rfl
  | cons t ts iht => simpa using iht

@[simp] theorem blocksOf_map_addTile (aid : String) (tiles : List Tile) :
    blocksOf (tiles.map (Event.addTile aid)) = [] := by
  induction tiles with
  | nil => rfl
  | cons t ts iht => simpa using iht

@[simp] theorem cuttingSessionsOf_map_addTile (aid : String) (tiles : List Tile) :
    cuttingSessionsOf (tiles.map (Event.addTile aid)) = [] := by
  induction tiles with
  | nil => rfl
  | cons t ts iht => simpa using iht

@[simp] theorem sectionsOf_map_addTile (aid : String) (tiles : List Tile) :
    sectionsOf (tiles.map (Event.addTile aid)) = [] := by
  induction tiles with
  | nil => rfl
  | cons t ts iht => simpa using iht

@[simp] theorem roisOf_map_addTile (aid : String) (tiles : List Tile) :
    roisOf (tiles.map (Event.addTile aid)) = [] := by
  induction tiles with
  | nil => rfl
  | cons t ts iht => simpa using iht

@[simp] theorem imagingSessionsOf_map_addTile (aid : String) (tiles : List Tile) :
    imagingSessionsOf (tiles.map (Event.addTile aid)) = [] := by
  induction tiles with
  | nil => rfl
  | cons t ts iht => simpa using iht

@[simp] theorem addRoisOf_map_addTile (aid : String) (tiles : List Tile) :
    addRoisOf (tiles.map (Event.addTile aid)) = [] := by
  induction tiles with
  | nil => rfl
  | cons t ts iht => simpa using iht

@[simp] theorem acquisitionsOf_map_addTile (aid : String) (tiles : List Tile) :
    acquisitionsOf (tiles.map (Event.addTile aid)) = [] := by
  induction tiles with
  | nil => rfl
  | cons t ts iht => simpa using iht

@[simp] theorem addTilesOf_map_addTile (aid : String) (tiles : List Tile) :
    addTilesOf (tiles.map (Event.addTile aid)) = tiles.map (fun t => (aid, t)) := by
  induction tiles with
  | nil => rfl
  | cons t ts iht => simpa using iht

theorem roiLoop_cons_run (imaging_session : ImagingSession) (media_id : String)
    (args : Args) (roi : ROI) (rest : List ROI) (rQ : ℕ → ℚ) (rI : ℕ → ℤ)
    (s : GState) :
    roiLoop imaging_session media_id args (roi :: rest) (pureEnv rQ rI) s =
      Mbind (create_tiles (acquisitionAt imaging_session roi args
          { s with events := s.events
              ++ [Event.addRois imaging_session.session_id roi.roi_id] })
          media_id args)
        (fun tiles => Mbind (roiLoop imaging_session media_id args rest)
          (fun more => Mpure ((acquisitionAt imaging_session roi args
            { s with events := s.events
                ++ [Event.addRois imaging_session.session_id roi.roi_id] },
            tiles) :: more)))
        (pureEnv rQ rI)
        { s with nextId := s.nextId + 1,
                 events := s.events
                   ++ [Event.addRois imaging_session.session_id roi.roi_id,
                       Event.createAcquisition (acquisitionAt imaging_session
                         roi args { s with events := s.events
                           ++ [Event.addRois imaging_session.session_id roi.roi_id] })] } := by
  simp only [roiLoop, Bind.bind, Mbind, Mpure, Pure.pure, clientCall_runP,
    create_acquisition_run]
  simp [Nat.add_assoc]

theorem roiLoop_ok (imaging_session : ImagingSession) (media_id : String)
    (args : Args) (rois : List ROI) (rQ : ℕ → ℚ) (rI : ℕ → ℤ) (s : GState) :
    ∃ (results : List (Acquisition × List Tile)) (s' : GState),
      roiLoop imaging_session media_id args rois (pureEnv rQ rI) s =
        (Except.ok results, s')
      ∧ (∃ δ, s'.events = s.events ++ δ
          ∧ specimensOf δ = [] ∧ blocksOf δ = [] ∧ cuttingSessionsOf δ = []
          ∧ sectionsOf δ = [] ∧ roisOf δ = [] ∧ imagingSessionsOf δ = []
          ∧ addRoisOf δ =
              rois.map (fun r => (imaging_session.session_id, r.roi_id))
          ∧ acquisitionsOf δ = results.map Prod.fst
          ∧ (addTilesOf δ).length =
              rois.length * (tilesPerSide args * tilesPerSide args).toNat
          ∧ (∀ p ∈ addTilesOf δ,
              p.1 ∈ (acquisitionsOf δ).map (fun a => a.acquisition_id)))
      ∧ List.Forall₂ (fun (roi : ROI) (pr : Acquisition × List Tile) =>
          pr.1.roi_id = roi.roi_id
          ∧ pr.1.imaging_session_id = imaging_session.session_id
          ∧ pr.2.length = (tilesPerSide args * tilesPerSide args).toNat)
          rois results := by
  induction rois generalizing s with
  | nil =>
    exact ⟨[], s, rfl, ⟨[], by simp, by simp, by simp, by simp, by simp,
      by simp, by simp, by simp, by simp, by simp, by simp⟩, List.Forall₂.nil⟩
  | cons roi rest ih =>
    obtain ⟨tiles, s2, hrunT, hevT, hlenT, hspecT⟩ := create_tiles_ok
      (acquisitionAt imaging_session roi args
        { s with events := s.events
            ++ [Event.addRois imaging_session.session_id roi.roi_id] })
      media_id args rQ rI
      { s with nextId := s.nextId + 1,
               events := s.events
                 ++ [Event.addRois imaging_session.session_id roi.roi_id,
                     Event.createAcquisition (acquisitionAt imaging_session
                       roi args { s with events := s.events
                         ++ [Event.addRois imaging_session.session_id roi.roi_id] })] }
    obtain ⟨results, s3, hrunR, ⟨δ, hevR, hδ1, hδ2, hδ3, hδ4, hδ5, hδ6, hδ7,
      hδ8, hδ9, hδ10⟩, hfa⟩ := ih s2
    dsimp only at hevT
    refine ⟨(acquisitionAt imaging_session roi args
        { s with events := s.events
            ++ [Event.addRois imaging_session.session_id roi.roi_id] },
      tiles) :: results, s3, ?_, ?_, ?_⟩
    · rw [roiLoop_cons_run]
      unfold Mbind
      rw [hrunT]
      show Mbind _ _ _ _ = _
      unfold Mbind
      rw [hrunR]
      rfl
    · refine ⟨[Event.addRois imaging_session.session_id roi.roi_id,
        Event.createAcquisition (acquisitionAt imaging_session roi args
          { s with events := s.events
              ++ [Event.addRois imaging_session.session_id roi.roi_id] })]
        ++ tiles.map (Event.addTile (acquisitionAt imaging_session roi args
          { s with events := s.events
              ++ [Event.addRois imaging_session.session_id roi.roi_id] }).acquisition_id)
        ++ δ, ?_, ?_, ?_, ?_, ?_, ?_, ?_, ?_, ?_, ?_, ?_⟩
      · rw [hevR, hevT]
        simp
      · simp [specimensOf_append, hδ1]
      · simp [blocksOf_append, hδ2]
      · simp [cuttingSessionsOf_append, hδ3]
      · simp [sectionsOf_append, hδ4]
      · simp [roisOf_append, hδ5]
      · simp [imagingSessionsOf_append, hδ6]
      · simp [addRoisOf_append, hδ7]
      · simp [acquisitionsOf_append, hδ8]
      · simp [addTilesOf_append, hδ9, hlenT]
        ring
      · intro p hp
        simp only [List.append_assoc, addTilesOf_append,
          addTilesOf_cons_addRois, addTilesOf_cons_createAcquisition,
          addTilesOf_nil, addTilesOf_map_addTile, List.nil_append,
          List.mem_append] at hp
        simp only [List.append_assoc, acquisitionsOf_append,
          acquisitionsOf_cons_addRois, acquisitionsOf_cons_createAcquisition,
          acquisitionsOf_nil, acquisitionsOf_map_addTile, List.nil_append,
          List.map_append, List.mem_append]
        rcases hp with hp | hp
        · left
          obtain ⟨t, _, rfl⟩ := List.mem_map.mp hp
          simp
        · right
          exact hδ10 p hp
    · refine List.Forall₂.cons ⟨rfl, rfl, ?_⟩ hfa
      exact hlenT

theorem join_consecutive_slices (l : List ROI) (B : ℕ) :
    ∀ (n i0 : ℕ),
      ((List.range' i0 n).map
        (fun i => (l.drop (i * B)).take B)).join =
        (l.drop (i0 * B)).take (n * B) := by
  intro n
  induction n with
  | zero => intro i0; simp
  | succ n ih =>
    intro i0
    have hcons : List.range' i0 (n + 1) = i0 :: List.range' (i0 + 1) n := rfl
    rw [hcons]
    simp only [List.map_cons, List.join_cons, ih (i0 + 1)]
    have hdd : l.drop ((i0 + 1) * B) = (l.drop (i0 * B)).drop B := by
      rw [List.drop_drop]
      congr 1
      ring
    rw [hdd, ← List.take_add]
    congr 1
    ring

theorem imagingLoop_nil_run (specimen : Specimen) (block : Block)
    (media_id : String) (media_rois : List ROI) (args : Args)
    (counters : List (String × ℕ)) (env : Env) (s : GState) :
    imagingLoop specimen block media_id media_rois args [] counters env s =
      (Except.ok (counters, []), s) := rfl

theorem imagingLoop_cons_run (specimen : Specimen) (block : Block)
    (media_id : String) (media_rois : List ROI) (args : Args) (i : ℕ)
    (rest : List ℕ) (counters : List (String × ℕ)) (rQ : ℕ → ℚ) (rI : ℕ → ℤ)
    (s : GState) :
    imagingLoop specimen block media_id media_rois args (i :: rest) counters
        (pureEnv rQ rI) s =
      Mbind (roiLoop (imagingSessionAt specimen block media_id
          (countersGet (countersSet counters media_id
            (countersGet counters media_id + 1)) media_id) rI s) media_id args
          ((media_rois.drop (i * args.rois_per_imaging_session)).take
            args.rois_per_imaging_session))
        (fun acqs => Mbind (imagingLoop specimen block media_id media_rois args
            rest (countersSet counters media_id
              (countersGet counters media_id + 1)))
          (fun cm => Mpure (cm.1,
            (imagingSessionAt specimen block media_id
              (countersGet (countersSet counters media_id
                (countersGet counters media_id + 1)) media_id) rI s,
             (media_rois.drop (i * args.rois_per_imaging_session)).take
               args.rois_per_imaging_session,
             acqs) :: cm.2)))
        (pureEnv rQ rI)
        { s with iI := s.iI + 6, nextId := s.nextId + 1,
                 events := s.events ++ [Event.createImagingSession
                   (imagingSessionAt specimen block media_id
                     (countersGet (countersSet counters media_id
                       (countersGet counters media_id + 1)) media_id) rI s)] } := by
  simp only [imagingLoop, Bind.bind, Mbind, Mpure, Pure.pure,
    create_imaging_session_run]

theorem imagingLoop_ok (specimen : Specimen) (block : Block)
    (media_id : String) (media_rois : List ROI) (args : Args) (n i0 : ℕ)
    (counters : List (String × ℕ)) (rQ : ℕ → ℚ) (rI : ℕ → ℤ) (s : GState) :
    ∃ (counters' : List (String × ℕ))
      (sessions : List (ImagingSession × List ROI × List (Acquisition × List Tile)))
      (s' : GState),
      imagingLoop specimen block media_id media_rois args (List.range' i0 n)
          counters (pureEnv rQ rI) s =
        (Except.ok (counters', sessions), s')
      ∧ sessions.length = n
      ∧ (∃ δ, s'.events = s.events ++ δ
          ∧ specimensOf δ = [] ∧ blocksOf δ = [] ∧ cuttingSessionsOf δ = []
          ∧ sectionsOf δ = [] ∧ roisOf δ = []
          ∧ imagingSessionsOf δ = sessions.map (fun x => x.1)
          ∧ addRoisOf δ = (sessions.map (fun x =>
              x.2.1.map (fun r => (x.1.session_id, r.roi_id)))).join
          ∧ (acquisitionsOf δ).map (fun a => a.roi_id)
              = (sessions.map (fun x => x.2.1.map (fun r => r.roi_id))).join
          ∧ (addTilesOf δ).length = ((sessions.map (fun x => x.2.1.length)).sum)
              * (tilesPerSide args * tilesPerSide args).toNat
          ∧ (∀ p ∈ addTilesOf δ,
              p.1 ∈ (acquisitionsOf δ).map (fun a => a.acquisition_id)))
      ∧ ∀ i (hi : i < sessions.length),
          (sessions.get ⟨i, hi⟩).2.1 =
            (media_rois.drop ((i0 + i) * args.rois_per_imaging_session)).take
              args.rois_per_imaging_session
        ∧ (sessions.get ⟨i, hi⟩).1.specimen_id = specimen.specimen_id
        ∧ (sessions.get ⟨i, hi⟩).1.block_id = block.block_id
        ∧ (sessions.get ⟨i, hi⟩).1.media_id = media_id := by
  induction n generalizing i0 counters s with
  | zero =>
    refine ⟨counters, [], s, by simp [imagingLoop_nil_run], rfl,
      ⟨[], by simp, by simp, by simp, by simp, by simp, by simp, by simp,
        by simp, by simp, by simp, by simp⟩, ?_⟩
    intro i hi
    simp at hi
  | succ n ih =>
    have hconsL : List.range' i0 (n + 1) = i0 :: List.range' (i0 + 1) n := rfl
    set ims := imagingSessionAt specimen block media_id
      (countersGet (countersSet counters media_id
        (countersGet counters media_id + 1)) media_id) rI s with hims
    set slice := (media_rois.drop (i0 * args.rois_per_imaging_session)).take
      args.rois_per_imaging_session with hslice
    obtain ⟨acqs, s2, hrunA, ⟨δ0, hev0, hδa1, hδa2, hδa3, hδa4, hδa5, hδa6,
      hδa7, hδa8, hδa9, hδa10⟩, hfaA⟩ := roiLoop_ok ims media_id args slice
      rQ rI
      { s with iI := s.iI + 6, nextId := s.nextId + 1,
               events := s.events ++ [Event.createImagingSession ims] }
    obtain ⟨counters2, sessions, s3, hrunI, hslen, ⟨δ', hev', hδ1, hδ2, hδ3,
      hδ4, hδ5, hδ6, hδ7, hδ8, hδ9, hδ10⟩, hfields⟩ := ih (i0 + 1)
      (countersSet counters media_id (countersGet counters media_id + 1)) s2
    dsimp only at hev0
    refine ⟨counters2, (ims, slice, acqs) :: sessions, s3, ?_,
      by simp [hslen], ?_, ?_⟩
    · rw [hconsL, imagingLoop_cons_run]
      unfold Mbind
      rw [← hims, ← hslice, hrunA]
      show Mbind _ _ _ _ = _
      unfold Mbind
      rw [hrunI]
      rfl
    · refine ⟨Event.createImagingSession ims :: (δ0 ++ δ'), ?_, ?_, ?_, ?_,
        ?_, ?_, ?_, ?_, ?_, ?_, ?_⟩
      · rw [hev', hev0]
        simp
      · simp [specimensOf_append, hδa1, hδ1]
      · simp [blocksOf_append, hδa2, hδ2]
      · simp [cuttingSessionsOf_append, hδa3, hδ3]
      · simp [sectionsOf_append, hδa4, hδ4]
      · simp [roisOf_append, hδa5, hδ5]
      · simp [imagingSessionsOf_append, hδa6, hδ6]
      · simp [addRoisOf_append, hδa7, hδ7]
      · simp only [List.map_cons, List.join_cons, acquisitionsOf_append,
          acquisitionsOf_cons_createImagingSession, List.map_append, hδ8]
        congr 1
        rw [hδa8]
        have : ∀ (l : List ROI)
            (res : List (Acquisition × List Tile)),
            List.Forall₂ (fun (roi : ROI) (pr : Acquisition × List Tile) =>
              pr.1.roi_id = roi.roi_id
              ∧ pr.1.imaging_session_id = ims.session_id
              ∧ pr.2.length = (tilesPerSide args * tilesPerSide args).toNat)
              l res →
            (res.map Prod.fst).map (fun a => a.roi_id) =
              l.map (fun r => r.roi_id) := by
          intro l res hfa
          induction hfa with
          | nil => rfl
          | cons hpr _ ihh => simp [ihh, hpr.1]
        exact this slice acqs hfaA
      · simp only [acquisitionsOf_cons_createImagingSession,
          addTilesOf_cons_createImagingSession, addTilesOf_append,
          List.length_append, hδa9, hδ9, List.map_cons, List.sum_cons]
        have : slice.length = acqs.length := hfaA.length_eq
        ring
      · intro p hp
        simp only [addTilesOf_cons_createImagingSession, addTilesOf_append,
          List.mem_append] at hp
        simp only [acquisitionsOf_cons_createImagingSession,
          acquisitionsOf_append, List.map_append, List.mem_append]
        rcases hp with hp | hp
        · left
          exact hδa10 p hp
        · right
          exact hδ10 p hp
    · intro i hi
      match i with
      | 0 =>
        refine ⟨by simpa using hslice, rfl, rfl, rfl⟩
      | i + 1 =>
        have hi' : i < sessions.length := by simpa using Nat.lt_of_succ_lt_succ hi
        obtain ⟨ha, hb, hc, hd⟩ := hfields i hi'
        refine ⟨?_, hb, hc, hd⟩
        show (sessions.get ⟨i, hi'⟩).2.1 = _
        rw [ha]
        congr 2
        ring

theorem join_map_map {α β : Type} (f : α → β) (L : List (List α)) :
    (L.map (List.map f)).join = L.join.map f := by
  induction L with
  | nil => rfl
  | cons x xs ih => simp only [List.map_cons, List.join_cons, List.map_append, ih]

theorem join_pairs_snd
    (sessions : List (ImagingSession × List ROI × List (Acquisition × List Tile))) :
    ((sessions.map (fun x =>
        x.2.1.map (fun r => (x.1.session_id, r.roi_id)))).join).map Prod.snd =
      (sessions.map (fun x => x.2.1.map (fun r => r.roi_id))).join := by
  induction sessions with
  | nil => rfl
  | cons x xs ih =>
    simp only [List.map_cons, List.join_cons, List.map_append]
    rw [ih, List.map_map]
    rfl

/-- What one media-group iteration of `generate_data` (source lines
341-371) does, for any batch size: the run lemma behind C1. -/
theorem processMediaGroup_ok (specimen : Specimen) (block : Block) (args : Args)
    (media_id : String) (media_rois : List ROI)
    (counters : List (String × ℕ)) (rQ : ℕ → ℚ) (rI : ℕ → ℤ) (s : GState) :
    ∃ (counters' : List (String × ℕ))
      (sessions : List (ImagingSession × List ROI × List (Acquisition × List Tile)))
      (s' : GState) (δ : List Event),
      processMediaGroup specimen block args media_id media_rois counters
          (pureEnv rQ rI) s =
        (Except.ok (counters', sessions), s')
      ∧ s'.events = s.events ++ δ
      ∧ sessions.length = media_rois.length / args.rois_per_imaging_session
      ∧ (imagingSessionsOf δ).length =
          media_rois.length / args.rois_per_imaging_session
      ∧ (∀ i (hi : i < sessions.length),
          (sessions.get ⟨i, hi⟩).2.1 =
            (media_rois.drop (i * args.rois_per_imaging_session)).take
              args.rois_per_imaging_session
        ∧ (sessions.get ⟨i, hi⟩).2.1.length = args.rois_per_imaging_session)
      ∧ (addRoisOf δ).map Prod.snd =
          (media_rois.take ((media_rois.length / args.rois_per_imaging_session)
            * args.rois_per_imaging_session)).map (fun r => r.roi_id)
      ∧ (acquisitionsOf δ).map (fun a => a.roi_id) =
          (media_rois.take ((media_rois.length / args.rois_per_imaging_session)
            * args.rois_per_imaging_session)).map (fun r => r.roi_id)
      ∧ roisOf δ = []
      ∧ specimensOf δ = [] ∧ blocksOf δ = [] ∧ cuttingSessionsOf δ = []
      ∧ sectionsOf δ = []
      ∧ (addRoisOf δ).length =
          (media_rois.length / args.rois_per_imaging_session)
            * args.rois_per_imaging_session
      ∧ (acquisitionsOf δ).length =
          (media_rois.length / args.rois_per_imaging_session)
            * args.rois_per_imaging_session
      ∧ (∀ p ∈ addTilesOf δ,
          p.1 ∈ (acquisitionsOf δ).map (fun a => a.acquisition_id))
      ∧ (addTilesOf δ).length =
          (media_rois.length / args.rois_per_imaging_session)
            * args.rois_per_imaging_session
            * (tilesPerSide args * tilesPerSide args).toNat := by
  obtain ⟨counters', sessions, s', hrun, hslen, ⟨δ, hev, hδ1, hδ2, hδ3, hδ4,
    hδ5, hδ6, hδ7, hδ8, hδ9, hδ10⟩, hfields⟩ := imagingLoop_ok specimen block
    media_id media_rois args
    (media_rois.length / args.rois_per_imaging_session) 0 counters rQ rI s
  have hrun' : processMediaGroup specimen block args media_id media_rois
      counters (pureEnv rQ rI) s = (Except.ok (counters', sessions), s') := by
    show imagingLoop specimen block media_id media_rois args
      (List.range (media_rois.length / args.rois_per_imaging_session))
      counters (pureEnv rQ rI) s = _
    rw [List.range_eq_range']
    exact hrun
  -- every batch is full
  have hbatch : ∀ i (hi : i < sessions.length),
      (sessions.get ⟨i, hi⟩).2.1 =
        (media_rois.drop (i * args.rois_per_imaging_session)).take
          args.rois_per_imaging_session
      ∧ (sessions.get ⟨i, hi⟩).2.1.length = args.rois_per_imaging_session := by
    intro i hi
    obtain ⟨ha, _, _, _⟩ := hfields i hi
    have ha' : (sessions.get ⟨i, hi⟩).2.1 =
        (media_rois.drop (i * args.rois_per_imaging_session)).take
          args.rois_per_imaging_session := by
      rw [ha]
      norm_num
    refine ⟨ha', ?_⟩
    rw [ha']
    have hle : (i + 1) * args.rois_per_imaging_session ≤ media_rois.length := by
      calc (i + 1) * args.rois_per_imaging_session
          ≤ (media_rois.length / args.rois_per_imaging_session)
              * args.rois_per_imaging_session := by
            apply Nat.mul_le_mul_right
            rw [hslen] at hi
            omega
        _ ≤ media_rois.length := Nat.div_mul_le_self _ _
    rw [List.length_take, List.length_drop]
    have hexp : (i + 1) * args.rois_per_imaging_session
        = i * args.rois_per_imaging_session + args.rois_per_imaging_session := by
      ring
    omega
  -- the list of batches is the list of consecutive slices
  have hbatches : sessions.map (fun x => x.2.1) =
      (List.range' 0 (media_rois.length / args.rois_per_imaging_session)).map
        (fun i => (media_rois.drop (i * args.rois_per_imaging_session)).take
          args.rois_per_imaging_session) := by
    apply List.ext_get
    · simp [hslen]
    · intro n h1 h2
      have hn : n < sessions.length := by simpa using h1
      rw [List.get_map, List.get_map, List.get_range']
      have := (hbatch n hn).1
      simp only [this]
      norm_num
  have hjoin := join_consecutive_slices media_rois
    args.rois_per_imaging_session
    (media_rois.length / args.rois_per_imaging_session) 0
  simp only [Nat.zero_mul, List.drop_zero] at hjoin
  have hsum : (sessions.map (fun x => x.2.1.length)).sum =
      (media_rois.length / args.rois_per_imaging_session)
        * args.rois_per_imaging_session := by
    have hlens : sessions.map (fun x => x.2.1.length) =
        List.replicate (media_rois.length / args.rois_per_imaging_session)
          args.rois_per_imaging_session := by
      apply List.ext_get
      · simp [hslen]
      · intro n h1 h2
        rw [List.get_map, List.get_replicate]
        exact (hbatch n (by simpa using h1)).2
    rw [hlens, List.sum_replicate, smul_eq_mul]
  have hids : (sessions.map (fun x => x.2.1.map (fun r => r.roi_id))).join =
      (media_rois.take ((media_rois.length / args.rois_per_imaging_session)
        * args.rois_per_imaging_session)).map (fun r => r.roi_id) := by
    have hcm : sessions.map (fun x => x.2.1.map (fun r => r.roi_id)) =
        (sessions.map (fun x => x.2.1)).map (List.map (fun r => r.roi_id)) := by
      rw [List.map_map]
      rfl
    rw [hcm, hbatches, join_map_map, hjoin]
  have har : (addRoisOf δ).map Prod.snd =
      (media_rois.take ((media_rois.length / args.rois_per_imaging_session)
        * args.rois_per_imaging_session)).map (fun r => r.roi_id) := by
    rw [hδ7, join_pairs_snd, hids]
  have haq : (acquisitionsOf δ).map (fun a => a.roi_id) =
      (media_rois.take ((media_rois.length / args.rois_per_imaging_session)
        * args.rois_per_imaging_session)).map (fun r => r.roi_id) := by
    rw [hδ8]
    exact hids
  have htk : (media_rois.take ((media_rois.length / args.rois_per_imaging_session)
      * args.rois_per_imaging_session)).length =
      (media_rois.length / args.rois_per_imaging_session)
        * args.rois_per_imaging_session := by
    rw [List.length_take]
    exact Nat.min_eq_left (Nat.div_mul_le_self _ _)
  refine ⟨counters', sessions, s', δ, hrun', hev, hslen, ?_, hbatch, har, haq,
    hδ5, hδ1, hδ2, hδ3, hδ4, ?_, ?_, hδ10, ?_⟩
  · rw [hδ6]
    simp [hslen]
  · have h := congrArg List.length har
    rw [List.length_map, List.length_map, htk] at h
    exact h
  · have h := congrArg List.length haq
    rw [List.length_map, List.length_map, htk] at h
    exact h
  · rw [hδ9, hsum]

/-- C1.  For one media group of `R` created ROIs and batch size
`B = rois_per_imaging_session > 0`, the media-group processing of
`generate_data` (source lines 341-371) creates exactly `R / B` imaging
sessions; the `i`-th session is assigned exactly the `B` consecutive
ROIs `media_rois[i*B : i*B+B]` (in creation order); the `add_rois` and
acquisition calls cover exactly the first `(R / B) * B` ROIs in order —
so the last `R mod B` ROIs are never assigned to any session and never
get an acquisition — and every `add_tile` call references one of the
acquisitions created for those assigned ROIs (so unassigned ROIs never
get tiles). -/
theorem C1_roi_batching (specimen : Specimen) (block : Block) (args : Args)
    (media_id : String) (media_rois : List ROI)
    (counters : List (String × ℕ)) (rQ : ℕ → ℚ) (rI : ℕ → ℤ) (s : GState)
    (hB : 0 < args.rois_per_imaging_session) :
    ∃ (counters' : List (String × ℕ))
      (sessions : List (ImagingSession × List ROI × List (Acquisition × List Tile)))
      (s' : GState) (δ : List Event),
      processMediaGroup specimen block args media_id media_rois counters
          (pureEnv rQ rI) s =
        (Except.ok (counters', sessions), s')
      ∧ s'.events = s.events ++ δ
      ∧ sessions.length = media_rois.length / args.rois_per_imaging_session
      ∧ (imagingSessionsOf δ).length =
          media_rois.length / args.rois_per_imaging_session
      ∧ (∀ i (hi : i < sessions.length),
          (sessions.get ⟨i, hi⟩).2.1 =
            (media_rois.drop (i * args.rois_per_imaging_session)).take
              args.rois_per_imaging_session
        ∧ (sessions.get ⟨i, hi⟩).2.1.length = args.rois_per_imaging_session)
      ∧ (addRoisOf δ).map Prod.snd =
          (media_rois.take ((media_rois.length / args.rois_per_imaging_session)
            * args.rois_per_imaging_session)).map (fun r => r.roi_id)
      ∧ (acquisitionsOf δ).map (fun a => a.roi_id) =
          (media_rois.take ((media_rois.length / args.rois_per_imaging_session)
            * args.rois_per_imaging_session)).map (fun r => r.roi_id)
      ∧ roisOf δ = []
      ∧ (∀ p ∈ addTilesOf δ,
          p.1 ∈ (acquisitionsOf δ).map (fun a => a.acquisition_id)) := by
  obtain ⟨counters', sessions, s', δ, h1, h2, h3, h4, h5, h6, h7, h8, _, _, _,
    _, _, _, h9, _⟩ := processMediaGroup_ok specimen block args media_id
      media_rois counters rQ rI s
  exact ⟨counters', sessions, s', δ, h1, h2, h3, h4, h5, h6, h7, h8, h9⟩

/-- A minimal concrete ROI record with a given id. -/
def roi0 (n : ℤ) : ROI :=
  { roi_id := n, section_number := 0, aperture_width_height := (0, 0)
    aperture_centroid := (0, 0), specimen_id := 0, block_id := 0, sid := 0 }

/-- A minimal concrete specimen record. -/
def spec0 : Specimen := { specimen_id := "S", description := "d", sid := 0 }

/-- A minimal concrete block record. -/
def block0 : Block :=
  { block_id := "B", specimen_id := "S", microCT_resolution := 0, sid := 1 }

/-- Seven concrete ROIs: one media group with `R = 7`, matching the
spec's `sections_per_session = 7, rois_per_imaging_session = 5`
example (1 session, 5 assigned, 2 dropped). -/
def rois7 : List ROI :=
  [roi0 1, roi0 2, roi0 3, roi0 4, roi0 5, roi0 6, roi0 7]

theorem C1_roi_batching_witness :
    0 < defaultArgs.rois_per_imaging_session ∧
    ∃ (counters' : List (String × ℕ))
      (sessions : List (ImagingSession × List ROI × List (Acquisition × List Tile)))
      (s' : GState) (δ : List Event),
      processMediaGroup spec0 block0 defaultArgs "m" rois7 []
          (pureEnv (fun _ => 0) (fun _ => 0)) s0 =
        (Except.ok (counters', sessions), s')
      ∧ s'.events = s0.events ++ δ
      ∧ sessions.length = rois7.length / defaultArgs.rois_per_imaging_session
      ∧ (imagingSessionsOf δ).length =
          rois7.length / defaultArgs.rois_per_imaging_session
      ∧ (∀ i (hi : i < sessions.length),
          (sessions.get ⟨i, hi⟩).2.1 =
            (rois7.drop (i * defaultArgs.rois_per_imaging_session)).take
              defaultArgs.rois_per_imaging_session
        ∧ (sessions.get ⟨i, hi⟩).2.1.length = defaultArgs.rois_per_imaging_session)
      ∧ (addRoisOf δ).map Prod.snd =
          (rois7.take ((rois7.length / defaultArgs.rois_per_imaging_session)
            * defaultArgs.rois_per_imaging_session)).map (fun r => r.roi_id)
      ∧ (acquisitionsOf δ).map (fun a => a.roi_id) =
          (rois7.take ((rois7.length / defaultArgs.rois_per_imaging_session)
            * defaultArgs.rois_per_imaging_session)).map (fun r => r.roi_id)
      ∧ roisOf δ = []
      ∧ (∀ p ∈ addTilesOf δ,
          p.1 ∈ (acquisitionsOf δ).map (fun a => a.acquisition_id)) :=
  ⟨by decide, C1_roi_batching spec0 block0 defaultArgs "m" rois7 []
    (fun _ => 0) (fun _ => 0) s0 (by decide)⟩

theorem mediaLoop_nil_run (specimen : Specimen) (block : Block) (args : Args)
    (counters : List (String × ℕ)) (env : Env) (s : GState) :
    mediaLoop specimen block args [] counters env s =
      (Except.ok (counters, 0), s) := rfl

theorem mediaLoop_cons_run (specimen : Specimen) (block : Block) (args : Args)
    (m : String) (rois : List ROI) (rest : List (String × List ROI))
    (counters : List (String × ℕ)) (env : Env) (s : GState) :
    mediaLoop specimen block args ((m, rois) :: rest) counters env s =
      Mbind (processMediaGroup specimen block args m rois counters)
        (fun cs1 => Mbind (mediaLoop specimen block args rest cs1.1)
          (fun cn => Mpure (cn.1, cs1.2.length + cn.2)))
        env s := by
  simp only [mediaLoop, Bind.bind, Mbind, Mpure, Pure.pure]

theorem mediaLoop_ok (specimen : Specimen) (block : Block) (args : Args)
    (gs : List (String × List ROI)) (counters : List (String × ℕ))
    (rQ : ℕ → ℚ) (rI : ℕ → ℤ) (s : GState) :
    ∃ (counters' : List (String × ℕ)) (total : ℕ) (s' : GState),
      mediaLoop specimen block args gs counters (pureEnv rQ rI) s =
        (Except.ok (counters', total), s')
      ∧ total = (gs.map (fun g =>
          g.2.length / args.rois_per_imaging_session)).sum
      ∧ ∃ δ, s'.events = s.events ++ δ
        ∧ specimensOf δ = [] ∧ blocksOf δ = [] ∧ cuttingSessionsOf δ = []
        ∧ sectionsOf δ = [] ∧ roisOf δ = []
        ∧ (imagingSessionsOf δ).length = total
        ∧ (addRoisOf δ).length = (gs.map (fun g =>
            (g.2.length / args.rois_per_imaging_session)
              * args.rois_per_imaging_session)).sum
        ∧ (acquisitionsOf δ).length = (gs.map (fun g =>
            (g.2.length / args.rois_per_imaging_session)
              * args.rois_per_imaging_session)).sum
        ∧ (addTilesOf δ).length = (gs.map (fun g =>
            (g.2.length / args.rois_per_imaging_session)
              * args.rois_per_imaging_session)).sum
            * (tilesPerSide args * tilesPerSide args).toNat
        ∧ ∀ p ∈ addTilesOf δ,
            p.1 ∈ (acquisitionsOf δ).map (fun a => a.acquisition_id) := by
  induction gs generalizing counters s with
  | nil =>
    exact ⟨counters, 0, s, rfl, rfl, [], by simp, by simp, by simp, by simp,
      by simp, by simp, by simp, by simp, by simp, by simp, by simp⟩
  | cons g rest ih =>
    obtain ⟨m, rois⟩ := g
    obtain ⟨counters1, sessions, s1, δ1, hrun1, hev1, hslen1, hims1, _hbatch1,
      _har1, _haq1, hroi1, hsp1, hbl1, hcs1, hsec1, harl1, haql1, htl1mem,
      htl1len⟩ := processMediaGroup_ok specimen block args m rois counters
        rQ rI s
    obtain ⟨counters2, total2, s2, hrun2, htot2, δ2, hev2, hq1, hq2, hq3, hq4,
      hq5, hq6, hq7, hq8, hq9, hq10⟩ := ih counters1 s1
    refine ⟨counters2, sessions.length + total2, s2, ?_, ?_, δ1 ++ δ2, ?_, ?_,
      ?_, ?_, ?_, ?_, ?_, ?_, ?_, ?_, ?_⟩
    · rw [mediaLoop_cons_run]
      unfold Mbind
      rw [hrun1]
      show Mbind _ _ _ _ = _
      unfold Mbind
      rw [hrun2]
      rfl
    · simp only [List.map_cons, List.sum_cons, htot2, hslen1]
    · rw [hev2, hev1, List.append_assoc]
    · simp [specimensOf_append, hsp1, hq1]
    · simp [blocksOf_append, hbl1, hq2]
    · simp [cuttingSessionsOf_append, hcs1, hq3]
    · simp [sectionsOf_append, hsec1, hq4]
    · simp [roisOf_append, hroi1, hq5]
    · simp only [imagingSessionsOf_append, List.length_append, hq6, hims1,
        hslen1]
    · simp only [addRoisOf_append, List.length_append, harl1, hq7,
        List.map_cons, List.sum_cons]
    · simp only [acquisitionsOf_append, List.length_append, haql1, hq8,
        List.map_cons, List.sum_cons]
    · simp only [addTilesOf_append, List.length_append, htl1len, hq9,
        List.map_cons, List.sum_cons]
      ring
    · intro p hp
      rw [addTilesOf_append] at hp
      simp only [acquisitionsOf_append, List.map_append, List.mem_append]
      rcases List.mem_append.mp hp with hp | hp
      · left
        exact htl1mem p hp
      · right
        exact hq10 p hp

theorem groupByMedia_const_aux (m : String) :
    ∀ (l : List (ROI × String)) (rs : List ROI),
      (∀ p ∈ l, p.2 = m) →
      l.foldl (fun acc p => groupInsert acc p.2 p.1) [(m, rs)] =
        [(m, rs ++ l.map Prod.fst)] := by
  intro l
  induction l with
  | nil => intro rs _; simp
  | cons p rest ih =>
    intro rs hm
    have hp : p.2 = m := hm p (List.mem_cons_self p rest)
    have hrest : ∀ q ∈ rest, q.2 = m := fun q hq => hm q (List.mem_cons_of_mem p hq)
    simp only [List.foldl_cons]
    have hins : groupInsert [(m, rs)] p.2 p.1 = [(m, rs ++ [p.1])] := by
      rw [hp]
      simp [groupInsert]
    rw [hins, ih (rs ++ [p.1]) hrest]
    simp

/-- `rois_by_media` grouping when every ROI of the block shares one
media id: a single group holding all ROIs in creation order. -/
theorem groupByMedia_const (m : String) (l : List (ROI × String))
    (hm : ∀ p ∈ l, p.2 = m) (hne : l ≠ []) :
    groupByMedia l = [(m, l.map Prod.fst)] := by
  match l, hne with
  | p :: rest, _ =>
    have hp : p.2 = m := hm p (List.mem_cons_self p rest)
    have hrest : ∀ q ∈ rest, q.2 = m := fun q hq => hm q (List.mem_cons_of_mem p hq)
    show (p :: rest).foldl (fun acc q => groupInsert acc q.2 q.1) [] = _
    simp only [List.foldl_cons]
    have hins : groupInsert [] p.2 p.1 = [(m, [p.1])] := by
      rw [hp]
      rfl
    rw [hins, groupByMedia_const_aux m rest [p.1] hrest]
    simp

theorem groupInsert_sizes (acc : List (String × List ROI)) (k : String)
    (r : ROI) :
    ((groupInsert acc k r).map (fun g => g.2.length)).sum =
      (acc.map (fun g => g.2.length)).sum + 1 := by
  induction acc with
  | nil => simp [groupInsert]
  | cons g rest ih =>
    by_cases h : g.1 = k
    · simp [groupInsert, h]
      ring
    · simp only [groupInsert, h, if_false, List.map_cons, List.sum_cons, ih]
      ring

theorem groupByMedia_sizes_aux :
    ∀ (l : List (ROI × String)) (acc : List (String × List ROI)),
      ((l.foldl (fun acc p => groupInsert acc p.2 p.1) acc).map
        (fun g => g.2.length)).sum =
        (acc.map (fun g => g.2.length)).sum + l.length := by
  intro l
  induction l with
  | nil => intro acc; simp
  | cons p rest ih =>
    intro acc
    simp only [List.foldl_cons, ih, groupInsert_sizes, List.length_cons]
    ring

/-- The media groups of a block partition its ROIs: group sizes sum to
the number of ROIs. -/
theorem groupByMedia_sizes_sum (l : List (ROI × String)) :
    ((groupByMedia l).map (fun g => g.2.length)).sum = l.length := by
  show ((l.foldl (fun acc p => groupInsert acc p.2 p.1) []).map
    (fun g => g.2.length)).sum = l.length
  rw [groupByMedia_sizes_aux l []]
  simp

theorem blockLoop_nil_run (specimen : Specimen) (args : Args) (env : Env)
    (s : GState) :
    blockLoop specimen args [] env s = (Except.ok (0, 0), s) := rfl

theorem blockLoop_cons_run (specimen : Specimen) (args : Args) (block : Block)
    (rest : List Block) (env : Env) (s : GState) :
    blockLoop specimen args (block :: rest) env s =
      Mbind (cuttingLoop specimen block args
          (List.range args.cutting_sessions_per_block) [])
        (fun cb => Mbind (mediaLoop specimen block args (groupByMedia cb.2) cb.1)
          (fun mn => Mbind (blockLoop specimen args rest)
            (fun nm => Mpure (mn.2 + nm.1, cb.2.length + nm.2))))
        env s := by
  simp only [blockLoop, Bind.bind, Mbind, Mpure, Pure.pure]

theorem generate_data_body_step (args : Args) (rQ : ℕ → ℚ) (rI : ℕ → ℤ)
    (s : GState) :
    generate_data_body args (pureEnv rQ rI) s =
      Mbind (blocksLoop (specimenAt rI s) (List.range args.num_blocks))
        (fun blocks => Mbind (blockLoop (specimenAt rI s) args blocks)
          (fun tt => Mpure
            ({ num_blocks := blocks.length
               total_rois := tt.2
               total_imaging_sessions := tt.1
               tiles_per_acquisition := printedTilesPerAcquisition args
               total_tiles := (tt.1 : ℤ) * (args.rois_per_imaging_session : ℤ)
                 * printedTilesPerAcquisition args } : Summary)))
        (pureEnv rQ rI)
        { s with iI := s.iI + 2, nextId := s.nextId + 1,
                 events := s.events
                   ++ [Event.createSpecimen (specimenAt rI s)] } := by
  simp only [generate_data_body, create_blocks, Bind.bind, Mbind, Mpure,
    Pure.pure, create_specimen_run]

theorem generate_data_of_body_ok (args : Args) (env : Env) (s s' : GState)
    (sm : Summary)
    (h : generate_data_body args env s = (Except.ok sm, s')) :
    generate_data args env s = (Except.ok (some sm), s') := by
  unfold generate_data
  rw [h]


theorem Mbind_run_ok2 {α β : Type} {m : M α} {env : Env} {s : GState}
    {a : α} {s' : GState} (f : α → M β)
    (h : m env s = (Except.ok a, s')) :
    Mbind m f env s = f a env s' := by
  unfold Mbind
  rw [h]

/-- The argument vector of the C7 scenario: one block, one cutting
session, five sections, five ROIs per imaging session; geometry free. -/
def c7Args (ts : ℤ) (ov : ℚ) (ss : ℤ) : Args :=
  { tile_size := ts, overlap := ov, stage_size := ss, num_blocks := 1,
    cutting_sessions_per_block := 1, sections_per_session := 5,
    rois_per_imaging_session := 5 }

/-- C7.  With `num_blocks = 1, cutting_sessions_per_block = 1,
sections_per_session = 5, rois_per_imaging_session = 5`, an error-free
run performs exactly 1 specimen create, 1 block create, 1
cutting-session create, 5 section creates, 5 ROI creates, 1
imaging-session create, 5 `add_rois` calls, 5 acquisition creates, and
tiles-per-acquisition × 5 `add_tile` calls (where tiles per acquisition
is the square of `tiles_per_side`), for any tile geometry and any
random draws. -/
theorem C7_end_to_end (ts : ℤ) (ov : ℚ) (ss : ℤ) (rQ : ℕ → ℚ) (rI : ℕ → ℤ) :
    ∃ (sm : Summary) (s' : GState),
      generate_data (c7Args ts ov ss) (pureEnv rQ rI) s0 =
        (Except.ok (some sm), s')
      ∧ (specimensOf s'.events).length = 1
      ∧ (blocksOf s'.events).length = 1
      ∧ (cuttingSessionsOf s'.events).length = 1
      ∧ (sectionsOf s'.events).length = 5
      ∧ (roisOf s'.events).length = 5
      ∧ (imagingSessionsOf s'.events).length = 1
      ∧ (addRoisOf s'.events).length = 5
      ∧ (acquisitionsOf s'.events).length = 5
      ∧ (addTilesOf s'.events).length =
          5 * (tilesPerSide (c7Args ts ov ss)
            * tilesPerSide (c7Args ts ov ss)).toNat := by
  set args := c7Args ts ov ss with hargs
  set sp := specimenAt rI s0 with hsp
  set s1 : GState :=
    { s0 with iI := s0.iI + 2, nextId := s0.nextId + 1,
              events := s0.events ++ [Event.createSpecimen sp] } with hs1
  obtain ⟨blocks, sB, hrunB, hevB, hlenB, _hiIB, _hiQB, _hfB⟩ :=
    blocksLoop_ok sp (List.range 1) rQ rI s1
  rcases List.length_eq_one.mp (by simpa using hlenB) with ⟨b, rfl⟩
  obtain ⟨counters1, groups, sC, hrunC, hglen, ⟨δc, hevC, hc1, hc2, hc3, _hc4,
    hc5, hc6, hc7, hc8, hc9, hc10⟩, _hiQC, _hiIC, hfieldsC⟩ :=
    cuttingLoop_ok sp b args 1 0 [] rQ rI sB
  rcases List.length_eq_one.mp hglen with ⟨grp, rfl⟩
  have hjoin1 : ([grp] : List (List (ROI × String))).join = grp := by simp
  have hgrplen : grp.length = 5 := by
    have := (hfieldsC 0 (by simp)).1
    simpa [hargs, c7Args] using this
  have hmedia : ∀ p ∈ grp, p.2 = "TAPE" ++ b.block_id ++ toString (0 + 0 + 1) := by
    intro p hp
    obtain ⟨n, hn, rfl⟩ := List.mem_iff_get.mp hp
    exact ((hfieldsC 0 (by simp)).2 n n.isLt).1
  have hgne : grp ≠ [] := by
    intro h
    rw [h] at hgrplen
    simp at hgrplen
  have hgbm : groupByMedia grp =
      [("TAPE" ++ b.block_id ++ toString (0 + 0 + 1), grp.map Prod.fst)] :=
    groupByMedia_const _ grp hmedia hgne
  obtain ⟨counters2, total, sM, hrunM, htot, δm, hevM, hm1, hm2, hm3, hm4, hm5,
    hm6, hm7, hm8, hm9, hm10⟩ := mediaLoop_ok sp b args
      (groupByMedia grp) counters1 rQ rI sC
  have hmfl : (grp.map Prod.fst).length = 5 := by simp [hgrplen]
  have htot1 : total = 1 := by
    rw [htot, hgbm]
    simp only [List.map_cons, List.map_nil, List.sum_cons, List.sum_nil]
    rw [hmfl]
    simp [hargs, c7Args]
  have hfull : ((groupByMedia grp).map (fun g =>
      (g.2.length / args.rois_per_imaging_session)
        * args.rois_per_imaging_session)).sum = 5 := by
    rw [hgbm]
    simp only [List.map_cons, List.map_nil, List.sum_cons, List.sum_nil]
    rw [hmfl]
    simp [hargs, c7Args]
  have hrg1 : List.range args.num_blocks = List.range 1 := by
    rw [hargs]
    rfl
  have hrg2 : List.range args.cutting_sessions_per_block = List.range' 0 1 := by
    rw [hargs]
    rfl
  have hrunBlk : ∃ v, blockLoop sp args [b] (pureEnv rQ rI) sB =
      (Except.ok v, sM) :=
    ⟨_, by
      rw [blockLoop_cons_run, hrg2, Mbind_run_ok2 _ hrunC]
      beta_reduce
      rw [hjoin1, Mbind_run_ok2 _ hrunM]
      beta_reduce
      rw [Mbind_run_ok2 _ (blockLoop_nil_run sp args (pureEnv rQ rI) sM)]
      beta_reduce
      rfl⟩
  obtain ⟨v, hrunBlk⟩ := hrunBlk
  have hbody : ∃ sm, generate_data_body args (pureEnv rQ rI) s0 =
      (Except.ok sm, sM) :=
    ⟨_, by
      rw [generate_data_body_step, hrg1, Mbind_run_ok2 _ hrunB]
      beta_reduce
      rw [Mbind_run_ok2 _ hrunBlk]
      beta_reduce
      rfl⟩
  obtain ⟨sm, hbody⟩ := hbody
  refine ⟨sm, sM, generate_data_of_body_ok args (pureEnv rQ rI) s0 sM sm hbody,
    ?_, ?_, ?_, ?_, ?_, ?_, ?_, ?_, ?_⟩
  all_goals
    rw [hevM, hevC, hevB]
    simp only [hs1, s0, List.append_assoc, List.nil_append, specimensOf_append,
      blocksOf_append, cuttingSessionsOf_append, sectionsOf_append,
      roisOf_append, imagingSessionsOf_append, addRoisOf_append,
      acquisitionsOf_append, addTilesOf_append, List.length_append]
  · simp [hc1, hm1]
  · simp [hc2, hm2]
  · simp [hc3, hm3]
  · have h5 : (sectionsOf δc).length = 5 := by
      simpa [hargs, c7Args] using hc5
    simp [h5, hm4]
  · have h5 : (roisOf δc).length = 5 := by
      rw [hc6, hjoin1]
      simp [hgrplen]
    simp [h5, hm5]
  · simp [hc7, hm6, htot1]
  · simp [hc8, hm7, hfull]
  · simp [hc9, hm8, hfull]
  · simp [hc10, hm9, hfull]

/-- The argument vector of the C5 counterexample run: one block, two
cutting sessions, one section per session. -/
def cexArgs : Args :=
  { tile_size := 2, overlap := 1 / 2, stage_size := 1,
    num_blocks := 1, cutting_sessions_per_block := 2,
    sections_per_session := 1, rois_per_imaging_session := 5 }

/-- The integer stream of the C5 counterexample: the first cutting
session's `base_x` draw (index 3) is 50 and the second's (index 8) is
150 — both inside `randint(50, 150)`'s range; every other integer draw
is 0 and every rational draw is 0 (zero jitter, a legal value of
`uniform(-5, 5)`). -/
def cexRI : ℕ → ℤ := fun n => if n = 3 then 50 else if n = 8 then 150 else 0

/-- C5 is false as stated: in the run of `generate_data` with one
block, two cutting sessions and one section each, with the streams
above, the block's two ROIs have x-centroids 50 and 150 even though
every uniform perturbation draw is 0, so no single per-block base
`base_x` satisfies `|x − base_x| ≤ 5 = jitter` for both ROIs.  The base
rectangle is drawn once per cutting session (source lines 314-317,
inside the cutting-session loop), not once per block. -/
theorem C5_base_not_shared_per_block_counterexample :
    ∃ (r : Option Summary) (s' : GState),
      generate_data cexArgs (pureEnv (fun _ => 0) cexRI) s0 =
        (Except.ok r, s')
      ∧ (blocksOf s'.events).length = 1
      ∧ (roisOf s'.events).map (fun r => r.aperture_centroid.1) = [50, 150]
      ∧ ¬ ∃ base_x : ℚ,
          ∀ x ∈ (roisOf s'.events).map (fun r => r.aperture_centroid.1),
            |x - base_x| ≤ 5 := by
  set args := cexArgs with hargs
  set rQ : ℕ → ℚ := fun _ => 0 with hrQ
  set sp := specimenAt cexRI s0 with hsp
  set s1 : GState :=
    { s0 with iI := s0.iI + 2, nextId := s0.nextId + 1,
              events := s0.events ++ [Event.createSpecimen sp] } with hs1
  obtain ⟨blocks, sB, hrunB, hevB, hlenB, hiIB, _hiQB, _hfB⟩ :=
    blocksLoop_ok sp (List.range 1) rQ cexRI s1
  rcases List.length_eq_one.mp (by simpa using hlenB) with ⟨b, rfl⟩
  obtain ⟨counters1, groups, sC, hrunC, hglen, ⟨δc, hevC, hc1, hc2, hc3, _hc4,
    hc5, hc6, hc7, hc8, hc9, hc10⟩, _hiQC, _hiIC, hfieldsC⟩ :=
    cuttingLoop_ok sp b args 2 0 [] rQ cexRI sB
  rcases List.length_eq_two.mp hglen with ⟨g1, g2, rfl⟩
  have hjoin2 : ([g1, g2] : List (List (ROI × String))).join = g1 ++ g2 := by
    simp
  have hsBiI : sB.iI = 2 := by
    rw [hiIB, hs1]
    rfl
  have hg1len : g1.length = 1 := by
    have := (hfieldsC 0 (by simp)).1
    simpa [hargs, cexArgs] using this
  have hg2len : g2.length = 1 := by
    have := (hfieldsC 1 (by simp)).1
    simpa [hargs, cexArgs] using this
  rcases List.length_eq_one.mp hg1len with ⟨p1, rfl⟩
  rcases List.length_eq_one.mp hg2len with ⟨p2, rfl⟩
  have hcent1 : p1.1.aperture_centroid.1 = 50 := by
    have h := ((hfieldsC 0 (by simp)).2 0 (by simp)).2.1
    have hx : p1.1.aperture_centroid.1 =
        (cexRI (sB.iI + 5 * 0 + 1) : ℚ)
          + rQ (sB.iQ + 4 * args.sections_per_session * 0 + 4 * 0) :=
      congrArg Prod.fst h
    rw [hx, hsBiI]
    norm_num [hrQ, cexRI]
  have hcent2 : p2.1.aperture_centroid.1 = 150 := by
    have h := ((hfieldsC 1 (by simp)).2 0 (by simp)).2.1
    have hx : p2.1.aperture_centroid.1 =
        (cexRI (sB.iI + 5 * 1 + 1) : ℚ)
          + rQ (sB.iQ + 4 * args.sections_per_session * 1 + 4 * 0) :=
      congrArg Prod.fst h
    rw [hx, hsBiI]
    norm_num [hrQ, cexRI]
  obtain ⟨counters2, total, sM, hrunM, _htot, δm, hevM, hm1, hm2, hm3, hm4,
    hm5, hm6, hm7, hm8, hm9, hm10⟩ := mediaLoop_ok sp b args
      (groupByMedia ([p1] ++ [p2])) counters1 rQ cexRI sC
  have hrg1 : List.range args.num_blocks = List.range 1 := by
    rw [hargs]
    rfl
  have hrg2 : List.range args.cutting_sessions_per_block = List.range' 0 2 := by
    rw [hargs]
    rfl
  have hrunBlk : ∃ v, blockLoop sp args [b] (pureEnv rQ cexRI) sB =
      (Except.ok v, sM) :=
    ⟨_, by
      rw [blockLoop_cons_run, hrg2, Mbind_run_ok2 _ hrunC]
      beta_reduce
      rw [hjoin2, Mbind_run_ok2 _ hrunM]
      beta_reduce
      rw [Mbind_run_ok2 _ (blockLoop_nil_run sp args (pureEnv rQ cexRI) sM)]
      beta_reduce
      rfl⟩
  obtain ⟨v, hrunBlk⟩ := hrunBlk
  have hbody : ∃ sm, generate_data_body args (pureEnv rQ cexRI) s0 =
      (Except.ok sm, sM) :=
    ⟨_, by
      rw [generate_data_body_step, hrg1, Mbind_run_ok2 _ hrunB]
      beta_reduce
      rw [Mbind_run_ok2 _ hrunBlk]
      beta_reduce
      rfl⟩
  obtain ⟨sm, hbody⟩ := hbody
  have hxs : (roisOf sM.events).map (fun r => r.aperture_centroid.1) =
      [50, 150] := by
    rw [hevM, hevC, hevB]
    simp only [hs1, s0, List.append_assoc, List.nil_append, roisOf_append]
    rw [hc6, hjoin2, hm5]
    simp [hcent1, hcent2]
  refine ⟨some sm, sM,
    generate_data_of_body_ok args (pureEnv rQ cexRI) s0 sM sm hbody, ?_, hxs, ?_⟩
  · rw [hevM, hevC, hevB]
    simp only [hs1, s0, List.append_assoc, List.nil_append, blocksOf_append,
      List.length_append]
    simp [hc2, hm2]
  · rw [hxs]
    rintro ⟨base_x, hb⟩
    have h1 := hb 50 (by simp)
    have h2 := hb 150 (by simp)
    rw [abs_le] at h1 h2
    linarith [h1.1, h1.2, h2.1, h2.2]

/-- C6 (code bug).  At the parser defaults the final summary prints
`int((stage_size / (tile_size*(1-overlap))) ** 2) = 24` tiles per
acquisition (source lines 379-381, squaring before truncating), but
`create_tiles` actually performs
`int(stage_size / (tile_size*(1-overlap))) ** 2 = 16` `add_tile` calls
per acquisition (source lines 254-255, truncating before squaring) —
so the printed per-acquisition and total tile figures do not match the
calls made. -/
theorem C6_summary_tiles_mismatch :
    printedTilesPerAcquisition defaultArgs = 24
    ∧ (tilesPerSide defaultArgs * tilesPerSide defaultArgs).toNat = 16
    ∧ (∀ (acq : Acquisition) (media_id : String) (rQ : ℕ → ℚ) (rI : ℕ → ℤ)
        (s : GState), ∃ tiles s',
        create_tiles acq media_id defaultArgs (pureEnv rQ rI) s =
          (Except.ok tiles, s')
        ∧ tiles.length = 16)
    ∧ (24 : ℤ) ≠ 16 := by
  have h16 : (tilesPerSide defaultArgs * tilesPerSide defaultArgs).toNat = 16 := by
    have h4 : tilesPerSide defaultArgs = 4 := by
      show pyInt _ = 4
      rw [pyInt_eq_floor]
      · norm_num [defaultArgs, Int.floor_eq_iff]
      · norm_num [defaultArgs]
    rw [h4]
    decide
  refine ⟨?_, h16, ?_, by decide⟩
  · show pyInt _ = 24
    rw [pyInt_eq_floor]
    · norm_num [defaultArgs, Int.floor_eq_iff]
    · positivity
  · intro acq media_id rQ rI s
    obtain ⟨tiles, s', hrun, _hev, hlen, _⟩ :=
      create_tiles_ok acq media_id defaultArgs rQ rI s
    exact ⟨tiles, s', hrun, by rw [hlen, h16]⟩

theorem C5_jitter_base_per_cutting_session_witness :
    ∃ (counters' : List (String × ℕ)) (pairs : List (ROI × String))
      (s' : GState),
      cuttingLoop spec0 block0 defaultArgs [0] [] (pureEnv (fun _ => 0)
          (fun _ => 0)) s0 =
        (Except.ok (counters', pairs), s')
      ∧ pairs.length = defaultArgs.sections_per_session
      ∧ ∀ idx (h : idx < pairs.length),
          (pairs.get ⟨idx, h⟩).1.aperture_centroid =
            (((fun _ => (0 : ℤ)) (s0.iI + 1) : ℚ) + (fun _ => (0 : ℚ)) (s0.iQ + 4 * idx),
             ((fun _ => (0 : ℤ)) (s0.iI + 2) : ℚ) + (fun _ => (0 : ℚ)) (s0.iQ + 4 * idx + 1))
        ∧ (pairs.get ⟨idx, h⟩).1.aperture_width_height =
            (((fun _ => (0 : ℤ)) (s0.iI + 3) : ℚ) + (fun _ => (0 : ℚ)) (s0.iQ + 4 * idx + 2),
             ((fun _ => (0 : ℤ)) (s0.iI + 4) : ℚ) + (fun _ => (0 : ℚ)) (s0.iQ + 4 * idx + 3)) :=
  C5_jitter_base_per_cutting_session spec0 block0 defaultArgs 0 []
    (fun _ => 0) (fun _ => 0) s0

theorem C10_matcher_records_witness :
    ∃ tiles s',
      create_tiles acq0 "m" defaultArgs (pureEnv (fun _ => 0) (fun _ => 0)) s0 =
        (Except.ok tiles, s')
      ∧ s'.events = s0.events ++ tiles.map (Event.addTile acq0.acquisition_id)
      ∧ ∀ t ∈ tiles, t.matcher.length = 4
        ∧ t.matcher.map (fun m => (m.row, m.col)) =
            [(t.raster_row, t.raster_col), (t.raster_row, t.raster_col + 1),
             (t.raster_row + 1, t.raster_col), (t.raster_row + 1, t.raster_col + 1)] :=
  C10_matcher_records defaultArgs acq0 "m" (fun _ => 0) (fun _ => 0) s0

/-- Oracle simulation: a computation `f` (1) succeeds under the
failure-free oracle, extending the trace; (2) behaves identically under
any oracle that does not fail during its window of client calls; and
(3) under an oracle whose first failure hits one of its calls, raises
that failure with the trace cut off exactly at the failing call —
nothing after it, nothing removed. -/
def Sim {α : Type} (f : M α) : Prop :=
  ∀ (rQ : ℕ → ℚ) (rI : ℕ → ℤ) (s : GState),
    ∃ (a : α) (s' : GState),
      f (pureEnv rQ rI) s = (Except.ok a, s')
      ∧ s.events <+: s'.events
      ∧ (∀ (o : ℕ → Option ErrKind),
          (∀ k, s.events.length ≤ k → k < s'.events.length → o k = none) →
          f ⟨rQ, rI, o⟩ s = (Except.ok a, s'))
      ∧ (∀ (o : ℕ → Option ErrKind) (n : ℕ) (e : ErrKind),
          o n = some e → (∀ k < n, o k = none) →
          s.events.length ≤ n → n < s'.events.length →
          ∃ s'', f ⟨rQ, rI, o⟩ s = (Except.error e, s'')
            ∧ s''.events = s'.events.take n)

theorem take_agree_of_le {l1 l2 : List Event} (h : l1 <+: l2) (n : ℕ)
    (hn : n ≤ l1.length) : l2.take n = l1.take n := by
  obtain ⟨t, rfl⟩ := h
  exact List.take_append_of_le_length hn

theorem Sim_Mpure {α : Type} (a : α) : Sim (Mpure a) := by
  intro rQ rI s
  refine ⟨a, s, rfl, List.prefix_refl _, fun o _ => rfl, ?_⟩
  intro o n e _ _ hn hlt
  omega

theorem Sim_pure {α : Type} (a : α) : Sim (pure a : M α) := Sim_Mpure a

theorem Sim_bind {α β : Type} {m : M α} {f : α → M β} (hm : Sim m)
    (hf : ∀ a, Sim (f a)) : Sim (Mbind m f) := by
  intro rQ rI s
  obtain ⟨a, s1, hmp, hmpre, hmok, hmerr⟩ := hm rQ rI s
  obtain ⟨b, s2, hfp, hfpre, hfok, hferr⟩ := hf a rQ rI s1
  have hlen1 : s.events.length ≤ s1.events.length := hmpre.length_le
  have hlen2 : s1.events.length ≤ s2.events.length := hfpre.length_le
  refine ⟨b, s2, ?_, hmpre.trans hfpre, ?_, ?_⟩
  · unfold Mbind
    rw [hmp]
    exact hfp
  · intro o ho
    unfold Mbind
    rw [hmok o (fun k hk1 hk2 => ho k hk1 (lt_of_lt_of_le hk2 hlen2))]
    exact hfok o (fun k hk1 hk2 => ho k (le_trans hlen1 hk1) hk2)
  · intro o n e hoe hbelow hn hlt
    by_cases hcase : n < s1.events.length
    · obtain ⟨s'', hrun, hev⟩ := hmerr o n e hoe hbelow hn hcase
      refine ⟨s'', ?_, ?_⟩
      · unfold Mbind
        rw [hrun]
      · rw [hev]
        exact (take_agree_of_le hfpre n (le_of_lt hcase)).symm
    · push_neg at hcase
      have hmok' : m ⟨rQ, rI, o⟩ s = (Except.ok a, s1) :=
        hmok o (fun k _ hk2 => hbelow k (lt_of_lt_of_le hk2 hcase))
      obtain ⟨s'', hrun, hev⟩ := hferr o n e hoe hbelow hcase hlt
      refine ⟨s'', ?_, hev⟩
      unfold Mbind
      rw [hmok']
      exact hrun

theorem Sim_bind' {α β : Type} {m : M α} {f : α → M β} (hm : Sim m)
    (hf : ∀ a, Sim (f a)) : Sim (m >>= f) := Sim_bind hm hf

theorem Sim_uniform (a b : ℚ) : Sim (uniform a b) := by
  intro rQ rI s
  refine ⟨rQ s.iQ, { s with iQ := s.iQ + 1 }, rfl, List.prefix_refl _,
    fun o _ => rfl, ?_⟩
  intro o n e _ _ hn hlt
  exact absurd (lt_of_le_of_lt hn hlt) (lt_irrefl _)

theorem Sim_gauss (mu sigma : ℚ) : Sim (gauss mu sigma) := by
  intro rQ rI s
  refine ⟨rQ s.iQ, { s with iQ := s.iQ + 1 }, rfl, List.prefix_refl _,
    fun o _ => rfl, ?_⟩
  intro o n e _ _ hn hlt
  exact absurd (lt_of_le_of_lt hn hlt) (lt_irrefl _)

theorem Sim_randint (a b : ℤ) : Sim (randint a b) := by
  intro rQ rI s
  refine ⟨rI s.iI, { s with iI := s.iI + 1 }, rfl, List.prefix_refl _,
    fun o _ => rfl, ?_⟩
  intro o n e _ _ hn hlt
  exact absurd (lt_of_le_of_lt hn hlt) (lt_irrefl _)

theorem Sim_clientCreate {α : Type} (mkR : ℕ → α) (mkE : α → Event) :
    Sim (clientCreate mkR mkE) := by
  intro rQ rI s
  refine ⟨mkR s.nextId,
    { s with nextId := s.nextId + 1,
             events := s.events ++ [mkE (mkR s.nextId)] },
    clientCreate_run_ok mkR mkE _ s rfl, by simp, ?_, ?_⟩
  · intro o ho
    apply clientCreate_run_ok
    exact ho s.events.length (le_refl _) (by simp)
  · intro o n e hoe _ hn hlt
    simp only [List.length_append, List.length_cons, List.length_nil] at hlt
    have hne : n = s.events.length := by omega
    refine ⟨s, ?_, ?_⟩
    · apply clientCreate_run_err
      rw [← hne]
      exact hoe
    · rw [hne, List.take_left]

theorem Sim_clientCall (e : Event) : Sim (clientCall e) := by
  intro rQ rI s
  refine ⟨(), { s with events := s.events ++ [e] },
    clientCall_run_ok e _ s rfl, by simp, ?_, ?_⟩
  · intro o ho
    apply clientCall_run_ok
    exact ho s.events.length (le_refl _) (by simp)
  · intro o n k hoe _ hn hlt
    simp only [List.length_append, List.length_cons, List.length_nil] at hlt
    have hne : n = s.events.length := by omega
    refine ⟨s, ?_, ?_⟩
    · apply clientCall_run_err
      rw [← hne]
      exact hoe
    · rw [hne, List.take_left]

theorem Sim_uniformList (n : ℕ) (a b : ℚ) : Sim (uniformList n a b) := by
  induction n with
  | zero => exact Sim_pure _
  | succ n ih =>
    simp only [uniformList]
    exact Sim_bind' (Sim_uniform a b)
      (fun x => Sim_bind' ih (fun xs => Sim_pure _))

theorem Sim_generate_jittered_roi (bx bY bw bh j : ℚ) :
    Sim (generate_jittered_roi bx bY bw bh j) := by
  unfold generate_jittered_roi
  exact Sim_bind' (Sim_uniform _ _) (fun cx =>
    Sim_bind' (Sim_uniform _ _) (fun cy =>
      Sim_bind' (Sim_uniform _ _) (fun w =>
        Sim_bind' (Sim_uniform _ _) (fun h => Sim_pure _))))

theorem Sim_calculate_stage_position (row col : ℤ) (ts : ℤ) (ov : ℚ) :
    Sim (calculate_stage_position row col ts ov) := by
  unfold calculate_stage_position
  exact Sim_bind' (Sim_uniform _ _) (fun jx =>
    Sim_bind' (Sim_uniform _ _) (fun jy => Sim_pure _))

theorem Sim_generate_focus_score (b v : ℚ) : Sim (generate_focus_score b v) := by
  unfold generate_focus_score
  exact Sim_bind' (Sim_gauss _ _) (fun g => Sim_pure _)

theorem Sim_generate_matcher_data (row col : ℤ) :
    Sim (generate_matcher_data row col) := by
  unfold generate_matcher_data
  exact Sim_bind' (Sim_uniform _ _) (fun a1 =>
    Sim_bind' (Sim_uniform _ _) (fun a2 =>
      Sim_bind' (Sim_uniform _ _) (fun a3 =>
        Sim_bind' (Sim_uniform _ _) (fun a4 =>
          Sim_bind' (Sim_uniform _ _) (fun a5 =>
            Sim_bind' (Sim_uniform _ _) (fun a6 =>
              Sim_bind' (Sim_uniform _ _) (fun a7 =>
                Sim_bind' (Sim_uniformList _ _ _) (fun l1 =>
                  Sim_bind' (Sim_uniformList _ _ _) (fun l2 =>
                    Sim_bind' (Sim_uniformList _ _ _) (fun l3 =>
                      Sim_bind' (Sim_uniformList _ _ _) (fun l4 =>
                        Sim_pure _)))))))))))

theorem Sim_create_specimen : Sim create_specimen := by
  unfold create_specimen
  exact Sim_bind' (Sim_randint _ _) (fun d1 =>
    Sim_bind' (Sim_randint _ _) (fun d2 => Sim_clientCreate _ _))

theorem Sim_blocksLoop (specimen : Specimen) (ks : List ℕ) :
    Sim (blocksLoop specimen ks) := by
  induction ks with
  | nil => exact Sim_pure _
  | cons i rest ih =>
    simp only [blocksLoop]
    exact Sim_bind' (Sim_uniform _ _) (fun res =>
      Sim_bind' (Sim_clientCreate _ _) (fun block =>
        Sim_bind' ih (fun blocks => Sim_pure _)))

theorem Sim_create_blocks (specimen : Specimen) (n : ℕ) :
    Sim (create_blocks specimen n) := Sim_blocksLoop specimen (List.range n)

theorem Sim_create_cutting_session (block : Block) (j : ℕ) :
    Sim (create_cutting_session block j) := by
  unfold create_cutting_session
  exact Sim_bind' (Sim_randint _ _) (fun op =>
    Sim_bind' (Sim_clientCreate _ _) (fun cs => Sim_pure _))

theorem Sim_create_section (cs : CuttingSession) (k : ℕ) (m : String) :
    Sim (create_section cs k m) := Sim_clientCreate _ _

theorem Sim_create_roi (sec : SectionRec) (rid : ℤ) (jr : JitteredROI)
    (block : Block) (specimen : Specimen) :
    Sim (create_roi sec rid jr block specimen) := Sim_clientCreate _ _

theorem Sim_randomDigits : Sim randomDigits := by
  unfold randomDigits
  exact Sim_bind' (Sim_randint _ _) (fun d1 =>
    Sim_bind' (Sim_randint _ _) (fun d2 =>
      Sim_bind' (Sim_randint _ _) (fun d3 =>
        Sim_bind' (Sim_randint _ _) (fun d4 =>
          Sim_bind' (Sim_randint _ _) (fun d5 =>
            Sim_bind' (Sim_randint _ _) (fun d6 => Sim_pure _))))))

theorem Sim_create_imaging_session (specimen : Specimen) (block : Block)
    (m : String) (k : ℕ) : Sim (create_imaging_session specimen block m k) := by
  unfold create_imaging_session
  exact Sim_bind' Sim_randomDigits (fun d => Sim_clientCreate _ _)

theorem Sim_create_acquisition (ims : ImagingSession) (roi : ROI)
    (args : Args) : Sim (create_acquisition ims roi args) := Sim_clientCreate _ _

theorem Sim_tilesLoop (acq : Acquisition) (m : String) (args : Args)
    (bfs : ℚ) (tps : ℤ) (ks : List ℕ) :
    Sim (tilesLoop acq m args bfs tps ks) := by
  induction ks with
  | nil => exact Sim_pure _
  | cons k rest ih =>
    simp only [tilesLoop]
    exact Sim_bind' (Sim_generate_focus_score _ _) (fun fs =>
      Sim_bind' (Sim_calculate_stage_position _ _ _ _) (fun sp =>
        Sim_bind' (Sim_randint _ _) (fun mn =>
          Sim_bind' (Sim_randint _ _) (fun mx =>
            Sim_bind' (Sim_randint _ _) (fun me =>
              Sim_bind' (Sim_uniform _ _) (fun sd =>
                Sim_bind' (Sim_generate_matcher_data _ _) (fun m1 =>
                  Sim_bind' (Sim_generate_matcher_data _ _) (fun m2 =>
                    Sim_bind' (Sim_generate_matcher_data _ _) (fun m3 =>
                      Sim_bind' (Sim_generate_matcher_data _ _) (fun m4 =>
                        Sim_bind' (Sim_clientCall _) (fun u =>
                          Sim_bind' ih (fun tiles => Sim_pure _))))))))))))

theorem Sim_create_tiles (acq : Acquisition) (m : String) (args : Args) :
    Sim (create_tiles acq m args) := by
  unfold create_tiles
  exact Sim_bind' (Sim_uniform _ _) (fun bfs => Sim_tilesLoop _ _ _ _ _ _)

theorem Sim_sectionLoop (specimen : Specimen) (block : Block)
    (cs : CuttingSession) (m : String) (j : ℕ) (bx bY bw bh : ℚ)
    (ks : List ℕ) : Sim (sectionLoop specimen block cs m j bx bY bw bh ks) := by
  induction ks with
  | nil => exact Sim_pure _
  | cons k rest ih =>
    simp only [sectionLoop]
    exact Sim_bind' (Sim_create_section _ _ _) (fun sec =>
      Sim_bind' (Sim_generate_jittered_roi _ _ _ _ _) (fun jr =>
        Sim_bind' (Sim_create_roi _ _ _ _ _) (fun roi =>
          Sim_bind' ih (fun more => Sim_pure _))))

theorem Sim_cuttingLoop (specimen : Specimen) (block : Block) (args : Args)
    (ks : List ℕ) : ∀ counters, Sim (cuttingLoop specimen block args ks counters) := by
  induction ks with
  | nil => intro counters; exact Sim_pure _
  | cons j rest ih =>
    intro counters
    simp only [cuttingLoop]
    apply Sim_bind' (Sim_create_cutting_session _ _)
    rintro ⟨cs, media⟩
    apply Sim_bind' (Sim_randint _ _)
    intro bx
    apply Sim_bind' (Sim_randint _ _)
    intro bY
    apply Sim_bind' (Sim_randint _ _)
    intro bw
    apply Sim_bind' (Sim_randint _ _)
    intro bh
    apply Sim_bind' (Sim_sectionLoop _ _ _ _ _ _ _ _ _ _)
    intro rois
    apply Sim_bind' (ih _)
    rintro ⟨c2, more⟩
    exact Sim_pure _

theorem Sim_roiLoop (ims : ImagingSession) (m : String) (args : Args)
    (rois : List ROI) : Sim (roiLoop ims m args rois) := by
  induction rois with
  | nil => exact Sim_pure _
  | cons roi rest ih =>
    simp only [roiLoop]
    exact Sim_bind' (Sim_clientCall _) (fun u =>
      Sim_bind' (Sim_create_acquisition _ _ _) (fun acq =>
        Sim_bind' (Sim_create_tiles _ _ _) (fun tiles =>
          Sim_bind' ih (fun more => Sim_pure _))))

theorem Sim_imagingLoop (specimen : Specimen) (block : Block) (m : String)
    (media_rois : List ROI) (args : Args) (ks : List ℕ) :
    ∀ counters, Sim (imagingLoop specimen block m media_rois args ks counters) := by
  induction ks with
  | nil => intro counters; exact Sim_pure _
  | cons i rest ih =>
    intro counters
    simp only [imagingLoop]
    apply Sim_bind' (Sim_create_imaging_session _ _ _ _)
    intro ims
    apply Sim_bind' (Sim_roiLoop _ _ _ _)
    intro acqs
    apply Sim_bind' (ih _)
    rintro ⟨c2, more⟩
    exact Sim_pure _

theorem Sim_processMediaGroup (specimen : Specimen) (block : Block)
    (args : Args) (m : String) (rois : List ROI) (counters : List (String × ℕ)) :
    Sim (processMediaGroup specimen block args m rois counters) :=
  Sim_imagingLoop specimen block m rois args _ counters

theorem Sim_mediaLoop (specimen : Specimen) (block : Block) (args : Args)
    (gs : List (String × List ROI)) :
    ∀ counters, Sim (mediaLoop specimen block args gs counters) := by
  induction gs with
  | nil => intro counters; exact Sim_pure _
  | cons g rest ih =>
    obtain ⟨m, rois⟩ := g
    intro counters
    simp only [mediaLoop]
    apply Sim_bind' (Sim_processMediaGroup _ _ _ _ _ _)
    rintro ⟨c1, sessions⟩
    apply Sim_bind' (ih _)
    rintro ⟨c2, n⟩
    exact Sim_pure _

theorem Sim_blockLoop (specimen : Specimen) (args : Args)
    (blocks : List Block) : Sim (blockLoop specimen args blocks) := by
  induction blocks with
  | nil => exact Sim_pure _
  | cons block rest ih =>
    simp only [blockLoop]
    apply Sim_bind' (Sim_cuttingLoop _ _ _ _ _)
    rintro ⟨c1, block_rois⟩
    apply Sim_bind' (Sim_mediaLoop _ _ _ _ _)
    rintro ⟨c2, nsess⟩
    apply Sim_bind' ih
    rintro ⟨ns, nr⟩
    exact Sim_pure _

theorem Sim_generate_data_body (args : Args) : Sim (generate_data_body args) := by
  unfold generate_data_body
  apply Sim_bind' Sim_create_specimen
  intro specimen
  apply Sim_bind' (Sim_create_blocks _ _)
  intro blocks
  apply Sim_bind' (Sim_blockLoop _ _ _)
  rintro ⟨ti, tr⟩
  exact Sim_pure _

/-- C8: if the client call at (0-based) position `n` of the run raises
`TEMdbClientError` or `NotFoundError` (all earlier calls succeeding), then
`generate_data` issues no further client calls, catches the exception at
its top level (returning normally instead of propagating), and makes no
compensating/cleanup calls: the resulting trace is exactly the prefix of
the error-free run's trace consisting of the `n` calls completed before
the failing one.  Any other exception (`otherError`) propagates out of
`generate_data` unhandled, with the same prefix trace. -/
theorem C8_error_handling (args : Args) (rQ : ℕ → ℚ) (rI : ℕ → ℤ)
    (o : ℕ → Option ErrKind) (n : ℕ) (e : ErrKind)
    (ho : o n = some e) (hb : ∀ k, k < n → o k = none) :
    ∃ (a : Summary) (s' : GState),
      generate_data args (pureEnv rQ rI) s0 = (Except.ok (some a), s')
      ∧ (n < s'.events.length →
          ∃ s'' : GState, s''.events = s'.events.take n
            ∧ (e ≠ ErrKind.otherError →
                generate_data args { rQ := rQ, rI := rI, oracle := o } s0 =
                  (Except.ok none, s''))
            ∧ (e = ErrKind.otherError →
                generate_data args { rQ := rQ, rI := rI, oracle := o } s0 =
                  (Except.error ErrKind.otherError, s''))) := by
  obtain ⟨a, s', hpure, hpre, hnone, hfail⟩ := Sim_generate_data_body args rQ rI s0
  refine ⟨a, s', ?_, ?_⟩
  · simp only [generate_data, hpure]
  · intro hn
    obtain ⟨s'', hrun, hev⟩ :=
      hfail o n e ho (fun k hk => hb k hk) (Nat.zero_le n) hn
    refine ⟨s'', hev, ?_, ?_⟩
    · intro hne
      cases e with
      | temdbClientError => simp only [generate_data, hrun]
      | notFoundError => simp only [generate_data, hrun]
      | otherError => exact absurd rfl hne
    · intro he
      subst he
      simp only [generate_data, hrun]

/-- Witness for C8 at the parser defaults, zero random streams, and an
oracle that fails the very first client call with `TEMdbClientError`. -/
theorem C8_error_handling_witness :
    ∃ (a : Summary) (s' : GState),
      generate_data defaultArgs (pureEnv (fun _ => 0) (fun _ => 0)) s0 =
        (Except.ok (some a), s')
      ∧ (0 < s'.events.length →
          ∃ s'' : GState, s''.events = s'.events.take 0
            ∧ (ErrKind.temdbClientError ≠ ErrKind.otherError →
                generate_data defaultArgs
                  { rQ := fun _ => 0, rI := fun _ => 0
                    oracle := fun _ => some ErrKind.temdbClientError } s0 =
                  (Except.ok none, s''))
            ∧ (ErrKind.temdbClientError = ErrKind.otherError →
                generate_data defaultArgs
                  { rQ := fun _ => 0, rI := fun _ => 0
                    oracle := fun _ => some ErrKind.temdbClientError } s0 =
                  (Except.error ErrKind.otherError, s''))) :=
  C8_error_handling defaultArgs (fun _ => 0) (fun _ => 0)
    (fun _ => some ErrKind.temdbClientError) 0 ErrKind.temdbClientError rfl
    (fun k hk => absurd hk (Nat.not_lt_zero k))

/-! ### C9: parent-reference causal ordering over traces -/

/-- The caller-visible specimen ids registered by `create` calls in a
trace. -/
def specimenIds (tr : List Event) : List String :=
  (specimensOf tr).map Specimen.specimen_id

/-- The server-assigned specimen `_id`s registered in a trace. -/
def specimenSids (tr : List Event) : List ℕ :=
  (specimensOf tr).map Specimen.sid

/-- The block ids registered in a trace. -/
def blockIds (tr : List Event) : List String :=
  (blocksOf tr).map Block.block_id

/-- The server-assigned block `_id`s registered in a trace. -/
def blockSids (tr : List Event) : List ℕ :=
  (blocksOf tr).map Block.sid

/-- The cutting-session ids registered in a trace. -/
def cuttingSessionIds (tr : List Event) : List String :=
  (cuttingSessionsOf tr).map CuttingSession.cutting_session_id

/-- The ROI ids registered in a trace. -/
def roiIds (tr : List Event) : List ℤ :=
  (roisOf tr).map ROI.roi_id

/-- The imaging-session ids registered in a trace. -/
def imagingSessionIds (tr : List Event) : List String :=
  (imagingSessionsOf tr).map ImagingSession.session_id

/-- The acquisition ids registered in a trace. -/
def acquisitionIds (tr : List Event) : List String :=
  (acquisitionsOf tr).map Acquisition.acquisition_id

theorem specimenIds_append (a b : List Event) :
    specimenIds (a ++ b) = specimenIds a ++ specimenIds b := by
  simp [specimenIds, specimensOf_append]

theorem specimenSids_append (a b : List Event) :
    specimenSids (a ++ b) = specimenSids a ++ specimenSids b := by
  simp [specimenSids, specimensOf_append]

theorem blockIds_append (a b : List Event) :
    blockIds (a ++ b) = blockIds a ++ blockIds b := by
  simp [blockIds, blocksOf_append]

theorem blockSids_append (a b : List Event) :
    blockSids (a ++ b) = blockSids a ++ blockSids b := by
  simp [blockSids, blocksOf_append]

theorem cuttingSessionIds_append (a b : List Event) :
    cuttingSessionIds (a ++ b) = cuttingSessionIds a ++ cuttingSessionIds b := by
  simp [cuttingSessionIds, cuttingSessionsOf_append]

theorem roiIds_append (a b : List Event) :
    roiIds (a ++ b) = roiIds a ++ roiIds b := by
  simp [roiIds, roisOf_append]

theorem imagingSessionIds_append (a b : List Event) :
    imagingSessionIds (a ++ b) = imagingSessionIds a ++ imagingSessionIds b := by
  simp [imagingSessionIds, imagingSessionsOf_append]

theorem acquisitionIds_append (a b : List Event) :
    acquisitionIds (a ++ b) = acquisitionIds a ++ acquisitionIds b := by
  simp [acquisitionIds, acquisitionsOf_append]

/-- The parent-reference fields of one client call are all identifiers
registered by a `create` call in the trace prefix `pre` made before it
(source: the fields each `create_*` helper fills from records returned
earlier — lines 128-290 — and the `add_rois`/`add_tile` arguments,
lines 359-369). -/
def eventRefsOk (pre : List Event) : Event → Prop
  | Event.createSpecimen _ => True
  | Event.createBlock b => b.specimen_id ∈ specimenIds pre
  | Event.createCuttingSession cs => cs.block_id ∈ blockIds pre
  | Event.createSection sec => sec.cutting_session_id ∈ cuttingSessionIds pre
  | Event.createROI r =>
      r.specimen_id ∈ specimenSids pre ∧ r.block_id ∈ blockSids pre
  | Event.createImagingSession ims =>
      ims.specimen_id ∈ specimenIds pre ∧ ims.block_id ∈ blockIds pre
  | Event.addRois session_id roi_id =>
      session_id ∈ imagingSessionIds pre ∧ roi_id ∈ roiIds pre
  | Event.createAcquisition a =>
      a.roi_id ∈ roiIds pre ∧ a.imaging_session_id ∈ imagingSessionIds pre
  | Event.addTile acquisition_id t =>
      acquisition_id ∈ acquisitionIds pre
      ∧ t.acquisition_id ∈ acquisitionIds pre

/-- Every event of `tr` references only parents registered in `pre` or
created by an earlier event of `tr` itself. -/
def refsOkFrom (pre : List Event) : List Event → Prop
  | [] => True
  | e :: rest => eventRefsOk pre e ∧ refsOkFrom (pre ++ [e]) rest

/-- No call of the trace references a parent that was not returned by
an earlier create call of the same trace. -/
def refsOk (tr : List Event) : Prop := refsOkFrom [] tr

theorem refsOkFrom_append (t1 : List Event) : ∀ (pre t2 : List Event),
    refsOkFrom pre (t1 ++ t2) ↔
      (refsOkFrom pre t1 ∧ refsOkFrom (pre ++ t1) t2) := by
  induction t1 with
  | nil => intro pre t2; simp [refsOkFrom]
  | cons e t1 ih =>
    intro pre t2
    simp only [List.cons_append, refsOkFrom, List.append_eq, ih,
      List.append_assoc, List.singleton_append, List.nil_append, and_assoc]

theorem eventRefsOk_mono (pre post : List Event) (e : Event)
    (h : eventRefsOk pre e) : eventRefsOk (pre ++ post) e := by
  cases e <;>
    simp only [eventRefsOk, specimenIds_append, specimenSids_append,
      blockIds_append, blockSids_append, cuttingSessionIds_append,
      roiIds_append, imagingSessionIds_append, acquisitionIds_append,
      List.mem_append] at h ⊢ <;> tauto

theorem mem_specimenIds_mono {x : String} (pre post : List Event)
    (h : x ∈ specimenIds pre) : x ∈ specimenIds (pre ++ post) := by
  rw [specimenIds_append]; exact List.mem_append_left _ h

theorem mem_specimenSids_mono {x : ℕ} (pre post : List Event)
    (h : x ∈ specimenSids pre) : x ∈ specimenSids (pre ++ post) := by
  rw [specimenSids_append]; exact List.mem_append_left _ h

theorem mem_blockIds_mono {x : String} (pre post : List Event)
    (h : x ∈ blockIds pre) : x ∈ blockIds (pre ++ post) := by
  rw [blockIds_append]; exact List.mem_append_left _ h

theorem mem_blockSids_mono {x : ℕ} (pre post : List Event)
    (h : x ∈ blockSids pre) : x ∈ blockSids (pre ++ post) := by
  rw [blockSids_append]; exact List.mem_append_left _ h

theorem mem_cuttingSessionIds_mono {x : String} (pre post : List Event)
    (h : x ∈ cuttingSessionIds pre) : x ∈ cuttingSessionIds (pre ++ post) := by
  rw [cuttingSessionIds_append]; exact List.mem_append_left _ h

theorem mem_roiIds_mono {x : ℤ} (pre post : List Event)
    (h : x ∈ roiIds pre) : x ∈ roiIds (pre ++ post) := by
  rw [roiIds_append]; exact List.mem_append_left _ h

theorem mem_imagingSessionIds_mono {x : String} (pre post : List Event)
    (h : x ∈ imagingSessionIds pre) : x ∈ imagingSessionIds (pre ++ post) := by
  rw [imagingSessionIds_append]; exact List.mem_append_left _ h

theorem mem_acquisitionIds_mono {x : String} (pre post : List Event)
    (h : x ∈ acquisitionIds pre) : x ∈ acquisitionIds (pre ++ post) := by
  rw [acquisitionIds_append]; exact List.mem_append_left _ h

theorem mem_of_mem_groupInsert (acc : List (String × List ROI)) (m : String)
    (roi : ROI) :
    ∀ g ∈ groupInsert acc m roi, ∀ r ∈ g.2,
      (∃ g' ∈ acc, r ∈ g'.2) ∨ r = roi := by
  induction acc with
  | nil =>
    intro g hg r hr
    simp only [groupInsert, List.mem_singleton] at hg
    subst hg
    simp only [List.mem_singleton] at hr
    exact Or.inr hr
  | cons p rest ih =>
    obtain ⟨k, rs⟩ := p
    intro g hg r hr
    simp only [groupInsert] at hg
    by_cases hk : k = m
    · rw [if_pos hk] at hg
      rcases List.mem_cons.mp hg with h | h
      · subst h
        rcases List.mem_append.mp hr with h | h
        · exact Or.inl ⟨(k, rs), List.mem_cons_self _ _, h⟩
        · simp only [List.mem_singleton] at h
          exact Or.inr h
      · exact Or.inl ⟨g, List.mem_cons_of_mem _ h, hr⟩
    · rw [if_neg hk] at hg
      rcases List.mem_cons.mp hg with h | h
      · subst h
        exact Or.inl ⟨(k, rs), List.mem_cons_self _ _, hr⟩
      · rcases ih g h r hr with ⟨g', hg', hr'⟩ | h'
        · exact Or.inl ⟨g', List.mem_cons_of_mem _ hg', hr'⟩
        · exact Or.inr h'

theorem mem_of_mem_groupByMedia_aux (l : List (ROI × String)) :
    ∀ acc, ∀ g ∈ l.foldl (fun acc p => groupInsert acc p.2 p.1) acc, ∀ r ∈ g.2,
      (∃ g' ∈ acc, r ∈ g'.2) ∨ r ∈ l.map Prod.fst := by
  induction l with
  | nil =>
    intro acc g hg r hr
    exact Or.inl ⟨g, hg, hr⟩
  | cons p rest ih =>
    intro acc g hg r hr
    simp only [List.foldl_cons] at hg
    rcases ih (groupInsert acc p.2 p.1) g hg r hr with ⟨g', hg', hr'⟩ | h
    · rcases mem_of_mem_groupInsert acc p.2 p.1 g' hg' r hr' with h2 | he
      · exact Or.inl h2
      · subst he
        simp
    · right
      simp [h]

theorem mem_of_mem_groupByMedia (l : List (ROI × String)) :
    ∀ g ∈ groupByMedia l, ∀ r ∈ g.2, r ∈ l.map Prod.fst := by
  intro g hg r hr
  rcases mem_of_mem_groupByMedia_aux l [] g hg r hr with ⟨g', hg', _⟩ | h
  · simp at hg'
  · exact h

theorem mem_specimenIds_singleton (sp : Specimen) (pre : List Event) :
    sp.specimen_id ∈ specimenIds (pre ++ [Event.createSpecimen sp]) := by
  rw [specimenIds_append]
  refine List.mem_append_right _ ?_
  simp [specimenIds]

theorem mem_specimenSids_singleton (sp : Specimen) (pre : List Event) :
    sp.sid ∈ specimenSids (pre ++ [Event.createSpecimen sp]) := by
  rw [specimenSids_append]
  refine List.mem_append_right _ ?_
  simp [specimenSids]

theorem mem_blockIds_singleton (b : Block) (pre : List Event) :
    b.block_id ∈ blockIds (pre ++ [Event.createBlock b]) := by
  rw [blockIds_append]
  refine List.mem_append_right _ ?_
  simp [blockIds]

theorem mem_blockSids_singleton (b : Block) (pre : List Event) :
    b.sid ∈ blockSids (pre ++ [Event.createBlock b]) := by
  rw [blockSids_append]
  refine List.mem_append_right _ ?_
  simp [blockSids]

theorem mem_cuttingSessionIds_singleton (cs : CuttingSession) (pre : List Event) :
    cs.cutting_session_id ∈ cuttingSessionIds (pre ++ [Event.createCuttingSession cs]) := by
  rw [cuttingSessionIds_append]
  refine List.mem_append_right _ ?_
  simp [cuttingSessionIds]

theorem mem_roiIds_singleton (r : ROI) (pre : List Event) :
    r.roi_id ∈ roiIds (pre ++ [Event.createROI r]) := by
  rw [roiIds_append]
  refine List.mem_append_right _ ?_
  simp [roiIds]

theorem mem_imagingSessionIds_singleton (ims : ImagingSession) (pre : List Event) :
    ims.session_id ∈ imagingSessionIds (pre ++ [Event.createImagingSession ims]) := by
  rw [imagingSessionIds_append]
  refine List.mem_append_right _ ?_
  simp [imagingSessionIds]

theorem mem_acquisitionIds_singleton (a : Acquisition) (pre : List Event) :
    a.acquisition_id ∈ acquisitionIds (pre ++ [Event.createAcquisition a]) := by
  rw [acquisitionIds_append]
  refine List.mem_append_right _ ?_
  simp [acquisitionIds]

theorem create_specimen_refsOk (rQ : ℕ → ℚ) (rI : ℕ → ℤ) (s : GState) :
    ∃ (sp : Specimen) (s' : GState),
      create_specimen (pureEnv rQ rI) s = (Except.ok sp, s')
      ∧ (∃ d, s'.events = s.events ++ d ∧ refsOkFrom s.events d)
      ∧ sp.specimen_id ∈ specimenIds s'.events
      ∧ sp.sid ∈ specimenSids s'.events := by
  refine ⟨specimenAt rI s, _, create_specimen_run rQ rI s,
    ⟨[Event.createSpecimen (specimenAt rI s)], rfl, trivial, trivial⟩, ?_, ?_⟩
  · exact mem_specimenIds_singleton _ _
  · exact mem_specimenSids_singleton _ _

theorem blocksLoop_refsOk (specimen : Specimen) (rQ : ℕ → ℚ) (rI : ℕ → ℤ)
    (ks : List ℕ) :
    ∀ s : GState, specimen.specimen_id ∈ specimenIds s.events →
      ∃ (blocks : List Block) (s' : GState),
        blocksLoop specimen ks (pureEnv rQ rI) s = (Except.ok blocks, s')
        ∧ (∃ d, s'.events = s.events ++ d ∧ refsOkFrom s.events d)
        ∧ ∀ b ∈ blocks,
            b.block_id ∈ blockIds s'.events ∧ b.sid ∈ blockSids s'.events := by
  induction ks with
  | nil =>
    intro s hs
    exact ⟨[], s, rfl, ⟨[], by simp, trivial⟩, by simp⟩
  | cons i rest ih =>
    intro s hs
    obtain ⟨blocks, s', hrun, ⟨d, hd, hok⟩, hmem⟩ :=
      ih { s with iQ := s.iQ + 1, nextId := s.nextId + 1,
                  events := s.events
                    ++ [Event.createBlock (blockAt specimen i rQ s)] }
        (mem_specimenIds_mono _ _ hs)
    dsimp only at hd
    refine ⟨blockAt specimen i rQ s :: blocks, s', ?_, ?_, ?_⟩
    · rw [blocksLoop_cons_run, Mbind_run_ok2 _ hrun]
      rfl
    · refine ⟨Event.createBlock (blockAt specimen i rQ s) :: d, ?_, ?_⟩
      · rw [hd, List.append_assoc]
        rfl
      · exact ⟨hs, hok⟩
    · intro b hb
      rcases List.mem_cons.mp hb with hb | hb
      · subst hb
        constructor
        · rw [hd]
          exact mem_blockIds_mono _ _ (mem_blockIds_singleton _ _)
        · rw [hd]
          exact mem_blockSids_mono _ _ (mem_blockSids_singleton _ _)
      · exact hmem b hb

theorem sectionLoop_refsOk (specimen : Specimen) (block : Block)
    (cs : CuttingSession) (media_id : String) (j : ℕ)
    (bx bY bw bh : ℚ) (rQ : ℕ → ℚ) (rI : ℕ → ℤ) (ks : List ℕ) :
    ∀ s : GState,
      cs.cutting_session_id ∈ cuttingSessionIds s.events →
      specimen.sid ∈ specimenSids s.events →
      block.sid ∈ blockSids s.events →
      ∃ (pairs : List (ROI × String)) (s' : GState),
        sectionLoop specimen block cs media_id j bx bY bw bh ks
            (pureEnv rQ rI) s = (Except.ok pairs, s')
        ∧ (∃ d, s'.events = s.events ++ d ∧ refsOkFrom s.events d)
        ∧ ∀ p ∈ pairs, (p : ROI × String).1.roi_id ∈ roiIds s'.events := by
  induction ks with
  | nil =>
    intro s hcs hsp hbl
    exact ⟨[], s, rfl, ⟨[], by simp, trivial⟩, by simp⟩
  | cons k rest ih =>
    intro s hcs hsp hbl
    obtain ⟨pairs, s', hrun, ⟨d, hd, hok⟩, hmem⟩ :=
      ih { s with iQ := s.iQ + 4, nextId := s.nextId + 2,
                  events := s.events
                    ++ [Event.createSection (sectionAt cs (k + 1) media_id s),
                        Event.createROI (roiAtIter cs media_id j k bx bY bw bh
                          block specimen rQ s)] }
        (mem_cuttingSessionIds_mono _ _ hcs)
        (mem_specimenSids_mono _ _ hsp)
        (mem_blockSids_mono _ _ hbl)
    dsimp only at hd hok
    refine ⟨(roiAtIter cs media_id j k bx bY bw bh block specimen rQ s,
        media_id) :: pairs, s', ?_, ?_, ?_⟩
    · rw [sectionLoop_cons_run, Mbind_run_ok2 _ hrun]
      rfl
    · refine ⟨Event.createSection (sectionAt cs (k + 1) media_id s)
          :: Event.createROI (roiAtIter cs media_id j k bx bY bw bh
            block specimen rQ s) :: d, ?_, ?_⟩
      · rw [hd, List.append_assoc]
        rfl
      · exact ⟨hcs, ⟨mem_specimenSids_mono _ _ hsp, mem_blockSids_mono _ _ hbl⟩,
          by rw [List.append_assoc]; exact hok⟩
    · intro p hp
      rcases List.mem_cons.mp hp with hp | hp
      · subst hp
        rw [hd]
        refine mem_roiIds_mono _ _ ?_
        rw [roiIds_append]
        refine List.mem_append_right _ ?_
        simp [roiIds]
      · exact hmem p hp

theorem cuttingLoop_refsOk (specimen : Specimen) (block : Block) (args : Args)
    (rQ : ℕ → ℚ) (rI : ℕ → ℤ) (ks : List ℕ) :
    ∀ (counters : List (String × ℕ)) (s : GState),
      block.block_id ∈ blockIds s.events →
      specimen.sid ∈ specimenSids s.events →
      block.sid ∈ blockSids s.events →
      ∃ (cp : List (String × ℕ) × List (ROI × String)) (s' : GState),
        cuttingLoop specimen block args ks counters (pureEnv rQ rI) s =
          (Except.ok cp, s')
        ∧ (∃ d, s'.events = s.events ++ d ∧ refsOkFrom s.events d)
        ∧ ∀ p ∈ cp.2, (p : ROI × String).1.roi_id ∈ roiIds s'.events := by
  induction ks with
  | nil =>
    intro counters s hb hsp hbl
    exact ⟨(counters, []), s, rfl, ⟨[], by simp, trivial⟩, by simp⟩
  | cons j rest ih =>
    intro counters s hb hsp hbl
    obtain ⟨rois, s2, hrun1, ⟨d1, hd1, hok1⟩, hmem1⟩ :=
      sectionLoop_refsOk specimen block (cuttingSessionAt block (j + 1) rI s)
        ("TAPE" ++ block.block_id ++ toString (j + 1)) j
        (rI (s.iI + 1) : ℚ) (rI (s.iI + 2) : ℚ)
        (rI (s.iI + 3) : ℚ) (rI (s.iI + 4) : ℚ) rQ rI
        (List.range args.sections_per_session)
        { s with iI := s.iI + 5, nextId := s.nextId + 1,
                 events := s.events ++ [Event.createCuttingSession
                   (cuttingSessionAt block (j + 1) rI s)] }
        (mem_cuttingSessionIds_singleton _ _)
        (mem_specimenSids_mono _ _ hsp)
        (mem_blockSids_mono _ _ hbl)
    dsimp only at hd1 hok1
    obtain ⟨cp2, s3, hrun2, ⟨d2, hd2, hok2⟩, hmem2⟩ :=
      ih (countersInit counters ("TAPE" ++ block.block_id ++ toString (j + 1)))
        s2
        (by rw [hd1]
            exact mem_blockIds_mono _ _ (mem_blockIds_mono _ _ hb))
        (by rw [hd1]
            exact mem_specimenSids_mono _ _ (mem_specimenSids_mono _ _ hsp))
        (by rw [hd1]
            exact mem_blockSids_mono _ _ (mem_blockSids_mono _ _ hbl))
    refine ⟨(cp2.1, rois ++ cp2.2), s3, ?_, ?_, ?_⟩
    · rw [cuttingLoop_cons_run, Mbind_run_ok2 _ hrun1]
      beta_reduce
      rw [Mbind_run_ok2 _ hrun2]
      rfl
    · refine ⟨Event.createCuttingSession (cuttingSessionAt block (j + 1) rI s)
          :: (d1 ++ d2), ?_, ?_⟩
      · rw [hd2, hd1]
        simp only [List.append_assoc]
        rfl
      · refine ⟨hb, ?_⟩
        rw [refsOkFrom_append]
        refine ⟨hok1, ?_⟩
        have h2 := hok2
        rw [hd1] at h2
        exact h2
    · intro p hp
      rcases List.mem_append.mp hp with hp | hp
      · rw [hd2]
        exact mem_roiIds_mono _ _ (hmem1 p hp)
      · exact hmem2 p hp

theorem tilesLoop_refsOk (acq : Acquisition) (media_id : String) (args : Args)
    (bfs : ℚ) (tps : ℤ) (rQ : ℕ → ℚ) (rI : ℕ → ℤ) (ks : List ℕ) :
    ∀ s : GState, acq.acquisition_id ∈ acquisitionIds s.events →
      ∃ (tiles : List Tile) (s' : GState),
        tilesLoop acq media_id args bfs tps ks (pureEnv rQ rI) s =
          (Except.ok tiles, s')
        ∧ (∃ d, s'.events = s.events ++ d ∧ refsOkFrom s.events d) := by
  induction ks with
  | nil =>
    intro s ha
    exact ⟨[], s, rfl, ⟨[], by simp, trivial⟩⟩
  | cons k rest ih =>
    intro s ha
    obtain ⟨tiles, s', hrun, ⟨d, hd, hok⟩⟩ :=
      ih { s with iQ := s.iQ + 96, iI := s.iI + 3,
                  events := s.events ++ [Event.addTile acq.acquisition_id
                    (tileAt acq media_id args tps k rQ rI s)] }
        (mem_acquisitionIds_mono _ _ ha)
    dsimp only at hd hok
    refine ⟨tileAt acq media_id args tps k rQ rI s :: tiles, s', ?_, ?_⟩
    · rw [tilesLoop_cons_run, Mbind_run_ok2 _ hrun]
      rfl
    · refine ⟨Event.addTile acq.acquisition_id
          (tileAt acq media_id args tps k rQ rI s) :: d, ?_, ?_⟩
      · rw [hd, List.append_assoc]
        rfl
      · exact ⟨⟨ha, ha⟩, hok⟩

theorem create_tiles_refsOk (acq : Acquisition) (media_id : String)
    (args : Args) (rQ : ℕ → ℚ) (rI : ℕ → ℤ) (s : GState)
    (ha : acq.acquisition_id ∈ acquisitionIds s.events) :
    ∃ (tiles : List Tile) (s' : GState),
      create_tiles acq media_id args (pureEnv rQ rI) s = (Except.ok tiles, s')
      ∧ (∃ d, s'.events = s.events ++ d ∧ refsOkFrom s.events d) := by
  obtain ⟨tiles, s', hrun, ⟨d, hd, hok⟩⟩ :=
    tilesLoop_refsOk acq media_id args (rQ s.iQ) (tilesPerSide args) rQ rI
      (List.range ((tilesPerSide args * tilesPerSide args).toNat))
      { s with iQ := s.iQ + 1 } ha
  dsimp only at hd hok
  refine ⟨tiles, s', ?_, ⟨d, hd, hok⟩⟩
  have hstep : create_tiles acq media_id args (pureEnv rQ rI) s =
      tilesLoop acq media_id args (rQ s.iQ) (tilesPerSide args)
        (List.range ((tilesPerSide args * tilesPerSide args).toNat))
        (pureEnv rQ rI) { s with iQ := s.iQ + 1 } := by
    simp only [create_tiles, Bind.bind, Mbind, uniform_run, pureEnv_rQ]
  rw [hstep]
  exact hrun

theorem roiLoop_refsOk (ims : ImagingSession) (media_id : String)
    (args : Args) (rQ : ℕ → ℚ) (rI : ℕ → ℤ) (rois : List ROI) :
    ∀ s : GState,
      ims.session_id ∈ imagingSessionIds s.events →
      (∀ r ∈ rois, (r : ROI).roi_id ∈ roiIds s.events) →
      ∃ (acqs : List (Acquisition × List Tile)) (s' : GState),
        roiLoop ims media_id args rois (pureEnv rQ rI) s = (Except.ok acqs, s')
        ∧ (∃ d, s'.events = s.events ++ d ∧ refsOkFrom s.events d) := by
  induction rois with
  | nil =>
    intro s hims hrois
    exact ⟨[], s, rfl, ⟨[], by simp, trivial⟩⟩
  | cons roi rest ih =>
    intro s hims hrois
    have hA : (acquisitionAt ims roi args { s with events := s.events
          ++ [Event.addRois ims.session_id roi.roi_id] }).acquisition_id
        ∈ acquisitionIds (s.events
          ++ [Event.addRois ims.session_id roi.roi_id,
              Event.createAcquisition (acquisitionAt ims roi args
                { s with events := s.events
                  ++ [Event.addRois ims.session_id roi.roi_id] })]) := by
      rw [acquisitionIds_append]
      refine List.mem_append_right _ ?_
      simp [acquisitionIds]
    obtain ⟨tiles, s2, hrun1, ⟨d1, hd1, hok1⟩⟩ :=
      create_tiles_refsOk (acquisitionAt ims roi args { s with events := s.events
          ++ [Event.addRois ims.session_id roi.roi_id] }) media_id args rQ rI
        { s with nextId := s.nextId + 1,
                 events := s.events
                   ++ [Event.addRois ims.session_id roi.roi_id,
                       Event.createAcquisition (acquisitionAt ims roi args
                         { s with events := s.events
                           ++ [Event.addRois ims.session_id roi.roi_id] })] }
        hA
    dsimp only at hd1 hok1
    obtain ⟨more, s3, hrun2, ⟨d2, hd2, hok2⟩⟩ :=
      ih s2
        (by rw [hd1]
            exact mem_imagingSessionIds_mono _ _
              (mem_imagingSessionIds_mono _ _ hims))
        (fun r hr => by
          rw [hd1]
          exact mem_roiIds_mono _ _ (mem_roiIds_mono _ _
            (hrois r (List.mem_cons_of_mem _ hr))))
    refine ⟨(acquisitionAt ims roi args { s with events := s.events
        ++ [Event.addRois ims.session_id roi.roi_id] }, tiles) :: more, s3,
      ?_, ?_⟩
    · rw [roiLoop_cons_run, Mbind_run_ok2 _ hrun1]
      beta_reduce
      rw [Mbind_run_ok2 _ hrun2]
      rfl
    · refine ⟨Event.addRois ims.session_id roi.roi_id
          :: Event.createAcquisition (acquisitionAt ims roi args
            { s with events := s.events
              ++ [Event.addRois ims.session_id roi.roi_id] })
          :: (d1 ++ d2), ?_, ?_⟩
      · rw [hd2, hd1]
        simp only [List.append_assoc]
        rfl
      · refine ⟨⟨hims, hrois roi (List.mem_cons_self _ _)⟩, ⟨?_, ?_⟩, ?_⟩
        · exact mem_roiIds_mono _ _ (hrois roi (List.mem_cons_self _ _))
        · exact mem_imagingSessionIds_mono _ _ hims
        · rw [List.append_assoc, refsOkFrom_append]
          refine ⟨hok1, ?_⟩
          have h2 := hok2
          rw [hd1] at h2
          exact h2

theorem imagingLoop_refsOk (specimen : Specimen) (block : Block)
    (media_id : String) (media_rois : List ROI) (args : Args)
    (rQ : ℕ → ℚ) (rI : ℕ → ℤ) (ks : List ℕ) :
    ∀ (counters : List (String × ℕ)) (s : GState),
      specimen.specimen_id ∈ specimenIds s.events →
      block.block_id ∈ blockIds s.events →
      (∀ r ∈ media_rois, (r : ROI).roi_id ∈ roiIds s.events) →
      ∃ (cm : List (String × ℕ) ×
          List (ImagingSession × List ROI × List (Acquisition × List Tile)))
        (s' : GState),
        imagingLoop specimen block media_id media_rois args ks counters
          (pureEnv rQ rI) s = (Except.ok cm, s')
        ∧ (∃ d, s'.events = s.events ++ d ∧ refsOkFrom s.events d) := by
  induction ks with
  | nil =>
    intro counters s hsp hbl hrs
    exact ⟨(counters, []), s, rfl, ⟨[], by simp, trivial⟩⟩
  | cons i rest ih =>
    intro counters s hsp hbl hrs
    obtain ⟨acqs, s2, hrun1, ⟨d1, hd1, hok1⟩⟩ :=
      roiLoop_refsOk (imagingSessionAt specimen block media_id
          (countersGet (countersSet counters media_id
            (countersGet counters media_id + 1)) media_id) rI s)
        media_id args rQ rI
        ((media_rois.drop (i * args.rois_per_imaging_session)).take
          args.rois_per_imaging_session)
        { s with iI := s.iI + 6, nextId := s.nextId + 1,
                 events := s.events ++ [Event.createImagingSession
                   (imagingSessionAt specimen block media_id
                     (countersGet (countersSet counters media_id
                       (countersGet counters media_id + 1)) media_id) rI s)] }
        (mem_imagingSessionIds_singleton _ _)
        (fun r hr => mem_roiIds_mono _ _
          (hrs r (List.mem_of_mem_drop (List.mem_of_mem_take hr))))
    dsimp only at hd1 hok1
    obtain ⟨cm2, s3, hrun2, ⟨d2, hd2, hok2⟩⟩ :=
      ih (countersSet counters media_id (countersGet counters media_id + 1))
        s2
        (by rw [hd1]
            exact mem_specimenIds_mono _ _ (mem_specimenIds_mono _ _ hsp))
        (by rw [hd1]
            exact mem_blockIds_mono _ _ (mem_blockIds_mono _ _ hbl))
        (fun r hr => by
          rw [hd1]
          exact mem_roiIds_mono _ _ (mem_roiIds_mono _ _ (hrs r hr)))
    refine ⟨(cm2.1,
      (imagingSessionAt specimen block media_id
        (countersGet (countersSet counters media_id
          (countersGet counters media_id + 1)) media_id) rI s,
       (media_rois.drop (i * args.rois_per_imaging_session)).take
         args.rois_per_imaging_session,
       acqs) :: cm2.2), s3, ?_, ?_⟩
    · rw [imagingLoop_cons_run, Mbind_run_ok2 _ hrun1]
      beta_reduce
      rw [Mbind_run_ok2 _ hrun2]
      rfl
    · refine ⟨Event.createImagingSession
          (imagingSessionAt specimen block media_id
            (countersGet (countersSet counters media_id
              (countersGet counters media_id + 1)) media_id) rI s)
          :: (d1 ++ d2), ?_, ?_⟩
      · rw [hd2, hd1]
        simp only [List.append_assoc]
        rfl
      · refine ⟨⟨hsp, hbl⟩, ?_⟩
        rw [refsOkFrom_append]
        refine ⟨hok1, ?_⟩
        have h2 := hok2
        rw [hd1] at h2
        exact h2

theorem processMediaGroup_refsOk (specimen : Specimen) (block : Block)
    (args : Args) (media_id : String) (media_rois : List ROI)
    (counters : List (String × ℕ)) (rQ : ℕ → ℚ) (rI : ℕ → ℤ) (s : GState)
    (hsp : specimen.specimen_id ∈ specimenIds s.events)
    (hbl : block.block_id ∈ blockIds s.events)
    (hrs : ∀ r ∈ media_rois, (r : ROI).roi_id ∈ roiIds s.events) :
    ∃ (cm : List (String × ℕ) ×
        List (ImagingSession × List ROI × List (Acquisition × List Tile)))
      (s' : GState),
      processMediaGroup specimen block args media_id media_rois counters
        (pureEnv rQ rI) s = (Except.ok cm, s')
      ∧ (∃ d, s'.events = s.events ++ d ∧ refsOkFrom s.events d) := by
  obtain ⟨cm, s', hrun, hd⟩ :=
    imagingLoop_refsOk specimen block media_id media_rois args rQ rI
      (List.range (media_rois.length / args.rois_per_imaging_session))
      counters s hsp hbl hrs
  exact ⟨cm, s', hrun, hd⟩

theorem mediaLoop_refsOk (specimen : Specimen) (block : Block) (args : Args)
    (rQ : ℕ → ℚ) (rI : ℕ → ℤ) (gs : List (String × List ROI)) :
    ∀ (counters : List (String × ℕ)) (s : GState),
      specimen.specimen_id ∈ specimenIds s.events →
      block.block_id ∈ blockIds s.events →
      (∀ g ∈ gs, ∀ r ∈ (g : String × List ROI).2,
        (r : ROI).roi_id ∈ roiIds s.events) →
      ∃ (cn : List (String × ℕ) × ℕ) (s' : GState),
        mediaLoop specimen block args gs counters (pureEnv rQ rI) s =
          (Except.ok cn, s')
        ∧ (∃ d, s'.events = s.events ++ d ∧ refsOkFrom s.events d) := by
  induction gs with
  | nil =>
    intro counters s hsp hbl hgs
    exact ⟨(counters, 0), s, rfl, ⟨[], by simp, trivial⟩⟩
  | cons g rest ih =>
    obtain ⟨m, rois⟩ := g
    intro counters s hsp hbl hgs
    obtain ⟨cm, s2, hrun1, ⟨d1, hd1, hok1⟩⟩ :=
      processMediaGroup_refsOk specimen block args m rois counters rQ rI s
        hsp hbl (hgs (m, rois) (List.mem_cons_self _ _))
    obtain ⟨cn2, s3, hrun2, ⟨d2, hd2, hok2⟩⟩ :=
      ih cm.1 s2
        (by rw [hd1]
            exact mem_specimenIds_mono _ _ hsp)
        (by rw [hd1]
            exact mem_blockIds_mono _ _ hbl)
        (fun g hg r hr => by
          rw [hd1]
          exact mem_roiIds_mono _ _
            (hgs g (List.mem_cons_of_mem _ hg) r hr))
    refine ⟨(cn2.1, cm.2.length + cn2.2), s3, ?_, ?_⟩
    · rw [mediaLoop_cons_run, Mbind_run_ok2 _ hrun1]
      beta_reduce
      rw [Mbind_run_ok2 _ hrun2]
      rfl
    · refine ⟨d1 ++ d2, ?_, ?_⟩
      · rw [hd2, hd1, List.append_assoc]
      · rw [refsOkFrom_append]
        refine ⟨hok1, ?_⟩
        have h2 := hok2
        rw [hd1] at h2
        exact h2

theorem blockLoop_refsOk (specimen : Specimen) (args : Args)
    (rQ : ℕ → ℚ) (rI : ℕ → ℤ) (blocks : List Block) :
    ∀ s : GState,
      specimen.specimen_id ∈ specimenIds s.events →
      specimen.sid ∈ specimenSids s.events →
      (∀ b ∈ blocks, (b : Block).block_id ∈ blockIds s.events
        ∧ (b : Block).sid ∈ blockSids s.events) →
      ∃ (nm : ℕ × ℕ) (s' : GState),
        blockLoop specimen args blocks (pureEnv rQ rI) s = (Except.ok nm, s')
        ∧ (∃ d, s'.events = s.events ++ d ∧ refsOkFrom s.events d) := by
  induction blocks with
  | nil =>
    intro s hsp hss hbs
    exact ⟨(0, 0), s, rfl, ⟨[], by simp, trivial⟩⟩
  | cons block rest ih =>
    intro s hsp hss hbs
    obtain ⟨cb, s2, hrun1, ⟨d1, hd1, hok1⟩, hmem1⟩ :=
      cuttingLoop_refsOk specimen block args rQ rI
        (List.range args.cutting_sessions_per_block) [] s
        (hbs block (List.mem_cons_self _ _)).1
        hss
        (hbs block (List.mem_cons_self _ _)).2
    obtain ⟨cn, s3, hrun2, ⟨d2, hd2, hok2⟩⟩ :=
      mediaLoop_refsOk specimen block args rQ rI (groupByMedia cb.2) cb.1 s2
        (by rw [hd1]
            exact mem_specimenIds_mono _ _ hsp)
        (by rw [hd1]
            exact mem_blockIds_mono _ _ (hbs block (List.mem_cons_self _ _)).1)
        (fun g hg r hr => by
          obtain ⟨p, hp, hpr⟩ :=
            List.mem_map.mp (mem_of_mem_groupByMedia cb.2 g hg r hr)
          rw [← hpr]
          exact hmem1 p hp)
    obtain ⟨nm, s4, hrun3, ⟨d3, hd3, hok3⟩⟩ :=
      ih s3
        (by rw [hd2, hd1]
            exact mem_specimenIds_mono _ _ (mem_specimenIds_mono _ _ hsp))
        (by rw [hd2, hd1]
            exact mem_specimenSids_mono _ _ (mem_specimenSids_mono _ _ hss))
        (fun b hb => by
          rw [hd2, hd1]
          exact ⟨mem_blockIds_mono _ _ (mem_blockIds_mono _ _
              (hbs b (List.mem_cons_of_mem _ hb)).1),
            mem_blockSids_mono _ _ (mem_blockSids_mono _ _
              (hbs b (List.mem_cons_of_mem _ hb)).2)⟩)
    refine ⟨(cn.2 + nm.1, cb.2.length + nm.2), s4, ?_, ?_⟩
    · rw [blockLoop_cons_run, Mbind_run_ok2 _ hrun1]
      beta_reduce
      rw [Mbind_run_ok2 _ hrun2]
      beta_reduce
      rw [Mbind_run_ok2 _ hrun3]
      rfl
    · refine ⟨d1 ++ (d2 ++ d3), ?_, ?_⟩
      · rw [hd3, hd2, hd1]
        simp only [List.append_assoc]
      · rw [refsOkFrom_append]
        refine ⟨hok1, ?_⟩
        rw [refsOkFrom_append]
        constructor
        · have h2 := hok2
          rw [hd1] at h2
          exact h2
        · have h3 := hok3
          rw [hd2, hd1] at h3
          exact h3

theorem generate_data_body_refsOk (args : Args) (rQ : ℕ → ℚ) (rI : ℕ → ℤ)
    (s : GState) :
    ∃ (a : Summary) (s' : GState),
      generate_data_body args (pureEnv rQ rI) s = (Except.ok a, s')
      ∧ (∃ d, s'.events = s.events ++ d ∧ refsOkFrom s.events d) := by
  obtain ⟨blocks, s2, hrun1, ⟨d1, hd1, hok1⟩, hmemB⟩ :=
    blocksLoop_refsOk (specimenAt rI s) rQ rI (List.range args.num_blocks)
      { s with iI := s.iI + 2, nextId := s.nextId + 1,
               events := s.events ++ [Event.createSpecimen (specimenAt rI s)] }
      (mem_specimenIds_singleton _ _)
  dsimp only at hd1 hok1
  obtain ⟨tt, s3, hrun2, ⟨d2, hd2, hok2⟩⟩ :=
    blockLoop_refsOk (specimenAt rI s) args rQ rI blocks s2
      (by rw [hd1]
          exact mem_specimenIds_mono _ _ (mem_specimenIds_singleton _ _))
      (by rw [hd1]
          exact mem_specimenSids_mono _ _ (mem_specimenSids_singleton _ _))
      hmemB
  refine ⟨{ num_blocks := blocks.length
            total_rois := tt.2
            total_imaging_sessions := tt.1
            tiles_per_acquisition := printedTilesPerAcquisition args
            total_tiles := (tt.1 : ℤ) * (args.rois_per_imaging_session : ℤ)
              * printedTilesPerAcquisition args }, s3, ?_, ?_⟩
  · rw [generate_data_body_step, Mbind_run_ok2 _ hrun1]
    beta_reduce
    rw [Mbind_run_ok2 _ hrun2]
    rfl
  · refine ⟨Event.createSpecimen (specimenAt rI s) :: (d1 ++ d2), ?_, ?_⟩
    · rw [hd2, hd1]
      simp only [List.append_assoc]
      rfl
    · refine ⟨trivial, ?_⟩
      rw [refsOkFrom_append]
      refine ⟨hok1, ?_⟩
      have h2 := hok2
      rw [hd1] at h2
      exact h2

/-- C9: in every error-free run, every client call's parent-reference
fields — `specimen_id` on blocks, `block_id` on cutting sessions,
`cutting_session_id` on sections, the server-assigned specimen/block
`_id`s on ROIs, `specimen_id`/`block_id` on imaging sessions, the
session and ROI ids passed to `add_rois`, `roi_id` and
`imaging_session_id` on acquisitions, and the acquisition id passed and
stored with every `add_tile` — equal identifiers of a record returned
by an earlier create call of the same run: no child is created before
its referenced parent. -/
theorem C9_parent_references (args : Args) (rQ : ℕ → ℚ) (rI : ℕ → ℤ) :
    ∃ (a : Summary) (s' : GState),
      generate_data args (pureEnv rQ rI) s0 = (Except.ok (some a), s')
      ∧ refsOk s'.events := by
  obtain ⟨a, s', hrun, ⟨d, hd, hok⟩⟩ := generate_data_body_refsOk args rQ rI s0
  refine ⟨a, s', generate_data_of_body_ok _ _ _ _ _ hrun, ?_⟩
  rw [refsOk, hd]
  exact hok
